import Mathlib

/-!
# go-oauth2-server: the token and session store

A shallow embedding of `internal/store` (string_array.go, models.go, store.go,
client.go, oauth2.go, pkce.go) and theorems about it.

The store talks to SQLite through GORM.  The database is modelled as one list of
rows per table, in insertion order, and the GORM calls the store makes are
modelled by the functions of the `gorm` namespace below.  What is taken from the
libraries, and not from the repository, is stated in the doc comment of the
definition that models it.

Conventions: a method of `Store` takes the database and returns the database it
leaves behind; the context argument is dropped; `time.Now()` and
`uuid.NewString()` are arguments (`now`, `uuid`); a Go result `(value, err)` is a
pair of options and a Go `error` an `Option Error`, `none` being nil.

Columns left out: `gorm.Model.CreatedAt` and `gorm.Model.UpdatedAt`, and the
embedded numeric `gorm.Model.ID` that every model shadows with its own string
`ID`.  No function of the store reads them.  Foreign keys are declared by the
migration and not enforced by SQLite as the store opens it, so they are not
modelled as constraints.
-/

set_option autoImplicit false

/-! ## Go library functions -/

namespace time

/-- An instant (time.Time), as a count of ticks; the zero Time is 0. -/
abbrev Time := Nat

/-- Go: t.After(u) -/
def Time.After (t u : Time) : Bool := decide (u < t)

end time

namespace strings

/-- Go: strings.Join(elems, sep), for a one-character separator. -/
def Join (elems : List String) (sep : Char) : String :=
  String.mk ([sep].intercalate (elems.map String.data))

/-- Go: strings.Split(s, sep), for a one-character separator: the pieces of s
between the occurrences of sep; a string without sep gives the one piece s. -/
def Split (s : String) (sep : Char) : List String :=
  (s.data.splitOn sep).map String.mk

end strings

namespace url

/-- Go: url.Values, a map from a key to its list of values, as an association list. -/
abbrev Values := List (String × List String)

end url

namespace datatypes

/-- A datatypes.JSON value (a byte slice), by what encoding/json makes of the bytes
when it decodes them into a Go value of type α. -/
inductive JSON (α : Type) where
  /-- the nil (or empty) slice; datatypes.JSON.Value stores it as NULL -/
  | nil
  /-- the document null -/
  | null
  /-- a document that json.Unmarshal decodes to v, and json.Marshal produces from v -/
  | doc (v : α)
  /-- bytes that json.Unmarshal rejects; decoded is what the call has stored in a
  destination that was empty before it by the time it returns the error (nothing
  for bytes that are no JSON text, the entries before the one it cannot decode for
  an object) -/
  | malformed (raw : String) (decoded : α)
  deriving DecidableEq, Repr

/-- A JSON column after one write and one read: Value turns the nil slice into
NULL, and GORM reads a NULL column back as the zero value of the field, the nil
slice again; other bytes come back as they were written. -/
def JSON.scan {α : Type} : JSON α → JSON α
  | .nil => .nil
  | j => j

end datatypes

/-- The error values the store returns or wraps. -/
inductive Error where
  /-- fosite.ErrNotFound -/
  | ErrNotFound
  /-- fosite.ErrInvalidatedAuthorizeCode -/
  | ErrInvalidatedAuthorizeCode
  /-- fosite.ErrInactiveToken -/
  | ErrInactiveToken
  /-- fosite.ErrJTIKnown -/
  | ErrJTIKnown
  /-- e.WithDebug(debug) on a fosite error -/
  | WithDebug (e : Error) (debug : String)
  /-- gorm.ErrRecordNotFound -/
  | ErrRecordNotFound
  /-- gorm.ErrMissingWhereClause -/
  | ErrMissingWhereClause
  /-- SQLite: UNIQUE constraint failed, on the named table and column -/
  | UniqueConstraintFailed (table column : String)
  /-- an encoding/json error -/
  | SyntaxError (msg : String)
  /-- fmt.Errorf with one %w verb -/
  | Errorf (format : String) (err : Error)
  /-- fmt.Errorf with two %w verbs -/
  | Errorf2 (format : String) (err1 err2 : Error)
  deriving DecidableEq, Repr

namespace errors

/-- Go: errors.Is(err, target).  A wrapping error matches when one of the errors it
wraps does; a fosite error with a debug message matches the error it was made from
(RFC6749Error.Is compares the error name and code only). -/
def Is : Error → Error → Bool
  | .WithDebug e _, target => Is e target
  | .Errorf _ e, target => Is e target
  | .Errorf2 _ e1 e2, target => Is e1 target || Is e2 target
  | .ErrNotFound, target => decide (target = .ErrNotFound)
  | .ErrInvalidatedAuthorizeCode, target => decide (target = .ErrInvalidatedAuthorizeCode)
  | .ErrInactiveToken, target => decide (target = .ErrInactiveToken)
  | .ErrJTIKnown, target => decide (target = .ErrJTIKnown)
  | .ErrRecordNotFound, target => decide (target = .ErrRecordNotFound)
  | .ErrMissingWhereClause, target => decide (target = .ErrMissingWhereClause)
  | .UniqueConstraintFailed t c, target => decide (target = .UniqueConstraintFailed t c)
  | .SyntaxError m, target => decide (target = .SyntaxError m)

end errors

namespace json

/-- Go: json.Marshal(v) for a url.Values: it cannot fail, and gives a document
that decodes to v again. -/
def Marshal {α : Type} (v : α) : Except Error (datatypes.JSON α) := .ok (.doc v)

/-- Go: json.Unmarshal(data, &v), with v the zero value before the call: the
document null leaves v as it is, the empty input and malformed bytes are errors. -/
def Unmarshal {α : Type} (zero : α) : datatypes.JSON α → Except Error α
  | .nil => .error (.SyntaxError "unexpected end of JSON input")
  | .null => .ok zero
  | .doc v => .ok v
  | .malformed raw _ => .error (.SyntaxError raw)

end json

/-! ## GORM and SQLite -/

namespace gorm

/-- The part of gorm.Model that is modelled: the soft-delete mark. -/
structure Model where
  DeletedAt : Option time.Time := none
  deriving DecidableEq, Repr

/-- What GORM derives from a model struct and its tags. -/
structure Schema (α : Type) where
  /-- TableName() -/
  Table : String
  /-- the column tagged primarykey -/
  id : α → String
  /-- the row with another primary key -/
  setID : α → String → α
  /-- gorm.Model.DeletedAt -/
  deletedAt : α → Option time.Time
  /-- the columns tagged unique, with their names -/
  unique : List (String × (α → String))
  /-- a row as it is read back: every column has gone through its driver.Valuer
  on the write and its sql.Scanner on the read; associations are not columns -/
  scan : α → α

variable {α : Type}

/-- SQLite compares text keys byte by byte (BINARY collation); on UTF-8 that is
the lexicographic order of the code points. -/
def lessChars : List Char → List Char → Bool
  | _, [] => false
  | [], _ :: _ => true
  | a :: as, b :: bs => decide (a.toNat < b.toNat) || (a == b && lessChars as bs)

/-- The order of ORDER BY on a text column. -/
def less (a b : String) : Bool := lessChars a.data b.data

/-- A soft-deleted row is invisible to queries and updates:
GORM adds deleted_at IS NULL to them. -/
def live (S : Schema α) (r : α) : Bool := (S.deletedAt r).isNone

/-- ORDER BY id LIMIT 1 over the selected rows. -/
def orderFirst (S : Schema α) : List α → Option α
  | [] => none
  | r :: rs =>
    match orderFirst S rs with
    | none => some r
    | some m => if less (S.id m) (S.id r) then some m else some r

/-- A struct condition db.Where(T{Col: v}) on one text column: GORM builds
conditions from the non-zero fields only, so the empty string gives no condition. -/
def whereEq (col : α → String) (v : String) : α → Bool :=
  fun r => v == "" || col r == v

/-- Go: db.Where(conds...).First(&result): the live row matching every condition
that has the least primary key, or ErrRecordNotFound. -/
def First (S : Schema α) (conds : List (α → Bool)) (rows : List α) : Except Error α :=
  match orderFirst S (rows.filter (fun r => live S r && conds.all (fun c => c r))) with
  | none => .error .ErrRecordNotFound
  | some r => .ok (S.scan r)

/-- The constraint an INSERT of x would break, if any: the primary key first, then
the unique columns.  Soft-deleted rows count, they are still in the table. -/
def conflict (S : Schema α) (x : α) (rows : List α) : Option Error :=
  if rows.any (fun r => S.id r == S.id x) then
    some (.UniqueConstraintFailed S.Table "id")
  else
    match S.unique.find? (fun u => rows.any (fun r => u.2 r == u.2 x)) with
    | some u => some (.UniqueConstraintFailed S.Table u.1)
    | none => none

/-- Go: db.Create(&x): INSERT, which fails on a primary key or unique column
that is already taken and otherwise appends the row. -/
def Create (S : Schema α) (x : α) (rows : List α) : Except Error (List α) :=
  match conflict S x rows with
  | some e => .error e
  | none => .ok (rows ++ [x])

/-- An association saved along with its owner: INSERT ... ON CONFLICT DO NOTHING. -/
def CreateDoNothing (S : Schema α) (x : α) (rows : List α) : List α :=
  match conflict S x rows with
  | some _ => rows
  | none => rows ++ [x]

/-- UPDATE ... SET every column WHERE id = key, checked against the unique columns
of the other rows. -/
def updateAll (S : Schema α) (key : String) (x : α) (rows : List α) : Except Error (List α) :=
  match S.unique.find? (fun u => rows.any (fun r => S.id r != key && u.2 r == u.2 x)) with
  | some u => .error (.UniqueConstraintFailed S.Table u.1)
  | none => .ok (rows.map (fun r => if S.id r == key then S.setID x key else r))

/-- Go: db.Clauses(clause.OnConflict{Columns: col, UpdateAll: true}).Create(&x):
INSERT ... ON CONFLICT (col) DO UPDATE SET every column but the primary key.  A row
that holds the same value in col takes the columns of x; without such a row this is
a plain INSERT.  Any other constraint that is broken is an error. -/
def Upsert (S : Schema α) (col : α → String) (x : α) (rows : List α) : Except Error (List α) :=
  match rows.find? (fun r => col r == col x) with
  | some old => updateAll S (S.id old) x rows
  | none => Create S x rows

/-- Go: db.Save(x) for a struct x.  With a zero primary key it is Create; otherwise
UPDATE of every column WHERE id = x.id on the live row, and when no row was
updated, an INSERT ... ON CONFLICT (id) DO UPDATE. -/
def Save (S : Schema α) (x : α) (rows : List α) : Except Error (List α) :=
  if S.id x == "" then Create S x rows
  else if rows.any (fun r => S.id r == S.id x && live S r) then
    match S.unique.find? (fun u => rows.any (fun r => S.id r != S.id x && u.2 r == u.2 x)) with
    | some u => .error (.UniqueConstraintFailed S.Table u.1)
    | none => .ok (rows.map (fun r => if S.id r == S.id x && live S r then x else r))
  else Upsert S S.id x rows

/-- Go: db.Preload(assoc) for a belongs-to association with foreign key fk: the
live row of the other table with that primary key, or the zero struct when the
key is zero or no row is found. -/
def Preload {β : Type} (S : Schema β) (zero : β) (fk : String) (rows : List β) : β :=
  if fk == "" then zero
  else
    match rows.find? (fun r => S.id r == fk && live S r) with
    | some r => S.scan r
    | none => zero

end gorm

/-! ## string_array.go -/

namespace store

/-- Go: type StringArray []string.  The nil slice and the empty slice are both the
empty list; Value treats them alike. -/
abbrev StringArray := List String

/-- Go: func (s StringArray) Value(): the empty string for the nil slice, else the
elements joined with a semicolon. -/
def StringArray.Value (s : StringArray) : String :=
  if s = [] then "" else strings.Join s ';'

/-- Go: func (s *StringArray) Scan(value): a NULL column leaves the receiver as
it is, a string is split at every semicolon.  (The error for a value that is not a
string has no counterpart: a text column always yields a string.) -/
def StringArray.Scan (s : StringArray) (value : Option String) : StringArray :=
  match value with
  | none => s
  | some st => strings.Split st ';'

/-- A StringArray column after one write and one read. -/
def StringArray.stored (s : StringArray) : StringArray :=
  StringArray.Scan [] (some (StringArray.Value s))

/-! ## models.go -/

/-- Go: type User struct -/
structure User extends gorm.Model where
  ID : String := ""
  Active : Bool := false
  Name : String := ""
  Username : String := ""
  Password : String := ""
  deriving DecidableEq, Repr

/-- Go: type Client struct -/
structure Client extends gorm.Model where
  ID : String := ""
  Active : Bool := false
  Secret : String := ""
  RotatedSecrets : StringArray := []
  Public : Bool := false
  RedirectURIs : StringArray := []
  Scopes : StringArray := []
  Audience : StringArray := []
  Grants : StringArray := []
  ResponseTypes : StringArray := []
  TokenEndpointAuthMethod : String := ""
  deriving DecidableEq, Repr

/-- Go: func (c Client) GetID() string -/
def Client.GetID (c : Client) : String := c.ID

/-- Go: type ClientJWT struct -/
structure ClientJWT extends gorm.Model where
  ID : String := ""
  Active : Bool := false
  JTI : String := ""
  ExpiresAt : time.Time := 0
  deriving DecidableEq, Repr

/-- Go: type Session struct.  ExpiresAt holds a JSON object from token type to
time, Extra a JSON object of claims (each value kept as its JSON text). -/
structure Session extends gorm.Model where
  ID : String := ""
  ClientID : String := ""
  Username : String := ""
  Subject : String := ""
  ExpiresAt : datatypes.JSON (List (String × time.Time)) := .nil
  Extra : datatypes.JSON (List (String × String)) := .nil
  UserID : String := ""
  User : User := {}
  deriving DecidableEq, Repr

/-- Go: type AuthorizationCode struct -/
structure AuthorizationCode extends gorm.Model where
  ID : String := ""
  Active : Bool := false
  Code : String := ""
  RequestedAt : time.Time := 0
  RequestedScopes : StringArray := []
  GrantedScopes : StringArray := []
  Form : datatypes.JSON url.Values := .nil
  RequestedAudience : StringArray := []
  GrantedAudience : StringArray := []
  SessionID : String := ""
  Session : Session := {}
  ClientID : String := ""
  Client : Client := {}
  deriving DecidableEq, Repr

/-- Go: type AccessToken struct -/
structure AccessToken extends gorm.Model where
  ID : String := ""
  Active : Bool := false
  Signature : String := ""
  RequestedAt : time.Time := 0
  RequestedScopes : StringArray := []
  GrantedScopes : StringArray := []
  Form : datatypes.JSON url.Values := .nil
  RequestedAudience : StringArray := []
  GrantedAudience : StringArray := []
  ClientID : String := ""
  Client : Client := {}
  SessionID : String := ""
  Session : Session := {}
  deriving DecidableEq, Repr

/-- Go: type RefreshToken struct -/
structure RefreshToken extends gorm.Model where
  ID : String := ""
  Active : Bool := false
  Signature : String := ""
  RequestedAt : time.Time := 0
  RequestedScopes : StringArray := []
  GrantedScopes : StringArray := []
  Form : datatypes.JSON url.Values := .nil
  RequestedAudience : StringArray := []
  GrantedAudience : StringArray := []
  ClientID : String := ""
  Client : Client := {}
  SessionID : String := ""
  Session : Session := {}
  deriving DecidableEq, Repr

/-- Go: type PKCE struct -/
structure PKCE extends gorm.Model where
  ID : String := ""
  Active : Bool := false
  Signature : String := ""
  RequestedAt : time.Time := 0
  RequestedScopes : StringArray := []
  GrantedScopes : StringArray := []
  Form : datatypes.JSON url.Values := .nil
  RequestedAudience : StringArray := []
  GrantedAudience : StringArray := []
  SessionID : String := ""
  Session : Session := {}
  ClientID : String := ""
  Client : Client := {}
  deriving DecidableEq, Repr

/-- Table users: primary key ID, Username unique. -/
def User.schema : gorm.Schema User where
  Table := "users"
  id := fun r => r.ID
  setID := fun r k => { r with ID := k }
  deletedAt := fun r => r.DeletedAt
  unique := [("username", fun r => r.Username)]
  scan := fun r => r

/-- Table clients: primary key ID; six StringArray columns. -/
def Client.schema : gorm.Schema Client where
  Table := "clients"
  id := fun r => r.ID
  setID := fun r k => { r with ID := k }
  deletedAt := fun r => r.DeletedAt
  unique := []
  scan := fun r =>
    { r with
      RotatedSecrets := r.RotatedSecrets.stored
      RedirectURIs := r.RedirectURIs.stored
      Scopes := r.Scopes.stored
      Audience := r.Audience.stored
      Grants := r.Grants.stored
      ResponseTypes := r.ResponseTypes.stored }

/-- Table client_jwts (ClientJWT has no TableName method): primary key ID; JTI is
not tagged unique. -/
def ClientJWT.schema : gorm.Schema ClientJWT where
  Table := "client_jwts"
  id := fun r => r.ID
  setID := fun r k => { r with ID := k }
  deletedAt := fun r => r.DeletedAt
  unique := []
  scan := fun r => r

/-- Table sessions: primary key ID; User is an association, not a column. -/
def Session.schema : gorm.Schema Session where
  Table := "sessions"
  id := fun r => r.ID
  setID := fun r k => { r with ID := k }
  deletedAt := fun r => r.DeletedAt
  unique := []
  scan := fun r => { r with ExpiresAt := r.ExpiresAt.scan, Extra := r.Extra.scan, User := {} }

/-- Table authorization_codes: primary key ID; Code is not tagged unique. -/
def AuthorizationCode.schema : gorm.Schema AuthorizationCode where
  Table := "authorization_codes"
  id := fun r => r.ID
  setID := fun r k => { r with ID := k }
  deletedAt := fun r => r.DeletedAt
  unique := []
  scan := fun r =>
    { r with
      RequestedScopes := r.RequestedScopes.stored
      GrantedScopes := r.GrantedScopes.stored
      Form := r.Form.scan
      RequestedAudience := r.RequestedAudience.stored
      GrantedAudience := r.GrantedAudience.stored
      Session := {}
      Client := {} }

/-- Table access_tokens: primary key ID, Signature unique. -/
def AccessToken.schema : gorm.Schema AccessToken where
  Table := "access_tokens"
  id := fun r => r.ID
  setID := fun r k => { r with ID := k }
  deletedAt := fun r => r.DeletedAt
  unique := [("signature", fun r => r.Signature)]
  scan := fun r =>
    { r with
      RequestedScopes := r.RequestedScopes.stored
      GrantedScopes := r.GrantedScopes.stored
      Form := r.Form.scan
      RequestedAudience := r.RequestedAudience.stored
      GrantedAudience := r.GrantedAudience.stored
      Session := {}
      Client := {} }

/-- Table refresh_tokens: primary key ID, Signature unique. -/
def RefreshToken.schema : gorm.Schema RefreshToken where
  Table := "refresh_tokens"
  id := fun r => r.ID
  setID := fun r k => { r with ID := k }
  deletedAt := fun r => r.DeletedAt
  unique := [("signature", fun r => r.Signature)]
  scan := fun r =>
    { r with
      RequestedScopes := r.RequestedScopes.stored
      GrantedScopes := r.GrantedScopes.stored
      Form := r.Form.scan
      RequestedAudience := r.RequestedAudience.stored
      GrantedAudience := r.GrantedAudience.stored
      Session := {}
      Client := {} }

/-- Table pkces: primary key ID, Signature unique. -/
def PKCE.schema : gorm.Schema PKCE where
  Table := "pkces"
  id := fun r => r.ID
  setID := fun r k => { r with ID := k }
  deletedAt := fun r => r.DeletedAt
  unique := [("signature", fun r => r.Signature)]
  scan := fun r =>
    { r with
      RequestedScopes := r.RequestedScopes.stored
      GrantedScopes := r.GrantedScopes.stored
      Form := r.Form.scan
      RequestedAudience := r.RequestedAudience.stored
      GrantedAudience := r.GrantedAudience.stored
      Session := {}
      Client := {} }

end store

namespace fosite

/-- Go: fosite.Request, which is also what the store is handed as a
fosite.Requester: GetID, GetRequestedAt, GetClient, GetRequestedScopes,
GetGrantedScopes, GetRequestForm, GetSession, GetRequestedAudience and
GetGrantedAudience read these fields. -/
structure Request where
  ID : String := ""
  RequestedAt : time.Time := 0
  Client : store.Client := {}
  RequestedScope : List String := []
  GrantedScope : List String := []
  Form : url.Values := []
  Session : store.Session := {}
  RequestedAudience : List String := []
  GrantedAudience : List String := []
  deriving DecidableEq, Repr

end fosite

namespace store

/-! ## store.go -/

/-- Go: type Store struct with its db handle: the rows of the eight tables that
AutoMigrate creates in auth.db. -/
structure Store where
  access_tokens : List AccessToken := []
  authorization_codes : List AuthorizationCode := []
  clients : List Client := []
  client_jwts : List ClientJWT := []
  users : List User := []
  pkces : List PKCE := []
  refresh_tokens : List RefreshToken := []
  sessions : List Session := []
  deriving DecidableEq, Repr

/-- The users that NewStore seeds; id stands for uuid.NewString(). -/
def seedUsers (id : String) : List User :=
  [ { ID := id, Active := true, Name := "Charles Doe", Username := "ovl_doe",
      Password := "12345678" } ]

/-- The clients that NewStore seeds. -/
def seedClients : List Client :=
  [ { ID := "client-one", Active := true,
      Secret := "$2a$10$IxMdI6d.LIRZPpSfEwNoeu4rY3FhDREsxFJXikcgdRRAStxUlsuEO",
      RotatedSecrets := ["$2y$10$X51gLxUQJ.hGw1epgHTE5u0bt64xM0COU7K9iAp.OFg8p2pUd.1zC"],
      Public := false,
      RedirectURIs :=
        [ "http://localhost:8080/callback",
          "http://127.0.0.1:8080/callback",
          "http://127.0.0.1:8080/accounts/customprovider/login/callback/",
          "http://localhost:8080/accounts/customprovider/login/callback/" ],
      Scopes := ["fosite", "photos", "offline"],
      Audience := [],
      Grants := ["implicit", "refresh_token", "authorization_code", "client_credentials"],
      ResponseTypes := ["code", "token", "code token", "implicit"],
      TokenEndpointAuthMethod := "client_secret_basic" },
    { ID := "client-two", Active := true,
      Secret := "$2a$10$IxMdI6d.LIRZPpSfEwNoeu4rY3FhDREsxFJXikcgdRRAStxUlsuEO",
      RotatedSecrets := ["$2y$10$X51gLxUQJ.hGw1epgHTE5u0bt64xM0COU7K9iAp.OFg8p2pUd.1zC"],
      Public := false,
      RedirectURIs := [],
      Scopes := ["fosite", "photos", "offline"],
      Audience := [],
      Grants := ["implicit", "refresh_token", "authorization_code", "client_credentials"],
      ResponseTypes := ["code", "token", "code token"],
      TokenEndpointAuthMethod := "client_secret_basic" } ]

/-- The loop over the seeded clients: each is upserted on its id; an error stops
the process (log.Fatal). -/
def seedClientRows : List Client → List Client → Except Error (List Client)
  | [], rows => .ok rows
  | c :: cs, rows =>
    match gorm.Upsert Client.schema (fun r => r.ID) c rows with
    | .error e => .error e
    | .ok rows1 => seedClientRows cs rows1

/-- The loop over the seeded users: each is upserted on its username. -/
def seedUserRows : List User → List User → Except Error (List User)
  | [], rows => .ok rows
  | u :: us, rows =>
    match gorm.Upsert User.schema (fun r => r.Username) u rows with
    | .error e => .error e
    | .ok rows1 => seedUserRows us rows1

/-- Go: func NewStore() *Store, on the database file as it is found (db, empty at
the first start); AutoMigrate changes no row.  An error is a log.Fatal. -/
def NewStore (db : Store) (uuid : String) : Except Error Store :=
  match seedClientRows seedClients db.clients with
  | .error e => .error e
  | .ok clients =>
    match seedUserRows (seedUsers uuid) db.users with
    | .error e => .error e
    | .ok users => .ok { db with clients := clients, users := users }

/-! ## client.go -/

/-- Go: func (m Store) ClientAssertionJWTValid(ctx, jti); now is time.Now(). -/
def Store.ClientAssertionJWTValid (m : Store) (now : time.Time) (jti : String) :
    Option Error :=
  match gorm.First ClientJWT.schema [gorm.whereEq (fun r => r.JTI) jti] m.client_jwts with
  | .error _ => none
  | .ok result =>
    if result.ExpiresAt.After now then some .ErrJTIKnown
    else none

/-- Go: func (m Store) SetClientAssertionJWT(ctx, jti, exp); now is time.Now() and
uuid is uuid.NewString(). -/
def Store.SetClientAssertionJWT (m : Store) (now : time.Time) (uuid : String)
    (jti : String) (exp : time.Time) : Store × Option Error :=
  match gorm.First ClientJWT.schema
      [gorm.whereEq (fun r => r.JTI) jti, fun r => decide (r.ExpiresAt > now)]
      m.client_jwts with
  | .error _ => (m, some .ErrJTIKnown)
  | .ok _ =>
    let jwt : ClientJWT := { ID := uuid, JTI := jti, ExpiresAt := exp }
    match gorm.Create ClientJWT.schema jwt m.client_jwts with
    | .error err => (m, some (.Errorf "error creating client assertion jwt: %w" err))
    | .ok rows => ({ m with client_jwts := rows }, none)

/-! ## oauth2.go and pkce.go -/

/-- Go: m.db.Clauses(clause.OnConflict{Columns: id, UpdateAll: true}).Create(&session),
the first write of every Create...Session.  GORM saves a belongs-to association
that is set before its owner: a non-zero session.User is inserted with ON CONFLICT
DO NOTHING and its ID copied to session.UserID; then the session is upserted on
its id.  The statements of one Create run in one transaction. -/
def Store.createSession (m : Store) (session : Session) : Except Error Store :=
  let users :=
    if session.User = {} then m.users
    else gorm.CreateDoNothing User.schema session.User m.users
  let session : Session :=
    if session.User = {} then session else { session with UserID := session.User.ID }
  match gorm.Upsert Session.schema (fun r => r.ID) session m.sessions with
  | .error e => .error e
  | .ok sessions => .ok { m with users := users, sessions := sessions }

/-- Go: Preload("Session.User") on a loaded row: the session of the row with the
user of that session. -/
def Store.preloadSession (m : Store) (sessionID : String) : Session :=
  let session := gorm.Preload Session.schema {} sessionID m.sessions
  { session with User := gorm.Preload User.schema {} session.UserID m.users }

/-- Go: Preload(clause.Associations) on a loaded row, for its Client. -/
def Store.preloadClient (m : Store) (clientID : String) : Client :=
  gorm.Preload Client.schema {} clientID m.clients

/-- Go: func (m Store) CreateAuthorizeCodeSession(ctx, code, request) -/
def Store.CreateAuthorizeCodeSession (m : Store) (code : String) (request : fosite.Request) :
    Store × Option Error :=
  let client := request.Client
  match json.Marshal request.Form with
  | .error err => (m, some (.Errorf "error marshalling authorization code form: %w" err))
  | .ok form =>
    let session := request.Session
    match m.createSession session with
    | .error err => (m, some (.Errorf "error creating authorization code session: %w" err))
    | .ok m1 =>
      let data : AuthorizationCode :=
        { ID := request.ID
          Active := true
          Code := code
          RequestedAt := request.RequestedAt
          ClientID := client.GetID
          RequestedScopes := request.RequestedScope
          GrantedScopes := request.GrantedScope
          Form := form
          SessionID := session.ID
          RequestedAudience := request.RequestedAudience
          GrantedAudience := request.GrantedAudience }
      match gorm.Create AuthorizationCode.schema data m1.authorization_codes with
      | .error err => (m1, some (.Errorf "error creating authorization code: %w" err))
      | .ok rows => ({ m1 with authorization_codes := rows }, none)

/-- Go: func (m Store) GetAuthorizeCodeSession(ctx, code, session); the session
argument is not used by the source. -/
def Store.GetAuthorizeCodeSession (m : Store) (code : String) :
    Option fosite.Request × Option Error :=
  match gorm.First AuthorizationCode.schema [gorm.whereEq (fun r => r.Code) code]
      m.authorization_codes with
  | .error err => (none, some (.Errorf2 "%w: %w" .ErrNotFound err))
  | .ok row =>
    let result : AuthorizationCode :=
      { row with Session := m.preloadSession row.SessionID,
                 Client := m.preloadClient row.ClientID }
    match json.Unmarshal [] result.Form with
    | .error err =>
      (none, some (.Errorf "error unmarshalling authorization code form attributes: %w" err))
    | .ok form =>
      let rq : fosite.Request :=
        { ID := result.ID
          RequestedAt := result.RequestedAt
          Client := result.Client
          RequestedScope := result.RequestedScopes
          GrantedScope := result.GrantedScopes
          Form := form
          Session := result.Session
          RequestedAudience := result.RequestedAudience
          GrantedAudience := result.GrantedAudience }
      if !result.Active then (some rq, some .ErrInvalidatedAuthorizeCode)
      else (some rq, none)

/-- Go: func (m Store) InvalidateAuthorizeCodeSession(ctx, code) -/
def Store.InvalidateAuthorizeCodeSession (m : Store) (code : String) : Store × Option Error :=
  match gorm.First AuthorizationCode.schema [gorm.whereEq (fun r => r.Code) code]
      m.authorization_codes with
  | .error err => (m, some (.Errorf2 "%w: %w" .ErrNotFound err))
  | .ok result =>
    let result := { result with Active := false }
    match gorm.Save AuthorizationCode.schema result m.authorization_codes with
    | .error err => (m, some (.Errorf "failed to invalidate authorization code: %w" err))
    | .ok rows => ({ m with authorization_codes := rows }, none)

/-- Go: func (m Store) CreateAccessTokenSession(ctx, signature, request) -/
def Store.CreateAccessTokenSession (m : Store) (signature : String) (request : fosite.Request) :
    Store × Option Error :=
  let client := request.Client
  match json.Marshal request.Form with
  | .error err => (m, some (.Errorf "error marshalling access token form: %w" err))
  | .ok form =>
    let session := request.Session
    match m.createSession session with
    | .error err => (m, some (.Errorf "error creating authorization code session: %w" err))
    | .ok m1 =>
      let data : AccessToken :=
        { ID := request.ID
          Active := true
          Signature := signature
          RequestedAt := request.RequestedAt
          ClientID := client.GetID
          RequestedScopes := request.RequestedScope
          GrantedScopes := request.GrantedScope
          Form := form
          SessionID := session.ID
          RequestedAudience := request.RequestedAudience
          GrantedAudience := request.GrantedAudience }
      match gorm.Upsert AccessToken.schema (fun r => r.ID) data m1.access_tokens with
      | .error err => (m1, some (.Errorf "error creating access token: %w" err))
      | .ok rows => ({ m1 with access_tokens := rows }, none)

/-- Go: func (m Store) GetAccessTokenSession(ctx, signature, session); the session
argument is not used by the source. -/
def Store.GetAccessTokenSession (m : Store) (signature : String) :
    Option fosite.Request × Option Error :=
  match gorm.First AccessToken.schema [gorm.whereEq (fun r => r.Signature) signature]
      m.access_tokens with
  | .error err => (none, some (.Errorf2 "%w: %w" .ErrNotFound err))
  | .ok row =>
    let result : AccessToken :=
      { row with Session := m.preloadSession row.SessionID,
                 Client := m.preloadClient row.ClientID }
    match json.Unmarshal [] result.Form with
    | .error err =>
      (none, some (.Errorf "error unmarshalling access token form attributes: %w" err))
    | .ok form =>
      let rq : fosite.Request :=
        { ID := result.ID
          RequestedAt := result.RequestedAt
          Client := result.Client
          RequestedScope := result.RequestedScopes
          GrantedScope := result.GrantedScopes
          Form := form
          Session := result.Session
          RequestedAudience := result.RequestedAudience
          GrantedAudience := result.GrantedAudience }
      (some rq, none)

/-- Go: func (m Store) CreateRefreshTokenSession(ctx, signature, request) -/
def Store.CreateRefreshTokenSession (m : Store) (signature : String) (request : fosite.Request) :
    Store × Option Error :=
  let client := request.Client
  match json.Marshal request.Form with
  | .error err => (m, some (.Errorf "error marshalling refresh token form: %w" err))
  | .ok form =>
    let session := request.Session
    match m.createSession session with
    | .error err => (m, some (.Errorf "error creating refresh token session: %w" err))
    | .ok m1 =>
      let data : RefreshToken :=
        { ID := request.ID
          Active := true
          Signature := signature
          RequestedAt := request.RequestedAt
          ClientID := client.GetID
          RequestedScopes := request.RequestedScope
          GrantedScopes := request.GrantedScope
          Form := form
          SessionID := session.ID
          RequestedAudience := request.RequestedAudience
          GrantedAudience := request.GrantedAudience }
      match gorm.Upsert RefreshToken.schema (fun r => r.ID) data m1.refresh_tokens with
      | .error err => (m1, some (.Errorf "error creating refresh token: %w" err))
      | .ok rows => ({ m1 with refresh_tokens := rows }, none)

/-- Go: func (m Store) GetRefreshTokenSession(ctx, signature, session); the session
argument is not used by the source. -/
def Store.GetRefreshTokenSession (m : Store) (signature : String) :
    Option fosite.Request × Option Error :=
  match gorm.First RefreshToken.schema [gorm.whereEq (fun r => r.Signature) signature]
      m.refresh_tokens with
  | .error err => (none, some (.Errorf2 "%w: %w" .ErrNotFound err))
  | .ok row =>
    let result : RefreshToken :=
      { row with Session := m.preloadSession row.SessionID,
                 Client := m.preloadClient row.ClientID }
    match json.Unmarshal [] result.Form with
    | .error err =>
      (none, some (.Errorf "error unmarshalling refresh token form attributes: %w" err))
    | .ok form =>
      let rq : fosite.Request :=
        { ID := result.ID
          RequestedAt := result.RequestedAt
          Client := result.Client
          RequestedScope := result.RequestedScopes
          GrantedScope := result.GrantedScopes
          Form := form
          Session := result.Session
          RequestedAudience := result.RequestedAudience
          GrantedAudience := result.GrantedAudience }
      if !result.Active then (some rq, some .ErrInactiveToken)
      else (some rq, none)

/-- Go: func (m Store) RevokeRefreshToken(ctx, requestID) -/
def Store.RevokeRefreshToken (m : Store) (requestID : String) : Store × Option Error :=
  match gorm.First RefreshToken.schema [gorm.whereEq (fun r => r.ID) requestID]
      m.refresh_tokens with
  | .error err => (m, some (.Errorf2 "%w: %w" .ErrNotFound err))
  | .ok result =>
    let result := { result with Active := false }
    match gorm.Save RefreshToken.schema result m.refresh_tokens with
    | .error err => (m, some (.Errorf "failed to invalidate authorization code: %w" err))
    | .ok rows => ({ m with refresh_tokens := rows }, none)

/-- Go: func (m Store) RevokeRefreshTokenMaybeGracePeriod(ctx, requestID, signature) -/
def Store.RevokeRefreshTokenMaybeGracePeriod (m : Store) (requestID : String)
    (_signature : String) : Store × Option Error :=
  m.RevokeRefreshToken requestID

/-- Go: func (m Store) RevokeAccessToken(ctx, requestID) -/
def Store.RevokeAccessToken (m : Store) (requestID : String) : Store × Option Error :=
  match gorm.First AccessToken.schema [gorm.whereEq (fun r => r.ID) requestID]
      m.access_tokens with
  | .error err => (m, some (.Errorf2 "%w: %w" .ErrNotFound err))
  | .ok result =>
    let result := { result with Active := false }
    match gorm.Save AccessToken.schema result m.access_tokens with
    | .error err => (m, some (.Errorf "failed to invalidate authorization code: %w" err))
    | .ok rows => ({ m with access_tokens := rows }, none)

/-- Go: func (m Store) Authenticate(ctx, name, secret) -/
def Store.Authenticate (m : Store) (name : String) (secret : String) : Option Error :=
  match gorm.First User.schema [gorm.whereEq (fun r => r.Username) name] m.users with
  | .error err => some (.Errorf2 "%w: %w" .ErrNotFound err)
  | .ok result =>
    if result.Password != secret then some (.WithDebug .ErrNotFound "Invalid credentials")
    else none

/-- Go: func (m Store) CreatePKCERequestSession(ctx, signature, requester) -/
def Store.CreatePKCERequestSession (m : Store) (signature : String)
    (requester : fosite.Request) : Store × Option Error :=
  let client := requester.Client
  match json.Marshal requester.Form with
  | .error err => (m, some (.Errorf "error marshalling PCKE form: %w" err))
  | .ok form =>
    let session := requester.Session
    match m.createSession session with
    | .error err => (m, some (.Errorf "error creating authorization code session: %w" err))
    | .ok m1 =>
      let data : PKCE :=
        { ID := requester.ID
          Active := true
          Signature := signature
          RequestedAt := requester.RequestedAt
          ClientID := client.GetID
          RequestedScopes := requester.RequestedScope
          GrantedScopes := requester.GrantedScope
          Form := form
          SessionID := session.ID
          RequestedAudience := requester.RequestedAudience
          GrantedAudience := requester.GrantedAudience }
      match gorm.Create PKCE.schema data m1.pkces with
      | .error err => (m1, some (.Errorf "error creating PCKE: %w" err))
      | .ok rows => ({ m1 with pkces := rows }, none)

/-- Go: func (m Store) GetPKCERequestSession(ctx, signature, session); the session
argument is not used by the source. -/
def Store.GetPKCERequestSession (m : Store) (signature : String) :
    Option fosite.Request × Option Error :=
  match gorm.First PKCE.schema [gorm.whereEq (fun r => r.Signature) signature] m.pkces with
  | .error err => (none, some (.Errorf2 "%w: %w" .ErrNotFound err))
  | .ok row =>
    let result : PKCE :=
      { row with Session := m.preloadSession row.SessionID,
                 Client := m.preloadClient row.ClientID }
    match json.Unmarshal [] result.Form with
    | .error err => (none, some (.Errorf "error unmarshalling PCKE form attributes: %w" err))
    | .ok form =>
      let rq : fosite.Request :=
        { ID := result.ID
          RequestedAt := result.RequestedAt
          Client := result.Client
          RequestedScope := result.RequestedScopes
          GrantedScope := result.GrantedScopes
          Form := form
          Session := result.Session
          RequestedAudience := result.RequestedAudience
          GrantedAudience := result.GrantedAudience }
      (some rq, none)

end store

/-! ## States of the database -/

namespace gorm

/-- The key constraints of a table, which SQLite enforces on every write: no two
rows share a primary key, and no two rows share a value in a unique column. -/
def Schema.Valid {α : Type} (S : Schema α) (rows : List α) : Prop :=
  (rows.map S.id).Nodup ∧ ∀ u ∈ S.unique, (rows.map u.2).Nodup

instance {α : Type} (S : Schema α) (rows : List α) : Decidable (S.Valid rows) := by
  unfold Schema.Valid
  exact inferInstance

end gorm

namespace store

/-- The Form column can be decoded when it is read back. -/
def Decodable (form : datatypes.JSON url.Values) : Bool :=
  match json.Unmarshal [] form.scan with
  | .ok _ => true
  | .error _ => false

/-- A well-formed database: every table satisfies its key constraints, and every
Form column holds a JSON document (the store writes them with json.Marshal only). -/
def Store.WF (m : Store) : Prop :=
  AccessToken.schema.Valid m.access_tokens ∧
  AuthorizationCode.schema.Valid m.authorization_codes ∧
  Client.schema.Valid m.clients ∧
  ClientJWT.schema.Valid m.client_jwts ∧
  User.schema.Valid m.users ∧
  PKCE.schema.Valid m.pkces ∧
  RefreshToken.schema.Valid m.refresh_tokens ∧
  Session.schema.Valid m.sessions ∧
  (∀ r ∈ m.access_tokens, Decodable r.Form = true) ∧
  (∀ r ∈ m.authorization_codes, Decodable r.Form = true) ∧
  (∀ r ∈ m.pkces, Decodable r.Form = true) ∧
  (∀ r ∈ m.refresh_tokens, Decodable r.Form = true)

instance (m : Store) : Decidable m.WF := by
  unfold Store.WF
  exact inferInstance

/-- The states of table client_jwts that the store can reach: the table is empty
when AutoMigrate creates it, and SetClientAssertionJWT is its only writer. -/
inductive ReplayReachable : List ClientJWT → Prop where
  | init : ReplayReachable []
  | set (m : Store) (now : time.Time) (uuid jti : String) (exp : time.Time) :
      ReplayReachable m.client_jwts →
      ReplayReachable (m.SetClientAssertionJWT now uuid jti exp).1.client_jwts

/-! ## Example states -/

/-- The database after the first start: NewStore on the empty file. -/
def seeded : Store :=
  { clients := seedClients, users := seedUsers "user-1" }

/-- An authorization request of the seeded user at client-one. -/
def exampleRequest : fosite.Request :=
  { ID := "req-1"
    RequestedAt := 1000
    Client := { ID := "client-one" }
    RequestedScope := ["fosite", "photos"]
    GrantedScope := ["fosite"]
    Form := [("response_type", ["code"]), ("state", ["some-state"])]
    Session := { ID := "session-1", ClientID := "client-one", Username := "ovl_doe",
                 Subject := "Charles Doe", UserID := "user-1" }
    RequestedAudience := ["https://api.example"]
    GrantedAudience := ["https://api.example"] }

/-- A second request, with its own id and session. -/
def otherRequest : fosite.Request :=
  { ID := "req-2"
    RequestedAt := 2000
    Client := { ID := "client-two" }
    RequestedScope := ["offline"]
    GrantedScope := ["offline"]
    Form := [("grant_type", ["authorization_code"])]
    Session := { ID := "session-2", ClientID := "client-two", Username := "ovl_doe",
                 Subject := "Charles Doe", UserID := "user-1" }
    RequestedAudience := ["https://api.example"]
    GrantedAudience := ["https://api.example"] }

end store


/-! ## GORM: soft delete -/

namespace gorm

variable {α : Type}

/-- The conditions of db.Where(&T{Col: v}) on one text column, as a list: GORM
builds conditions from the non-zero fields only, so the empty string gives none. -/
def whereConds (col : α → String) (v : String) : List (α → Bool) :=
  if v == "" then [] else [fun r => col r == v]

/-- Go: db.Where(conds...).Delete(&T{}) for a model that embeds gorm.Model and a
zero T: a soft delete, UPDATE ... SET deleted_at = now WHERE conds AND deleted_at
IS NULL (mark sets the column).  Rows that match no condition are untouched and it
is no error when no row matches.  Without any condition GORM refuses the
statement with ErrMissingWhereClause. -/
def Delete (S : Schema α) (mark : α → time.Time → α) (conds : List (α → Bool))
    (now : time.Time) (rows : List α) : Except Error (List α) :=
  if conds.isEmpty then .error .ErrMissingWhereClause
  else .ok (rows.map (fun r => if live S r && conds.all (fun c => c r) then mark r now else r))

end gorm

/-! ## encoding/json on a map of times -/

namespace time

/-- The first instant of the year 10000, a tick being a nanosecond and the zero
Time the start of the year 1: 3652059 days of 86400 seconds. -/
def year10000 : Time := 3652059 * 86400 * 1000000000

/-- Go: Time.MarshalJSON returns an error for a year outside of 0 to 9999.  The
year is that of the instant in UTC, the location of the times in the example of
the doc comment of SetExpiresAt. -/
def Time.Encodable (t : Time) : Bool := decide (t < year10000)

end time

namespace json

/-- Go: json.Marshal(v) for a map from token type to time.Time: it fails when
Time.MarshalJSON fails on one of the times, and otherwise gives a document that
decodes to the map again. -/
def MarshalTimes (v : List (String × time.Time)) :
    Except Error (datatypes.JSON (List (String × time.Time))) :=
  if v.all (fun e => e.2.Encodable) then .ok (.doc v)
  else .error (.SyntaxError "Time.MarshalJSON: year outside of range [0,9999]")

end json

namespace store

/-! ## models.go: the expiry map of a session -/

/-- Go: expiresAt[key] = exp on a map, as an association list that is read with
List.lookup. -/
def setKey (m : List (String × time.Time)) (key : String) (exp : time.Time) :
    List (String × time.Time) :=
  (key, exp) :: m.filter (fun e => e.1 != key)

/-- The entries of the map expiresAt, freshly made, after
json.Unmarshal(s.ExpiresAt, &expiresAt), whose error the source drops: none for the
nil slice (an error, the map is left as it was) and for the document null (which
makes expiresAt the nil map), the decoded map for a document, and for bytes that
are rejected the entries that were decoded before the error. -/
def Session.decodeExpiresAt (s : Session) : List (String × time.Time) :=
  match s.ExpiresAt with
  | .nil => []
  | .null => []
  | .doc m => m
  | .malformed _ decoded => decoded

/-- Go: func (s *Session) SetExpiresAt(key, exp): the session after the call, or
none when the call panics.  On the document null json.Unmarshal sets expiresAt to
the nil map, and the assignment expiresAt[key] = exp panics (assignment to entry
in nil map).  The error of json.Marshal is dropped by the source, which then
stores the nil slice that Marshal returns with an error. -/
def Session.SetExpiresAt (s : Session) (key : String) (exp : time.Time) : Option Session :=
  let expiresAt : Option (List (String × time.Time)) :=
    match s.ExpiresAt with
    | .nil => some []
    | .null => none
    | _ => some s.decodeExpiresAt
  match expiresAt with
  | none => none
  | some m =>
    let sess_expires :=
      match json.MarshalTimes (setKey m key exp) with
      | .ok bytes => bytes
      | .error _ => .nil
    some { s with ExpiresAt := sess_expires }

/-- Go: func (s *Session) GetExpiresAt(key): the zero Time when s.ExpiresAt is nil
or the key is not in the decoded map (a nil map reads as the empty map). -/
def Session.GetExpiresAt (s : Session) (key : String) : time.Time :=
  match s.ExpiresAt with
  | .nil => 0
  | _ =>
    let expiresAt := s.decodeExpiresAt
    match expiresAt.lookup key with
    | none => 0
    | some t => t

/-- The times that json.Unmarshal reads from the ExpiresAt bytes of a session can
be encoded again.  So it is for the bytes that SetExpiresAt writes, and for any
bytes that hold times in UTC, Time.UnmarshalJSON accepting four-digit years only. -/
def Session.ExpiryEncodable (s : Session) : Prop :=
  ∀ e ∈ s.decodeExpiresAt, e.2.Encodable = true

instance (s : Session) : Decidable s.ExpiryEncodable := by
  unfold Session.ExpiryEncodable
  exact inferInstance

/-! ## oauth2.go and pkce.go: the Delete methods -/

/-- Go: func (m Store) DeleteAccessTokenSession(ctx, signature); now is the time
GORM writes to deleted_at. -/
def Store.DeleteAccessTokenSession (m : Store) (now : time.Time) (signature : String) :
    Store × Option Error :=
  match gorm.Delete AccessToken.schema (fun r t => { r with DeletedAt := some t })
      (gorm.whereConds (fun r => r.Signature) signature) now m.access_tokens with
  | .error err => (m, some (.Errorf "failed to delete access token: %w" err))
  | .ok rows => ({ m with access_tokens := rows }, none)

/-- Go: func (m Store) DeleteRefreshTokenSession(ctx, signature) -/
def Store.DeleteRefreshTokenSession (m : Store) (now : time.Time) (signature : String) :
    Store × Option Error :=
  match gorm.Delete RefreshToken.schema (fun r t => { r with DeletedAt := some t })
      (gorm.whereConds (fun r => r.Signature) signature) now m.refresh_tokens with
  | .error err => (m, some (.Errorf "failed to delete refresh token: %w" err))
  | .ok rows => ({ m with refresh_tokens := rows }, none)

/-- Go: func (m Store) DeletePKCERequestSession(ctx, signature) -/
def Store.DeletePKCERequestSession (m : Store) (now : time.Time) (signature : String) :
    Store × Option Error :=
  match gorm.Delete PKCE.schema (fun r t => { r with DeletedAt := some t })
      (gorm.whereConds (fun r => r.Signature) signature) now m.pkces with
  | .error err => (m, some (.Errorf "failed to delete PCKE request: %w" err))
  | .ok rows => ({ m with pkces := rows }, none)

end store

namespace store

/-- The seeded store after CreateAuthorizeCodeSession("code-1", exampleRequest). -/
def withCode : Store :=
  (seeded.CreateAuthorizeCodeSession "code-1" exampleRequest).1

/-- The store withCode after InvalidateAuthorizeCodeSession("code-1"). -/
def withCodeInvalidated : Store :=
  (withCode.InvalidateAuthorizeCodeSession "code-1").1

end store

namespace store

/-- A list that the StringArray codec can carry: it has an element, and no element
contains the separator. -/
def Storable (l : List String) : Prop :=
  l ≠ [] ∧ ∀ s ∈ l, ';' ∉ s.data

instance (l : List String) : Decidable (Storable l) := by
  unfold Storable
  exact inferInstance

/-- A request whose requested audience holds a semicolon. -/
def semicolonRequest : fosite.Request :=
  { exampleRequest with RequestedAudience := ["https://api.example/v1;v2"] }

/-- The store withCodeInvalidated after a second request was given the same code. -/
def withCodeTwice : Store :=
  (withCodeInvalidated.CreateAuthorizeCodeSession "code-1" otherRequest).1

end store

namespace store

/-- The seeded store after CreatePKCERequestSession("sig-1", exampleRequest). -/
def withPKCE : Store :=
  (seeded.CreatePKCERequestSession "sig-1" exampleRequest).1

/-- The store withPKCE after the failed CreatePKCERequestSession("sig-1", otherRequest). -/
def withPKCEFailed : Store :=
  (withPKCE.CreatePKCERequestSession "sig-1" otherRequest).1

end store

namespace store

/-- The seeded store with one client assertion on record: JTI jti-1, expiring at 100. -/
def withJTI : Store :=
  { seeded with client_jwts := [{ ID := "jwt-0", JTI := "jti-1", ExpiresAt := 100 }] }

end store

namespace store

/-- The seeded store after CreateAccessTokenSession("sig-a", exampleRequest). -/
def withAccess : Store :=
  (seeded.CreateAccessTokenSession "sig-a" exampleRequest).1

/-- The request exampleRequest again, same id, with one more granted scope. -/
def regrantedRequest : fosite.Request :=
  { exampleRequest with GrantedScope := ["fosite", "photos"] }

/-- The store withAccess after CreateAccessTokenSession("sig-a", regrantedRequest). -/
def withAccessTwice : Store :=
  (withAccess.CreateAccessTokenSession "sig-a" regrantedRequest).1

end store

namespace store

/-- The seeded store after CreateRefreshTokenSession("sig-r", exampleRequest). -/
def withRefresh : Store :=
  (seeded.CreateRefreshTokenSession "sig-r" exampleRequest).1

/-- The store withRefresh after RevokeRefreshToken("req-1"). -/
def withRefreshRevoked : Store :=
  (withRefresh.RevokeRefreshToken "req-1").1

/-- The store withRefresh after CreateRefreshTokenSession("", otherRequest): a
second refresh token, stored under the empty signature. -/
def withEmptySignature : Store :=
  (withRefresh.CreateRefreshTokenSession "" otherRequest).1

/-- The store withEmptySignature after RevokeRefreshToken("req-2"). -/
def withEmptySignatureRevoked : Store :=
  (withEmptySignature.RevokeRefreshToken "req-2").1

end store

namespace store

/-- A session whose expiry map holds the access token expiry 5000. -/
def sessionWithExpiry : Session :=
  { ID := "session-1", ExpiresAt := .doc [("access_token", 5000)] }

/-- A session whose ExpiresAt holds the document null. -/
def sessionWithNull : Session :=
  { ID := "session-1", ExpiresAt := .null }

end store

namespace store

/-- The store withPKCE after DeletePKCERequestSession("sig-1") at time 3000. -/
def withPKCEDeleted : Store :=
  (withPKCE.DeletePKCERequestSession 3000 "sig-1").1

/-- The seeded store after CreatePKCERequestSession("", exampleRequest): a PKCE
request stored under the empty signature. -/
def withEmptyPKCE : Store :=
  (seeded.CreatePKCERequestSession "" exampleRequest).1

end store

namespace store

/-- The seeded store with the access token and the refresh token of req-1 and the
access token of req-2. -/
def withTokens : Store :=
  (((seeded.CreateAccessTokenSession "sig-a" exampleRequest).1.CreateRefreshTokenSession
    "sig-r" exampleRequest).1.CreateAccessTokenSession "sig-a2" otherRequest).1

/-- The store withTokens after RevokeAccessToken("req-1"). -/
def withTokensAccessRevoked : Store :=
  (withTokens.RevokeAccessToken "req-1").1

/-- The store withTokens after RevokeAccessToken("req-1") and RevokeRefreshToken("req-1"). -/
def withTokensRevoked : Store :=
  (withTokensAccessRevoked.RevokeRefreshToken "req-1").1

/-- The store withAccess after RevokeAccessToken("req-1"). -/
def withAccessRevoked : Store :=
  (withAccess.RevokeAccessToken "req-1").1

end store

namespace store

/-- The seeded store with the access token of req-1 under the empty signature. -/
def withEmptyAccess : Store :=
  (seeded.CreateAccessTokenSession "" exampleRequest).1

/-- The store withEmptyAccess after the access token of req-1 was created again
under sig-b. -/
def withEmptyAccessOverwritten : Store :=
  (withEmptyAccess.CreateAccessTokenSession "sig-b" exampleRequest).1

/-- The store withAccess after the access token of req-1 was created again under
sig-b. -/
def withAccessOverwritten : Store :=
  (withAccess.CreateAccessTokenSession "sig-b" exampleRequest).1

end store
/-! ## Lemmas: the list codec -/

namespace store

theorem StringArray.split_ne_nil (st : String) (sep : Char) : strings.Split st sep ≠ [] := by
  unfold strings.Split
  intro h
  have := List.splitOnP_ne_nil (· == sep) st.data
  simp [List.splitOn] at h
  exact this h

theorem StringArray.join_split (st : String) (sep : Char) :
    strings.Join (strings.Split st sep) sep = st := by
  unfold strings.Join strings.Split
  rw [List.map_map]
  have : (String.data ∘ String.mk) = id := by funext l; rfl
  rw [this, List.map_id, List.intercalate_splitOn]

theorem StringArray.split_join (l : List String) (sep : Char) (hne : l ≠ [])
    (hsep : ∀ s ∈ l, sep ∉ s.data) : strings.Split (strings.Join l sep) sep = l := by
  unfold strings.Join strings.Split
  simp only
  rw [List.splitOn_intercalate]
  · rw [List.map_map]
    have : (String.mk ∘ String.data) = id := by funext l; rfl
    rw [this, List.map_id]
  · intro d hd
    obtain ⟨s, hs, rfl⟩ := List.mem_map.mp hd
    exact hsep s hs
  · simpa using hne

theorem StringArray.value_scan (st : String) :
    StringArray.Value (StringArray.Scan [] (some st)) = st := by
  unfold StringArray.Value StringArray.Scan
  simp only [StringArray.split_ne_nil, if_false, StringArray.join_split]

theorem StringArray.stored_stored (s : StringArray) : s.stored.stored = s.stored := by
  unfold StringArray.stored
  rw [StringArray.value_scan]

theorem StringArray.stored_eq_self (l : StringArray) (hne : l ≠ [])
    (hsep : ∀ s ∈ l, ';' ∉ s.data) : l.stored = l := by
  unfold StringArray.stored StringArray.Value StringArray.Scan
  simp only [hne, if_false]
  exact StringArray.split_join l ';' hne hsep

end store

/-! ## Lemmas: queries and writes -/

namespace gorm

variable {α : Type}

theorem lessChars_nil (a : List Char) : lessChars a [] = false := by
  cases a <;> rfl

theorem lessChars_nil_left (b : List Char) (h : lessChars [] b = false) : b = [] := by
  cases b with
  | nil => rfl
  | cons c cs => simp [lessChars] at h

theorem less_empty (a : String) : less a "" = false := by
  unfold less
  exact lessChars_nil a.data

theorem empty_of_not_less (b : String) (h : less "" b = false) : b = "" := by
  unfold less at h
  have hb : b.data = [] := lessChars_nil_left b.data h
  cases b
  simp_all

theorem orderFirst_mem (S : Schema α) :
    ∀ (rows : List α) (m : α), orderFirst S rows = some m → m ∈ rows
  | [], m, h => by simp [orderFirst] at h
  | r :: rs, m, h => by
    unfold orderFirst at h
    cases hrs : orderFirst S rs with
    | none =>
      rw [hrs] at h
      simp only [Option.some.injEq] at h
      subst h
      exact List.mem_cons_self _ _
    | some b =>
      rw [hrs] at h
      simp only at h
      by_cases hl : less (S.id b) (S.id r) = true
      · rw [if_pos hl] at h
        simp only [Option.some.injEq] at h
        subst h
        exact List.mem_cons_of_mem _ (orderFirst_mem S rs b hrs)
      · rw [if_neg hl] at h
        simp only [Option.some.injEq] at h
        subst h
        exact List.mem_cons_self _ _

theorem orderFirst_isSome (S : Schema α) :
    ∀ (rows : List α), rows ≠ [] → ∃ m, orderFirst S rows = some m
  | [], h => absurd rfl h
  | r :: rs, _ => by
    unfold orderFirst
    cases orderFirst S rs with
    | none => exact ⟨r, rfl⟩
    | some b =>
      by_cases hl : less (S.id b) (S.id r) = true
      · exact ⟨b, by simp [hl]⟩
      · exact ⟨r, by simp [hl]⟩

theorem orderFirst_map (S : Schema α) (f : α → α) :
    ∀ (rows : List α), (∀ r ∈ rows, S.id (f r) = S.id r) →
      orderFirst S (rows.map f) = (orderFirst S rows).map f
  | [], _ => rfl
  | r :: rs, h => by
    have ih := orderFirst_map S f rs (fun x hx => h x (List.mem_cons_of_mem _ hx))
    simp only [List.map_cons, orderFirst, ih]
    cases hrs : orderFirst S rs with
    | none => rfl
    | some b =>
      have hb : S.id (f b) = S.id b :=
        h b (List.mem_cons_of_mem _ (orderFirst_mem S rs b hrs))
      have hr : S.id (f r) = S.id r := h r (List.mem_cons_self _ _)
      simp only [Option.map_some', hb, hr]
      by_cases hl : less (S.id b) (S.id r) = true
      · simp [hl]
      · simp [hl]

theorem filter_map_comm (f : α → α) (p : α → Bool) :
    ∀ (rows : List α), (∀ r ∈ rows, p (f r) = p r) →
      (rows.map f).filter p = (rows.filter p).map f
  | [], _ => rfl
  | r :: rs, h => by
    have ih := filter_map_comm f p rs (fun x hx => h x (List.mem_cons_of_mem _ hx))
    have hr : p (f r) = p r := h r (List.mem_cons_self _ _)
    simp only [List.map_cons, List.filter_cons, hr, ih]
    cases p r <;> simp

theorem filter_eq_nil_of (p : α → Bool) (rows : List α) (h : ∀ r ∈ rows, p r = false) :
    rows.filter p = [] := by
  rw [List.filter_eq_nil_iff]
  intro r hr
  simp [h r hr]

theorem filter_eq_singleton (col : α → String) (p : α → Bool) (x : α) :
    ∀ (rows : List α), (rows.map col).Nodup → x ∈ rows → p x = true →
      (∀ r ∈ rows, p r = true → col r = col x) → rows.filter p = [x]
  | [], _, hx, _, _ => by simp at hx
  | r :: rs, hnd, hx, hpx, hcol => by
    rw [List.map_cons, List.nodup_cons] at hnd
    rcases List.mem_cons.mp hx with hxr | hxrs
    · subst hxr
      have hrest : rs.filter p = [] := by
        apply filter_eq_nil_of
        intro y hy
        by_contra hpy
        have hpy1 : p y = true := by simpa using hpy
        have := hcol y (List.mem_cons_of_mem _ hy) hpy1
        exact hnd.1 (this ▸ List.mem_map_of_mem col hy)
      simp [List.filter_cons, hpx, hrest]
    · have hpr : p r = false := by
        by_contra hpr
        have hpr1 : p r = true := by simpa using hpr
        have := hcol r (List.mem_cons_self _ _) hpr1
        exact hnd.1 (this ▸ List.mem_map_of_mem col hxrs)
      have ih := filter_eq_singleton col p x rs hnd.2 hxrs hpx
        (fun y hy => hcol y (List.mem_cons_of_mem _ hy))
      simp [List.filter_cons, hpr, ih]

theorem eq_of_id_eq (col : α → String) :
    ∀ (rows : List α), (rows.map col).Nodup → ∀ a ∈ rows, ∀ b ∈ rows, col a = col b → a = b
  | [], _, a, ha, _, _, _ => by simp at ha
  | r :: rs, hnd, a, ha, b, hb, hab => by
    rw [List.map_cons, List.nodup_cons] at hnd
    rcases List.mem_cons.mp ha with har | hars
    · rcases List.mem_cons.mp hb with hbr | hbrs
      · rw [har, hbr]
      · exact absurd (har ▸ hab ▸ List.mem_map_of_mem col hbrs) hnd.1
    · rcases List.mem_cons.mp hb with hbr | hbrs
      · exact absurd (hbr ▸ hab.symm ▸ List.mem_map_of_mem col hars) hnd.1
      · exact eq_of_id_eq col rs hnd.2 a hars b hbrs hab

end gorm
namespace gorm

variable {α : Type}

theorem conflict_none_id (S : Schema α) (x : α) (rows : List α)
    (h : conflict S x rows = none) : S.id x ∉ rows.map S.id := by
  unfold conflict at h
  by_cases hany : rows.any (fun r => S.id r == S.id x) = true
  · rw [if_pos hany] at h
    exact absurd h (by simp)
  · intro hmem
    obtain ⟨r, hr, hid⟩ := List.mem_map.mp hmem
    apply hany
    rw [List.any_eq_true]
    exact ⟨r, hr, by simp [hid]⟩

theorem conflict_none_unique (S : Schema α) (x : α) (rows : List α)
    (h : conflict S x rows = none) (u : String × (α → String)) (hu : u ∈ S.unique) :
    u.2 x ∉ rows.map u.2 := by
  unfold conflict at h
  by_cases hany : rows.any (fun r => S.id r == S.id x) = true
  · rw [if_pos hany] at h
    exact absurd h (by simp)
  · rw [if_neg hany] at h
    cases hf : S.unique.find? (fun u => rows.any (fun r => u.2 r == u.2 x)) with
    | some v =>
      rw [hf] at h
      exact absurd h (by simp)
    | none =>
      rw [List.find?_eq_none] at hf
      intro hmem
      obtain ⟨r, hr, hid⟩ := List.mem_map.mp hmem
      apply hf u hu
      rw [List.any_eq_true]
      exact ⟨r, hr, by simp [hid]⟩

theorem conflict_of_id_mem (S : Schema α) (x : α) (rows : List α)
    (h : S.id x ∈ rows.map S.id) :
    conflict S x rows = some (.UniqueConstraintFailed S.Table "id") := by
  unfold conflict
  have hany : rows.any (fun r => S.id r == S.id x) = true := by
    obtain ⟨r, hr, hid⟩ := List.mem_map.mp h
    rw [List.any_eq_true]
    exact ⟨r, hr, by simp [hid]⟩
  rw [if_pos hany]

theorem Create_ok (S : Schema α) (x : α) (rows rows1 : List α)
    (h : Create S x rows = .ok rows1) : rows1 = rows ++ [x] ∧ conflict S x rows = none := by
  unfold Create at h
  cases hc : conflict S x rows with
  | some e =>
    rw [hc] at h
    exact absurd h (by simp)
  | none =>
    rw [hc] at h
    simp only [Except.ok.injEq] at h
    exact ⟨h.symm, rfl⟩

theorem Create_valid (S : Schema α) (x : α) (rows rows1 : List α) (hv : S.Valid rows)
    (h : Create S x rows = .ok rows1) : S.Valid rows1 := by
  obtain ⟨rfl, hc⟩ := Create_ok S x rows rows1 h
  refine ⟨?_, ?_⟩
  · rw [List.map_append, List.nodup_append]
    refine ⟨hv.1, by simp, ?_⟩
    intro a ha hb
    simp only [List.map_cons, List.map_nil, List.mem_singleton] at hb
    subst hb
    exact conflict_none_id S x rows hc ha
  · intro u hu
    rw [List.map_append, List.nodup_append]
    refine ⟨hv.2 u hu, by simp, ?_⟩
    intro a ha hb
    simp only [List.map_cons, List.map_nil, List.mem_singleton] at hb
    subst hb
    exact conflict_none_unique S x rows hc u hu ha

theorem map_replace_of_not_mem (idf : α → String) (key : String) (x1 : α) :
    ∀ (rows : List α), key ∉ rows.map idf →
      rows.map (fun r => if idf r == key then x1 else r) = rows
  | [], _ => rfl
  | r :: rs, h => by
    simp only [List.map_cons, List.mem_cons, not_or] at h
    have hr : (idf r == key) = false := by
      simp only [beq_eq_false_iff_ne, ne_eq]
      exact fun e => h.1 e.symm
    simp only [List.map_cons, hr, map_replace_of_not_mem idf key x1 rs h.2]
    simp

theorem map_replace_ids (idf : α → String) (key : String) (x1 : α) (hx : idf x1 = key) :
    ∀ (rows : List α), (rows.map (fun r => if idf r == key then x1 else r)).map idf
      = rows.map idf
  | [] => rfl
  | r :: rs => by
    simp only [List.map_cons, map_replace_ids idf key x1 hx rs]
    by_cases hr : idf r = key
    · simp [hr, hx]
    · simp [hr]

theorem nodup_replace (idf u : α → String) (key : String) (x1 : α) :
    ∀ (rows : List α), (rows.map idf).Nodup → (rows.map u).Nodup →
      (∀ r ∈ rows, idf r ≠ key → u r ≠ u x1) →
      ((rows.map (fun r => if idf r == key then x1 else r)).map u).Nodup
  | [], _, _, _ => by simp
  | r :: rs, hid, hu, hne => by
    rw [List.map_cons, List.nodup_cons] at hid hu
    by_cases hr : idf r = key
    · have hnot : key ∉ rs.map idf := hr ▸ hid.1
      have hrest := map_replace_of_not_mem idf key x1 rs hnot
      simp only [List.map_cons, hr, beq_self_eq_true, if_true, hrest, List.nodup_cons]
      refine ⟨?_, hu.2⟩
      intro hmem
      obtain ⟨y, hy, hyu⟩ := List.mem_map.mp hmem
      have hyk : idf y ≠ key := fun e => hnot (e ▸ List.mem_map_of_mem idf hy)
      exact hne y (List.mem_cons_of_mem _ hy) hyk hyu
    · have hr1 : (idf r == key) = false := by simpa using hr
      have ih := nodup_replace idf u key x1 rs hid.2 hu.2
        (fun y hy => hne y (List.mem_cons_of_mem _ hy))
      simp only [List.map_cons, hr1, Bool.false_eq_true, if_false, List.nodup_cons]
      refine ⟨?_, ih⟩
      intro hmem
      obtain ⟨y, hy, hyu⟩ := List.mem_map.mp hmem
      obtain ⟨z, hz, rfl⟩ := List.mem_map.mp hy
      by_cases hz1 : idf z = key
      · simp only [hz1, beq_self_eq_true, if_true] at hyu
        exact hne r (List.mem_cons_self _ _) hr hyu.symm
      · have hz2 : (idf z == key) = false := by simpa using hz1
        simp only [hz2, Bool.false_eq_true, if_false] at hyu
        exact hu.1 (hyu ▸ List.mem_map_of_mem u hz)

theorem mem_map_replace (idf : α → String) (key : String) (x1 : α) :
    ∀ (rows : List α), key ∈ rows.map idf →
      x1 ∈ rows.map (fun r => if idf r == key then x1 else r)
  | [], h => by simp at h
  | r :: rs, h => by
    by_cases hr : idf r = key
    · simp [hr]
    · have hr1 : (idf r == key) = false := by simpa using hr
      simp only [List.map_cons, List.mem_cons] at h
      rcases h with h | h
      · exact absurd h.symm hr
      · simp only [List.map_cons, hr1, Bool.false_eq_true, if_false, List.mem_cons]
        exact Or.inr (mem_map_replace idf key x1 rs h)

/-- An upsert on the primary key keeps the key constraints and leaves the row in
the table. -/
theorem Upsert_id_valid (S : Schema α) (hset : ∀ y, S.setID y (S.id y) = y) (x : α)
    (rows rows1 : List α) (hv : S.Valid rows) (h : Upsert S S.id x rows = .ok rows1) :
    S.Valid rows1 ∧ x ∈ rows1 := by
  unfold Upsert at h
  cases hf : rows.find? (fun r => S.id r == S.id x) with
  | none =>
    rw [hf] at h
    simp only at h
    refine ⟨Create_valid S x rows rows1 hv h, ?_⟩
    rw [(Create_ok S x rows rows1 h).1]
    simp
  | some old =>
    rw [hf] at h
    simp only at h
    have hold : S.id old = S.id x := by
      have := List.find?_some hf
      simpa using this
    have holdmem : old ∈ rows := List.mem_of_find?_eq_some hf
    unfold updateAll at h
    rw [hold, hset] at h
    cases hu : S.unique.find?
        (fun u => rows.any (fun r => S.id r != S.id x && u.2 r == u.2 x)) with
    | some v =>
      rw [hu] at h
      exact absurd h (by simp)
    | none =>
      rw [hu] at h
      simp only [Except.ok.injEq] at h
      subst h
      rw [List.find?_eq_none] at hu
      refine ⟨⟨?_, ?_⟩, ?_⟩
      · rw [map_replace_ids S.id (S.id x) x rfl]
        exact hv.1
      · intro u huS
        apply nodup_replace S.id u.2 (S.id x) x rows hv.1 (hv.2 u huS)
        intro r hr hne heq
        apply hu u huS
        rw [List.any_eq_true]
        exact ⟨r, hr, by simp [hne, heq]⟩
      · apply mem_map_replace
        exact hold ▸ List.mem_map_of_mem S.id holdmem

end gorm
namespace gorm

variable {α : Type}

theorem First_ok (S : Schema α) (conds : List (α → Bool)) (rows : List α) (res : α)
    (h : First S conds rows = .ok res) :
    ∃ x0, orderFirst S (rows.filter (fun r => live S r && conds.all (fun c => c r))) = some x0
      ∧ res = S.scan x0 ∧ x0 ∈ rows ∧ live S x0 = true
      ∧ conds.all (fun c => c x0) = true := by
  unfold First at h
  cases ho : orderFirst S (rows.filter (fun r => live S r && conds.all (fun c => c r))) with
  | none =>
    rw [ho] at h
    exact absurd h (by simp)
  | some x0 =>
    rw [ho] at h
    simp only [Except.ok.injEq] at h
    have hmem := orderFirst_mem S _ x0 ho
    rw [List.mem_filter] at hmem
    simp only [Bool.and_eq_true] at hmem
    exact ⟨x0, rfl, h.symm, hmem.1, hmem.2.1, hmem.2.2⟩

theorem First_of_orderFirst (S : Schema α) (conds : List (α → Bool)) (rows : List α) (x0 : α)
    (h : orderFirst S (rows.filter (fun r => live S r && conds.all (fun c => c r))) = some x0) :
    First S conds rows = .ok (S.scan x0) := by
  unfold First
  rw [h]

theorem Save_ok (S : Schema α) (x : α) (rows rows1 : List α) (x0 : α) (hx0 : x0 ∈ rows)
    (hid : S.id x0 = S.id x) (hlive : live S x0 = true) (h : Save S x rows = .ok rows1) :
    S.id x ≠ "" ∧
      rows1 = rows.map (fun r => if (S.id r == S.id x && live S r) = true then x else r) := by
  unfold Save at h
  by_cases hz : (S.id x == "") = true
  · rw [if_pos hz] at h
    unfold Create at h
    rw [conflict_of_id_mem S x rows (hid ▸ List.mem_map_of_mem S.id hx0)] at h
    exact absurd h (by simp)
  · rw [if_neg hz] at h
    have hany : rows.any (fun r => S.id r == S.id x && live S r) = true := by
      rw [List.any_eq_true]
      exact ⟨x0, hx0, by simp [hid, hlive]⟩
    rw [if_pos hany] at h
    cases hu : S.unique.find?
        (fun u => rows.any (fun r => S.id r != S.id x && u.2 r == u.2 x)) with
    | some v =>
      rw [hu] at h
      exact absurd h (by simp)
    | none =>
      rw [hu] at h
      simp only [Except.ok.injEq] at h
      refine ⟨?_, h.symm⟩
      simpa using hz

/-- After the row that a query finds first has been rewritten in place, keeping its
key, its soft-delete mark and the truth of the condition, the query finds the
rewritten row. -/
theorem orderFirst_update (S : Schema α) (p : α → Bool) (rows : List α) (x0 x : α)
    (hnd : (rows.map S.id).Nodup) (hfirst : orderFirst S (rows.filter p) = some x0)
    (hid : S.id x0 = S.id x) (hlive : live S x0 = true) (hp : p x = true) :
    orderFirst S
      ((rows.map (fun r => if (S.id r == S.id x && live S r) = true then x else r)).filter p)
      = some x := by
  have hmem := orderFirst_mem S _ x0 hfirst
  rw [List.mem_filter] at hmem
  have hkey : ∀ r ∈ rows, (S.id r == S.id x && live S r) = true → r = x0 := by
    intro r hr hc
    simp only [Bool.and_eq_true, beq_iff_eq] at hc
    exact eq_of_id_eq S.id rows hnd r hr x0 hmem.1 (hc.1.trans hid.symm)
  rw [filter_map_comm, orderFirst_map, hfirst]
  · simp [hid, hlive]
  · intro r hr
    by_cases hc : (S.id r == S.id x && live S r) = true
    · simp only [hc, if_true]
      simp only [Bool.and_eq_true, beq_iff_eq] at hc
      exact hc.1.symm
    · simp [hc]
  · intro r hr
    by_cases hc : (S.id r == S.id x && live S r) = true
    · have := hkey r hr hc
      subst this
      simp only [hc, if_true, hp, hmem.2]
    · simp [hc]

end gorm
namespace store

theorem Session.upsert_never_fails (x : Session) (rows : List Session) :
    ∃ rows1, gorm.Upsert Session.schema (fun r => r.ID) x rows = .ok rows1 := by
  unfold gorm.Upsert
  cases hf : rows.find? (fun r => r.ID == x.ID) with
  | some old =>
    simp only
    unfold gorm.updateAll
    exact ⟨_, rfl⟩
  | none =>
    simp only
    unfold gorm.Create gorm.conflict
    have hany : rows.any (fun r => Session.schema.id r == Session.schema.id x) = false := by
      rw [List.find?_eq_none] at hf
      rw [List.any_eq_false]
      intro r hr
      exact hf r hr
    rw [hany]
    exact ⟨_, rfl⟩

/-- The first write of a Create...Session cannot fail, and it touches the tables
users and sessions only. -/
theorem Store.createSession_ok (m : Store) (session : Session) :
    ∃ m1, m.createSession session = .ok m1 ∧
      m1.access_tokens = m.access_tokens ∧
      m1.authorization_codes = m.authorization_codes ∧
      m1.clients = m.clients ∧
      m1.client_jwts = m.client_jwts ∧
      m1.pkces = m.pkces ∧
      m1.refresh_tokens = m.refresh_tokens := by
  unfold Store.createSession
  simp only
  obtain ⟨rows1, h1⟩ := Session.upsert_never_fails
    (if session.User = {} then session else { session with UserID := session.User.ID })
    m.sessions
  rw [h1]
  exact ⟨_, rfl, rfl, rfl, rfl, rfl, rfl, rfl⟩

theorem Decodable_scan (form : datatypes.JSON url.Values) :
    Decodable form.scan = Decodable form := by
  cases form <;> rfl

theorem Unmarshal_of_decodable (form : datatypes.JSON url.Values) (h : Decodable form = true) :
    ∃ v, json.Unmarshal [] form.scan = .ok v := by
  unfold Decodable at h
  cases hu : json.Unmarshal [] form.scan with
  | ok v => exact ⟨v, rfl⟩
  | error e =>
    rw [hu] at h
    exact absurd h (by simp)

theorem JSON_scan_scan (form : datatypes.JSON url.Values) : form.scan.scan = form.scan := by
  cases form <;> rfl

/-- What a successful CreateAuthorizeCodeSession leaves behind: the row it
appended to authorization_codes, after the session write. -/
theorem Store.CreateAuthorizeCodeSession_ok (s0 s1 : Store) (code : String)
    (request : fosite.Request)
    (h : s0.CreateAuthorizeCodeSession code request = (s1, none)) :
    ∃ m1, s0.createSession request.Session = .ok m1 ∧
      gorm.conflict AuthorizationCode.schema
        { ID := request.ID, Active := true, Code := code, RequestedAt := request.RequestedAt,
          ClientID := request.Client.ID, RequestedScopes := request.RequestedScope,
          GrantedScopes := request.GrantedScope, Form := .doc request.Form,
          SessionID := request.Session.ID, RequestedAudience := request.RequestedAudience,
          GrantedAudience := request.GrantedAudience } s0.authorization_codes = none ∧
      s1 = { m1 with authorization_codes := s0.authorization_codes ++
        [{ ID := request.ID, Active := true, Code := code, RequestedAt := request.RequestedAt,
           ClientID := request.Client.ID, RequestedScopes := request.RequestedScope,
           GrantedScopes := request.GrantedScope, Form := .doc request.Form,
           SessionID := request.Session.ID, RequestedAudience := request.RequestedAudience,
           GrantedAudience := request.GrantedAudience }] } := by
  obtain ⟨m1, hm1, _, hac, _⟩ := Store.createSession_ok s0 request.Session
  refine ⟨m1, hm1, ?_⟩
  unfold Store.CreateAuthorizeCodeSession at h
  simp only [json.Marshal, hm1, Client.GetID, hac] at h
  split at h
  · simp at h
  · rename_i rows hc
    obtain ⟨hrows, hconf⟩ := gorm.Create_ok _ _ _ _ hc
    simp only [Prod.mk.injEq, and_true] at h
    exact ⟨hconf, by rw [← h, hrows]⟩

end store
namespace store

theorem AuthorizationCode.scan_inactive_code (r : AuthorizationCode) :
    AuthorizationCode.schema.scan { AuthorizationCode.schema.scan r with Active := false }
      = { AuthorizationCode.schema.scan r with Active := false } := by
  simp only [AuthorizationCode.schema, StringArray.stored_stored, JSON_scan_scan]

/-- What a successful InvalidateAuthorizeCodeSession does to a table that
satisfies its key constraint: the row the lookup finds is rewritten with
Active = false, and the lookup finds the rewritten row afterwards. -/
theorem Store.InvalidateAuthorizeCodeSession_ok (s1 s2 : Store) (code : String)
    (hnd : (s1.authorization_codes.map AuthorizationCode.schema.id).Nodup)
    (h : s1.InvalidateAuthorizeCodeSession code = (s2, none)) :
    ∃ x0 ∈ s1.authorization_codes,
      gorm.First AuthorizationCode.schema [gorm.whereEq (fun r => r.Code) code]
        s1.authorization_codes = .ok (AuthorizationCode.schema.scan x0) ∧
      gorm.First AuthorizationCode.schema [gorm.whereEq (fun r => r.Code) code]
        s2.authorization_codes = .ok { AuthorizationCode.schema.scan x0 with Active := false } ∧
      s2.access_tokens = s1.access_tokens ∧ s2.clients = s1.clients ∧
      s2.client_jwts = s1.client_jwts ∧ s2.users = s1.users ∧ s2.pkces = s1.pkces ∧
      s2.refresh_tokens = s1.refresh_tokens ∧ s2.sessions = s1.sessions := by
  unfold Store.InvalidateAuthorizeCodeSession at h
  split at h
  · simp at h
  · rename_i res hfirst
    obtain ⟨x0, hord, hres, hmem, hlive, hcond⟩ := gorm.First_ok _ _ _ _ hfirst
    subst hres
    simp only at h
    split at h
    · simp at h
    · rename_i rows2 hsave
      simp only [Prod.mk.injEq, and_true] at h
      subst h
      obtain ⟨_, hrows2⟩ := gorm.Save_ok AuthorizationCode.schema
        { AuthorizationCode.schema.scan x0 with Active := false } _ _ x0 hmem rfl hlive hsave
      refine ⟨x0, hmem, hfirst, ?_, rfl, rfl, rfl, rfl, rfl, rfl, rfl⟩
      have hupd := gorm.orderFirst_update AuthorizationCode.schema
        (fun r => gorm.live AuthorizationCode.schema r &&
          [gorm.whereEq (fun r : AuthorizationCode => r.Code) code].all (fun c => c r))
        s1.authorization_codes x0
        { AuthorizationCode.schema.scan x0 with Active := false } hnd hord rfl hlive
        (by
          simp only [Bool.and_eq_true]
          exact ⟨hlive, hcond⟩)
      simp only
      rw [hrows2, gorm.First_of_orderFirst _ _ _ _ hupd, AuthorizationCode.scan_inactive_code]

end store
namespace gorm

variable {α : Type}

theorem conflict_of_unique_mem (S : Schema α) (x : α) (rows : List α)
    (u : String × (α → String)) (hu : u ∈ S.unique) (r : α) (hr : r ∈ rows)
    (hru : u.2 r = u.2 x) :
    ∃ col, conflict S x rows = some (.UniqueConstraintFailed S.Table col) := by
  unfold conflict
  by_cases hany : rows.any (fun r => S.id r == S.id x) = true
  · rw [if_pos hany]
    exact ⟨"id", rfl⟩
  · rw [if_neg hany]
    cases hf : S.unique.find? (fun u => rows.any (fun r => u.2 r == u.2 x)) with
    | some v => exact ⟨v.1, rfl⟩
    | none =>
      rw [List.find?_eq_none] at hf
      exfalso
      apply hf u hu
      rw [List.any_eq_true]
      exact ⟨r, hr, by simp [hru]⟩

theorem Create_error_of_unique_mem (S : Schema α) (x : α) (rows : List α)
    (u : String × (α → String)) (hu : u ∈ S.unique) (r : α) (hr : r ∈ rows)
    (hru : u.2 r = u.2 x) :
    ∃ col, Create S x rows = .error (.UniqueConstraintFailed S.Table col) := by
  obtain ⟨col, hc⟩ := conflict_of_unique_mem S x rows u hu r hr hru
  exact ⟨col, by unfold Create; rw [hc]⟩

theorem Upsert_error_of_unique_mem (S : Schema α) (x : α) (rows : List α)
    (u : String × (α → String)) (hu : u ∈ S.unique) (r : α) (hr : r ∈ rows)
    (hru : u.2 r = u.2 x) (hid : S.id r ≠ S.id x) :
    ∃ col, Upsert S S.id x rows = .error (.UniqueConstraintFailed S.Table col) := by
  unfold Upsert
  cases hf : rows.find? (fun r => S.id r == S.id x) with
  | none => exact Create_error_of_unique_mem S x rows u hu r hr hru
  | some old =>
    have hold : S.id old = S.id x := by
      have := List.find?_some hf
      simpa using this
    simp only
    unfold updateAll
    cases hfu : S.unique.find?
        (fun u => rows.any (fun r => S.id r != S.id old && u.2 r == u.2 (x))) with
    | some v => exact ⟨v.1, rfl⟩
    | none =>
      rw [List.find?_eq_none] at hfu
      exfalso
      apply hfu u hu
      rw [List.any_eq_true]
      exact ⟨r, hr, by simp [hru, hold, hid]⟩

theorem Upsert_id_mem (S : Schema α) (hset : ∀ y, S.setID y (S.id y) = y) (x : α)
    (rows rows1 : List α) (h : Upsert S S.id x rows = .ok rows1) : x ∈ rows1 := by
  unfold Upsert at h
  cases hf : rows.find? (fun r => S.id r == S.id x) with
  | none =>
    rw [hf] at h
    rw [(Create_ok S x rows rows1 h).1]
    simp
  | some old =>
    rw [hf] at h
    simp only at h
    have hold : S.id old = S.id x := by
      have := List.find?_some hf
      simpa using this
    unfold updateAll at h
    rw [hold, hset] at h
    split at h
    · exact absurd h (by simp)
    · simp only [Except.ok.injEq] at h
      subst h
      apply mem_map_replace
      exact hold ▸ List.mem_map_of_mem S.id (List.mem_of_find?_eq_some hf)

end gorm

namespace gorm

variable {α : Type}

theorem conflict_is_unique_failure (S : Schema α) (x : α) (rows : List α) (e : Error)
    (h : conflict S x rows = some e) : ∃ table column, e = .UniqueConstraintFailed table column := by
  unfold conflict at h
  split at h
  · simp only [Option.some.injEq] at h
    exact ⟨_, _, h.symm⟩
  · split at h
    · simp only [Option.some.injEq] at h
      exact ⟨_, _, h.symm⟩
    · exact absurd h (by simp)

theorem Create_error (S : Schema α) (x : α) (rows : List α) (e : Error)
    (h : Create S x rows = .error e) : ∃ table column, e = .UniqueConstraintFailed table column := by
  unfold Create at h
  split at h
  · rename_i e1 hconf
    simp only [Except.error.injEq] at h
    exact h ▸ conflict_is_unique_failure S x rows e1 hconf
  · exact absurd h (by simp)

theorem Upsert_error (S : Schema α) (col : α → String) (x : α) (rows : List α) (e : Error)
    (h : Upsert S col x rows = .error e) :
    ∃ table column, e = .UniqueConstraintFailed table column := by
  unfold Upsert at h
  split at h
  · unfold updateAll at h
    split at h
    · simp only [Except.error.injEq] at h
      exact ⟨_, _, h.symm⟩
    · exact absurd h (by simp)
  · exact Create_error S x rows e h

end gorm

namespace gorm

variable {α : Type}

/-- An upsert on the primary key succeeds when every row that shares a unique
value with the new row is the row with the same key. -/
theorem Upsert_id_ok_of (S : Schema α) (x : α) (rows : List α)
    (h : ∀ r ∈ rows, ∀ u ∈ S.unique, u.2 r = u.2 x → S.id r = S.id x) :
    ∃ rows1, Upsert S S.id x rows = .ok rows1 := by
  unfold Upsert
  cases hf : rows.find? (fun r => S.id r == S.id x) with
  | some old =>
    have hold : S.id old = S.id x := by
      have := List.find?_some hf
      simpa using this
    simp only
    unfold updateAll
    cases hu : S.unique.find?
        (fun u => rows.any (fun r => S.id r != S.id old && u.2 r == u.2 x)) with
    | none => exact ⟨_, rfl⟩
    | some v =>
      exfalso
      have hv := List.find?_some hu
      have hvmem := List.mem_of_find?_eq_some hu
      rw [List.any_eq_true] at hv
      obtain ⟨r, hr, hc⟩ := hv
      simp only [Bool.and_eq_true, bne_iff_ne, ne_eq, beq_iff_eq] at hc
      exact hc.1 ((h r hr v hvmem hc.2).trans hold.symm)
  | none =>
    simp only
    rw [List.find?_eq_none] at hf
    unfold Create conflict
    have hany : rows.any (fun r => S.id r == S.id x) = false := by
      rw [List.any_eq_false]
      intro r hr
      exact hf r hr
    rw [hany]
    cases hu : S.unique.find? (fun u => rows.any (fun r => u.2 r == u.2 x)) with
    | none => exact ⟨_, rfl⟩
    | some v =>
      exfalso
      have hv := List.find?_some hu
      have hvmem := List.mem_of_find?_eq_some hu
      rw [List.any_eq_true] at hv
      obtain ⟨r, hr, hc⟩ := hv
      simp only [beq_iff_eq] at hc
      have := h r hr v hvmem hc
      exact hf r hr (by simp [this])

end gorm

namespace store

/-- CreatePKCERequestSession is the session write followed by one INSERT into pkces. -/
theorem Store.CreatePKCERequestSession_eq (m : Store) (signature : String)
    (request : fosite.Request) :
    ∃ m1, m.createSession request.Session = .ok m1 ∧ m1.pkces = m.pkces ∧
      m.CreatePKCERequestSession signature request =
        match gorm.Create PKCE.schema
          { ID := request.ID, Active := true, Signature := signature,
            RequestedAt := request.RequestedAt, ClientID := request.Client.ID,
            RequestedScopes := request.RequestedScope, GrantedScopes := request.GrantedScope,
            Form := .doc request.Form, SessionID := request.Session.ID,
            RequestedAudience := request.RequestedAudience,
            GrantedAudience := request.GrantedAudience } m.pkces with
        | .error err => (m1, some (.Errorf "error creating PCKE: %w" err))
        | .ok rows => ({ m1 with pkces := rows }, none) := by
  obtain ⟨m1, hm1, _, _, _, _, hp, _⟩ := Store.createSession_ok m request.Session
  refine ⟨m1, hm1, hp, ?_⟩
  unfold Store.CreatePKCERequestSession
  simp only [json.Marshal, hm1, Client.GetID, hp]

/-- CreateAccessTokenSession is the session write followed by one upsert on the id
into access_tokens. -/
theorem Store.CreateAccessTokenSession_eq (m : Store) (signature : String)
    (request : fosite.Request) :
    ∃ m1, m.createSession request.Session = .ok m1 ∧ m1.access_tokens = m.access_tokens ∧
      m.CreateAccessTokenSession signature request =
        match gorm.Upsert AccessToken.schema AccessToken.schema.id
          { ID := request.ID, Active := true, Signature := signature,
            RequestedAt := request.RequestedAt, ClientID := request.Client.ID,
            RequestedScopes := request.RequestedScope, GrantedScopes := request.GrantedScope,
            Form := .doc request.Form, SessionID := request.Session.ID,
            RequestedAudience := request.RequestedAudience,
            GrantedAudience := request.GrantedAudience } m.access_tokens with
        | .error err => (m1, some (.Errorf "error creating access token: %w" err))
        | .ok rows => ({ m1 with access_tokens := rows }, none) := by
  obtain ⟨m1, hm1, ha, _, _, _, _, _⟩ := Store.createSession_ok m request.Session
  refine ⟨m1, hm1, ha, ?_⟩
  unfold Store.CreateAccessTokenSession
  simp only [json.Marshal, hm1, Client.GetID, ha]
  rfl

/-- CreateRefreshTokenSession is the session write followed by one upsert on the id
into refresh_tokens. -/
theorem Store.CreateRefreshTokenSession_eq (m : Store) (signature : String)
    (request : fosite.Request) :
    ∃ m1, m.createSession request.Session = .ok m1 ∧ m1.refresh_tokens = m.refresh_tokens ∧
      m.CreateRefreshTokenSession signature request =
        match gorm.Upsert RefreshToken.schema RefreshToken.schema.id
          { ID := request.ID, Active := true, Signature := signature,
            RequestedAt := request.RequestedAt, ClientID := request.Client.ID,
            RequestedScopes := request.RequestedScope, GrantedScopes := request.GrantedScope,
            Form := .doc request.Form, SessionID := request.Session.ID,
            RequestedAudience := request.RequestedAudience,
            GrantedAudience := request.GrantedAudience } m.refresh_tokens with
        | .error err => (m1, some (.Errorf "error creating refresh token: %w" err))
        | .ok rows => ({ m1 with refresh_tokens := rows }, none) := by
  obtain ⟨m1, hm1, _, _, _, _, _, hr⟩ := Store.createSession_ok m request.Session
  refine ⟨m1, hm1, hr, ?_⟩
  unfold Store.CreateRefreshTokenSession
  simp only [json.Marshal, hm1, Client.GetID, hr]
  rfl

end store

namespace gorm

variable {α : Type}

/-- A row with the empty key is the least: when one is selected, the row that
ORDER BY id LIMIT 1 returns has the empty key. -/
theorem orderFirst_empty_id (S : Schema α) :
    ∀ (rows : List α), (∃ x ∈ rows, S.id x = "") →
      ∃ m, orderFirst S rows = some m ∧ S.id m = ""
  | [], h => by
    obtain ⟨x, hx, _⟩ := h
    simp at hx
  | r :: rs, h => by
    obtain ⟨x, hx, hid⟩ := h
    unfold orderFirst
    cases hrs : orderFirst S rs with
    | none =>
      have hnil : rs = [] := by
        cases rs with
        | nil => rfl
        | cons a as =>
          obtain ⟨m, hm⟩ := orderFirst_isSome S (a :: as) (by simp)
          rw [hm] at hrs
          exact absurd hrs (by simp)
      subst hnil
      simp only [List.mem_singleton] at hx
      subst hx
      exact ⟨x, rfl, hid⟩
    | some b =>
      simp only
      rcases List.mem_cons.mp hx with hxr | hxrs
      · subst hxr
        rw [hid, less_empty]
        exact ⟨x, by simp, hid⟩
      · obtain ⟨m, hm, hmid⟩ := orderFirst_empty_id S rs ⟨x, hxrs, hid⟩
        rw [hrs] at hm
        simp only [Option.some.injEq] at hm
        subst hm
        by_cases hl : less (S.id b) (S.id r) = true
        · exact ⟨b, by simp [hl], hmid⟩
        · refine ⟨r, by simp [hl], ?_⟩
          rw [hmid] at hl
          exact empty_of_not_less _ (by simpa using hl)

end gorm

namespace store

theorem RefreshToken.scan_inactive_token (r : RefreshToken) :
    RefreshToken.schema.scan { RefreshToken.schema.scan r with Active := false }
      = { RefreshToken.schema.scan r with Active := false } := by
  simp only [RefreshToken.schema, StringArray.stored_stored, JSON_scan_scan]

end store

/-! ## Lemmas: well-formedness is kept by the writes -/

namespace gorm

variable {α : Type}

theorem CreateDoNothing_valid (S : Schema α) (x : α) (rows : List α) (hv : S.Valid rows) :
    S.Valid (CreateDoNothing S x rows) := by
  unfold CreateDoNothing
  cases hc : conflict S x rows with
  | some e => exact hv
  | none =>
    apply Create_valid S x rows _ hv
    unfold Create
    rw [hc]

/-- The rows after an upsert on the primary key are old rows or the new row. -/
theorem Upsert_id_rows (S : Schema α) (hset : ∀ y, S.setID y (S.id y) = y) (x : α)
    (rows rows1 : List α) (h : Upsert S S.id x rows = .ok rows1) :
    ∀ r ∈ rows1, r ∈ rows ∨ r = x := by
  unfold Upsert at h
  cases hf : rows.find? (fun r => S.id r == S.id x) with
  | none =>
    rw [hf] at h
    rw [(Create_ok S x rows rows1 h).1]
    intro r hr
    rw [List.mem_append, List.mem_singleton] at hr
    exact hr
  | some old =>
    rw [hf] at h
    simp only at h
    have hold : S.id old = S.id x := by
      have := List.find?_some hf
      simpa using this
    unfold updateAll at h
    rw [hold, hset] at h
    split at h
    · exact absurd h (by simp)
    · simp only [Except.ok.injEq] at h
      subst h
      intro r hr
      obtain ⟨y, hy, hyr⟩ := List.mem_map.mp hr
      by_cases hc : (S.id y == S.id x) = true
      · rw [if_pos hc] at hyr
        exact Or.inr hyr.symm
      · rw [if_neg hc] at hyr
        exact Or.inl (hyr ▸ hy)

/-- Rewriting the live row of a key in place, without changing its key or its
unique columns, keeps the key constraints. -/
theorem Save_valid (S : Schema α) (x : α) (rows rows1 : List α) (x0 : α) (hx0 : x0 ∈ rows)
    (hid : S.id x0 = S.id x) (hlive : live S x0 = true)
    (huniq : ∀ u ∈ S.unique, u.2 x = u.2 x0) (hv : S.Valid rows)
    (h : Save S x rows = .ok rows1) : S.Valid rows1 := by
  obtain ⟨_, hrows1⟩ := Save_ok S x rows rows1 x0 hx0 hid hlive h
  have hkey : ∀ r ∈ rows, (S.id r == S.id x && live S r) = true → r = x0 := by
    intro r hr hc
    simp only [Bool.and_eq_true, beq_iff_eq] at hc
    exact eq_of_id_eq S.id rows hv.1 r hr x0 hx0 (hc.1.trans hid.symm)
  have hmap : ∀ (g : α → String), g x = g x0 →
      (rows.map (fun r => if (S.id r == S.id x && live S r) = true then x else r)).map g
        = rows.map g := by
    intro g hg
    rw [List.map_map]
    apply List.map_congr_left
    intro r hr
    by_cases hc : (S.id r == S.id x && live S r) = true
    · simp only [Function.comp, hc, if_true]
      rw [hkey r hr hc, hg]
    · simp only [Function.comp, hc]
      rfl
  subst hrows1
  refine ⟨?_, ?_⟩
  · rw [hmap S.id hid.symm]
    exact hv.1
  · intro u hu
    rw [hmap u.2 (huniq u hu)]
    exact hv.2 u hu

/-- The rows after such a rewrite are old rows or the new row. -/
theorem Save_rows (S : Schema α) (x : α) (rows rows1 : List α) (x0 : α) (hx0 : x0 ∈ rows)
    (hid : S.id x0 = S.id x) (hlive : live S x0 = true) (h : Save S x rows = .ok rows1) :
    ∀ r ∈ rows1, r ∈ rows ∨ r = x := by
  obtain ⟨_, hrows1⟩ := Save_ok S x rows rows1 x0 hx0 hid hlive h
  subst hrows1
  intro r hr
  obtain ⟨y, hy, hyr⟩ := List.mem_map.mp hr
  by_cases hc : (S.id y == S.id x && live S y) = true
  · rw [if_pos hc] at hyr
    exact Or.inr hyr.symm
  · rw [if_neg hc] at hyr
    exact Or.inl (hyr ▸ hy)

end gorm

namespace store

theorem Store.WF_of_session_write (m : Store) (users : List User) (sessions : List Session)
    (hwf : m.WF) (hu : User.schema.Valid users) (hs : Session.schema.Valid sessions) :
    ({ m with users := users, sessions := sessions } : Store).WF := by
  obtain ⟨h1, h2, h3, h4, _, h6, h7, _, h9, h10, h11, h12⟩ := hwf
  exact ⟨h1, h2, h3, h4, hu, h6, h7, hs, h9, h10, h11, h12⟩

theorem Store.WF_of_authorization_codes (m : Store) (rows : List AuthorizationCode)
    (hwf : m.WF) (hv : AuthorizationCode.schema.Valid rows)
    (hd : ∀ r ∈ rows, Decodable r.Form = true) :
    ({ m with authorization_codes := rows } : Store).WF := by
  obtain ⟨h1, _, h3, h4, h5, h6, h7, h8, h9, _, h11, h12⟩ := hwf
  exact ⟨h1, hv, h3, h4, h5, h6, h7, h8, h9, hd, h11, h12⟩

theorem Store.WF_of_access_tokens (m : Store) (rows : List AccessToken)
    (hwf : m.WF) (hv : AccessToken.schema.Valid rows)
    (hd : ∀ r ∈ rows, Decodable r.Form = true) :
    ({ m with access_tokens := rows } : Store).WF := by
  obtain ⟨_, h2, h3, h4, h5, h6, h7, h8, _, h10, h11, h12⟩ := hwf
  exact ⟨hv, h2, h3, h4, h5, h6, h7, h8, hd, h10, h11, h12⟩

theorem Store.WF_of_refresh_tokens (m : Store) (rows : List RefreshToken)
    (hwf : m.WF) (hv : RefreshToken.schema.Valid rows)
    (hd : ∀ r ∈ rows, Decodable r.Form = true) :
    ({ m with refresh_tokens := rows } : Store).WF := by
  obtain ⟨h1, h2, h3, h4, h5, h6, _, h8, h9, h10, h11, _⟩ := hwf
  exact ⟨h1, h2, h3, h4, h5, h6, hv, h8, h9, h10, h11, hd⟩

theorem Store.WF_of_pkces (m : Store) (rows : List PKCE)
    (hwf : m.WF) (hv : PKCE.schema.Valid rows)
    (hd : ∀ r ∈ rows, Decodable r.Form = true) :
    ({ m with pkces := rows } : Store).WF := by
  obtain ⟨h1, h2, h3, h4, h5, _, h7, h8, h9, h10, _, h12⟩ := hwf
  exact ⟨h1, h2, h3, h4, h5, hv, h7, h8, h9, h10, hd, h12⟩

theorem Store.WF_of_client_jwts (m : Store) (rows : List ClientJWT)
    (hwf : m.WF) (hv : ClientJWT.schema.Valid rows) :
    ({ m with client_jwts := rows } : Store).WF := by
  obtain ⟨h1, h2, h3, _, h5, h6, h7, h8, h9, h10, h11, h12⟩ := hwf
  exact ⟨h1, h2, h3, hv, h5, h6, h7, h8, h9, h10, h11, h12⟩

/-- The session write keeps the database well-formed. -/
theorem Store.createSession_WF (m m1 : Store) (session : Session) (hwf : m.WF)
    (h : m.createSession session = .ok m1) : m1.WF := by
  unfold Store.createSession at h
  simp only at h
  split at h
  · exact absurd h (by simp)
  · rename_i sessions hup
    simp only [Except.ok.injEq] at h
    subst h
    apply Store.WF_of_session_write m _ _ hwf
    · split
      · exact hwf.2.2.2.2.1
      · exact gorm.CreateDoNothing_valid _ _ _ hwf.2.2.2.2.1
    · exact (gorm.Upsert_id_valid Session.schema (fun _ => rfl) _ _ _
        hwf.2.2.2.2.2.2.2.1 hup).1

/-- CreateAuthorizeCodeSession is the session write followed by one INSERT into
authorization_codes. -/
theorem Store.CreateAuthorizeCodeSession_eq (m : Store) (code : String)
    (request : fosite.Request) :
    ∃ m1, m.createSession request.Session = .ok m1 ∧
      m1.authorization_codes = m.authorization_codes ∧
      m.CreateAuthorizeCodeSession code request =
        match gorm.Create AuthorizationCode.schema
          { ID := request.ID, Active := true, Code := code,
            RequestedAt := request.RequestedAt, ClientID := request.Client.ID,
            RequestedScopes := request.RequestedScope, GrantedScopes := request.GrantedScope,
            Form := .doc request.Form, SessionID := request.Session.ID,
            RequestedAudience := request.RequestedAudience,
            GrantedAudience := request.GrantedAudience } m.authorization_codes with
        | .error err => (m1, some (.Errorf "error creating authorization code: %w" err))
        | .ok rows => ({ m1 with authorization_codes := rows }, none) := by
  obtain ⟨m1, hm1, _, hc, _⟩ := Store.createSession_ok m request.Session
  refine ⟨m1, hm1, hc, ?_⟩
  unfold Store.CreateAuthorizeCodeSession
  simp only [json.Marshal, hm1, Client.GetID, hc]

/-- Every write of the store that is modelled here keeps a well-formed database
well-formed, whether it succeeds or fails. -/
theorem Store.WF_kept (m : Store) (hwf : m.WF) :
    (∀ code request, (m.CreateAuthorizeCodeSession code request).1.WF) ∧
    (∀ code, (m.InvalidateAuthorizeCodeSession code).1.WF) ∧
    (∀ signature request, (m.CreateAccessTokenSession signature request).1.WF) ∧
    (∀ signature request, (m.CreateRefreshTokenSession signature request).1.WF) ∧
    (∀ requestID, (m.RevokeRefreshToken requestID).1.WF) ∧
    (∀ requestID, (m.RevokeAccessToken requestID).1.WF) ∧
    (∀ signature request, (m.CreatePKCERequestSession signature request).1.WF) ∧
    (∀ now uuid jti exp, (m.SetClientAssertionJWT now uuid jti exp).1.WF) := by
  refine ⟨?_, ?_, ?_, ?_, ?_, ?_, ?_, ?_⟩
  · intro code request
    obtain ⟨m1, hm1, hc, hk⟩ := Store.CreateAuthorizeCodeSession_eq m code request
    have hwf1 := Store.createSession_WF m m1 _ hwf hm1
    rw [hk]
    split
    · exact hwf1
    · rename_i rows hcr
      apply Store.WF_of_authorization_codes m1 rows hwf1
      · exact gorm.Create_valid _ _ _ _ hwf.2.1 hcr
      · intro r hr
        rw [(gorm.Create_ok _ _ _ _ hcr).1, List.mem_append, List.mem_singleton] at hr
        rcases hr with hr | hr
        · exact hwf.2.2.2.2.2.2.2.2.2.1 r hr
        · subst hr; rfl
  · intro code
    unfold Store.InvalidateAuthorizeCodeSession
    split
    · exact hwf
    · rename_i res hfirst
      obtain ⟨x0, _, hres, hmem, hlive, _⟩ := gorm.First_ok _ _ _ _ hfirst
      subst hres
      simp only
      split
      · exact hwf
      · rename_i rows hsave
        apply Store.WF_of_authorization_codes m rows hwf
        · exact gorm.Save_valid AuthorizationCode.schema
            { AuthorizationCode.schema.scan x0 with Active := false } _ _ x0 hmem rfl hlive
            (by simp [AuthorizationCode.schema]) hwf.2.1 hsave
        · intro r hr
          rcases gorm.Save_rows AuthorizationCode.schema
            { AuthorizationCode.schema.scan x0 with Active := false } _ _ x0 hmem rfl hlive
            hsave r hr with hr | hr
          · exact hwf.2.2.2.2.2.2.2.2.2.1 r hr
          · subst hr
            show Decodable x0.Form.scan = true
            rw [Decodable_scan]
            exact hwf.2.2.2.2.2.2.2.2.2.1 x0 hmem
  · intro signature request
    obtain ⟨m1, hm1, hc, hk⟩ := Store.CreateAccessTokenSession_eq m signature request
    have hwf1 := Store.createSession_WF m m1 _ hwf hm1
    rw [hk]
    split
    · exact hwf1
    · rename_i rows hup
      apply Store.WF_of_access_tokens m1 rows hwf1
      · exact (gorm.Upsert_id_valid _ (fun _ => rfl) _ _ _ hwf.1 hup).1
      · intro r hr
        rcases gorm.Upsert_id_rows _ (fun _ => rfl) _ _ _ hup r hr with hr | hr
        · exact hwf.2.2.2.2.2.2.2.2.1 r hr
        · subst hr; rfl
  · intro signature request
    obtain ⟨m1, hm1, hc, hk⟩ := Store.CreateRefreshTokenSession_eq m signature request
    have hwf1 := Store.createSession_WF m m1 _ hwf hm1
    rw [hk]
    split
    · exact hwf1
    · rename_i rows hup
      apply Store.WF_of_refresh_tokens m1 rows hwf1
      · exact (gorm.Upsert_id_valid _ (fun _ => rfl) _ _ _ hwf.2.2.2.2.2.2.1 hup).1
      · intro r hr
        rcases gorm.Upsert_id_rows _ (fun _ => rfl) _ _ _ hup r hr with hr | hr
        · exact hwf.2.2.2.2.2.2.2.2.2.2.2 r hr
        · subst hr; rfl
  · intro requestID
    unfold Store.RevokeRefreshToken
    split
    · exact hwf
    · rename_i res hfirst
      obtain ⟨x0, _, hres, hmem, hlive, _⟩ := gorm.First_ok _ _ _ _ hfirst
      subst hres
      simp only
      split
      · exact hwf
      · rename_i rows hsave
        apply Store.WF_of_refresh_tokens m rows hwf
        · exact gorm.Save_valid RefreshToken.schema
            { RefreshToken.schema.scan x0 with Active := false } _ _ x0 hmem rfl hlive
            (by
              intro u hu
              simp only [RefreshToken.schema, List.mem_singleton] at hu
              subst hu
              rfl) hwf.2.2.2.2.2.2.1 hsave
        · intro r hr
          rcases gorm.Save_rows RefreshToken.schema
            { RefreshToken.schema.scan x0 with Active := false } _ _ x0 hmem rfl hlive
            hsave r hr with hr | hr
          · exact hwf.2.2.2.2.2.2.2.2.2.2.2 r hr
          · subst hr
            show Decodable x0.Form.scan = true
            rw [Decodable_scan]
            exact hwf.2.2.2.2.2.2.2.2.2.2.2 x0 hmem
  · intro requestID
    unfold Store.RevokeAccessToken
    split
    · exact hwf
    · rename_i res hfirst
      obtain ⟨x0, _, hres, hmem, hlive, _⟩ := gorm.First_ok _ _ _ _ hfirst
      subst hres
      simp only
      split
      · exact hwf
      · rename_i rows hsave
        apply Store.WF_of_access_tokens m rows hwf
        · exact gorm.Save_valid AccessToken.schema
            { AccessToken.schema.scan x0 with Active := false } _ _ x0 hmem rfl hlive
            (by
              intro u hu
              simp only [AccessToken.schema, List.mem_singleton] at hu
              subst hu
              rfl) hwf.1 hsave
        · intro r hr
          rcases gorm.Save_rows AccessToken.schema
            { AccessToken.schema.scan x0 with Active := false } _ _ x0 hmem rfl hlive
            hsave r hr with hr | hr
          · exact hwf.2.2.2.2.2.2.2.2.1 r hr
          · subst hr
            show Decodable x0.Form.scan = true
            rw [Decodable_scan]
            exact hwf.2.2.2.2.2.2.2.2.1 x0 hmem
  · intro signature request
    obtain ⟨m1, hm1, hc, hk⟩ := Store.CreatePKCERequestSession_eq m signature request
    have hwf1 := Store.createSession_WF m m1 _ hwf hm1
    rw [hk]
    split
    · exact hwf1
    · rename_i rows hcr
      apply Store.WF_of_pkces m1 rows hwf1
      · exact gorm.Create_valid _ _ _ _ hwf.2.2.2.2.2.1 hcr
      · intro r hr
        rw [(gorm.Create_ok _ _ _ _ hcr).1, List.mem_append, List.mem_singleton] at hr
        rcases hr with hr | hr
        · exact hwf.2.2.2.2.2.2.2.2.2.2.1 r hr
        · subst hr; rfl
  · intro now uuid jti exp
    unfold Store.SetClientAssertionJWT
    split
    · exact hwf
    · simp only
      split
      · exact hwf
      · rename_i rows hcr
        exact Store.WF_of_client_jwts m rows hwf (gorm.Create_valid _ _ _ _ hwf.2.2.2.1 hcr)

/-- The example state seeded is what NewStore makes of the empty database. -/
theorem seeded_eq_NewStore : NewStore {} "user-1" = .ok seeded := rfl

/-- The database that NewStore seeds from an empty file is well-formed. -/
theorem NewStore_WF (uuid : String) (s : Store) (h : NewStore {} uuid = .ok s) : s.WF := by
  have hs : s = { clients := seedClients, users := seedUsers uuid } := by
    have : NewStore {} uuid = .ok { clients := seedClients, users := seedUsers uuid } := rfl
    rw [this] at h
    simp only [Except.ok.injEq] at h
    exact h.symm
  subst hs
  have hclients : Client.schema.Valid seedClients := by decide
  have husers : User.schema.Valid (seedUsers uuid) := by
    simp [gorm.Schema.Valid, User.schema, seedUsers]
  have ha : AccessToken.schema.Valid [] := by decide
  have hc : AuthorizationCode.schema.Valid [] := by decide
  have hj : ClientJWT.schema.Valid [] := by decide
  have hp : PKCE.schema.Valid [] := by decide
  have hr : RefreshToken.schema.Valid [] := by decide
  have hs : Session.schema.Valid [] := by decide
  exact ⟨ha, hc, hclients, hj, husers, hp, hr, hs, by simp, by simp, by simp, by simp⟩

end store

/-! ## Lemmas: the expiry map -/

namespace store

theorem lookup_filter_ne (key other : String) (hne : other ≠ key) :
    ∀ (m : List (String × time.Time)),
      (m.filter (fun e => e.1 != key)).lookup other = m.lookup other
  | [] => rfl
  | (a, b) :: rest => by
    have ih := lookup_filter_ne key other hne rest
    by_cases ha : a = key
    · subst ha
      have h1 : (other == a) = false := by simpa using hne
      simp [List.filter_cons, List.lookup_cons, h1, ih]
    · have h2 : (a != key) = true := by simpa using ha
      simp only [List.filter_cons, h2, if_true, List.lookup_cons, ih]

theorem lookup_setKey_self (m : List (String × time.Time)) (key : String) (exp : time.Time) :
    (setKey m key exp).lookup key = some exp := by
  simp [setKey, List.lookup_cons]

theorem lookup_setKey_ne (m : List (String × time.Time)) (key other : String)
    (exp : time.Time) (hne : other ≠ key) :
    (setKey m key exp).lookup other = m.lookup other := by
  have h1 : (other == key) = false := by simpa using hne
  simp only [setKey, List.lookup_cons, h1]
  exact lookup_filter_ne key other hne m

theorem Session.GetExpiresAt_eq (s : Session) (key : String) :
    s.GetExpiresAt key = (s.decodeExpiresAt.lookup key).getD 0 := by
  unfold Session.GetExpiresAt
  cases h : s.ExpiresAt with
  | nil => simp [Session.decodeExpiresAt, h]
  | null => simp only []; cases (s.decodeExpiresAt.lookup key) <;> rfl
  | doc v => simp only []; cases (s.decodeExpiresAt.lookup key) <;> rfl
  | malformed raw d => simp only []; cases (s.decodeExpiresAt.lookup key) <;> rfl

/-- SetExpiresAt panics on the document null. -/
theorem Session.SetExpiresAt_null (s : Session) (key : String) (exp : time.Time)
    (h : s.ExpiresAt = .null) : s.SetExpiresAt key exp = none := by
  unfold Session.SetExpiresAt
  rw [h]

/-- On other bytes SetExpiresAt stores the document of the decoded map with the key
set, or the nil slice when one of the times cannot be encoded. -/
theorem Session.SetExpiresAt_eq (s : Session) (key : String) (exp : time.Time)
    (hnull : s.ExpiresAt ≠ .null) :
    s.SetExpiresAt key exp = some { s with ExpiresAt :=
      (if (setKey s.decodeExpiresAt key exp).all (fun e => e.2.Encodable) then
        datatypes.JSON.doc (setKey s.decodeExpiresAt key exp)
      else datatypes.JSON.nil) } := by
  have hdec : (match s.ExpiresAt with
      | .nil => some ([] : List (String × time.Time))
      | .null => none
      | _ => some s.decodeExpiresAt) = some s.decodeExpiresAt := by
    cases h : s.ExpiresAt with
    | nil => simp [Session.decodeExpiresAt, h]
    | null => exact absurd h hnull
    | doc v => rfl
    | malformed raw d => rfl
  unfold Session.SetExpiresAt
  simp only [hdec, json.MarshalTimes]
  by_cases hall : (setKey s.decodeExpiresAt key exp).all (fun e => e.2.Encodable) = true
  · simp only [hall, if_true]
  · simp only [hall, if_false]
    rfl

/-- The bytes that SetExpiresAt stores are never the document null. -/
theorem Session.SetExpiresAt_ne_null (s s1 : Session) (key : String) (exp : time.Time)
    (h : s.SetExpiresAt key exp = some s1) : s1.ExpiresAt ≠ .null := by
  have hnull : s.ExpiresAt ≠ .null := by
    intro hn
    rw [Session.SetExpiresAt_null s key exp hn] at h
    exact absurd h (by simp)
  rw [Session.SetExpiresAt_eq s key exp hnull] at h
  simp only [Option.some.injEq] at h
  rw [← h]
  by_cases hall : (setKey s.decodeExpiresAt key exp).all (fun e => e.2.Encodable) = true
  · simp [hall]
  · simp [hall]

theorem Session.decode_after_set (s s1 : Session) (key : String) (exp : time.Time)
    (h : s.SetExpiresAt key exp = some s1) :
    s1.decodeExpiresAt =
      if (setKey s.decodeExpiresAt key exp).all (fun e => e.2.Encodable) then
        setKey s.decodeExpiresAt key exp
      else [] := by
  have hnull : s.ExpiresAt ≠ .null := by
    intro hn
    rw [Session.SetExpiresAt_null s key exp hn] at h
    exact absurd h (by simp)
  rw [Session.SetExpiresAt_eq s key exp hnull] at h
  simp only [Option.some.injEq] at h
  have hE : s1.ExpiresAt =
      (if (setKey s.decodeExpiresAt key exp).all (fun e => e.2.Encodable) then
        datatypes.JSON.doc (setKey s.decodeExpiresAt key exp)
      else datatypes.JSON.nil) := by rw [← h]
  by_cases hall : (setKey s.decodeExpiresAt key exp).all (fun e => e.2.Encodable) = true
  · rw [if_pos hall] at hE ⊢
    conv_lhs => unfold Session.decodeExpiresAt
    rw [hE]
  · rw [if_neg hall] at hE ⊢
    conv_lhs => unfold Session.decodeExpiresAt
    rw [hE]

theorem setKey_all_encodable (m : List (String × time.Time)) (key : String)
    (exp : time.Time) (hm : ∀ e ∈ m, e.2.Encodable = true) (hexp : exp.Encodable = true) :
    (setKey m key exp).all (fun e => e.2.Encodable) = true := by
  rw [List.all_eq_true]
  intro e he
  unfold setKey at he
  rcases List.mem_cons.mp he with h | h
  · rw [h]; exact hexp
  · exact hm e (List.mem_filter.mp h).1

end store

/-! ## Lemmas: soft delete -/

namespace gorm

variable {α : Type}

theorem whereConds_empty (col : α → String) : whereConds col "" = [] := rfl

theorem whereConds_ne (col : α → String) (v : String) (hv : v ≠ "") :
    whereConds col v = [fun r => col r == v] := by
  unfold whereConds
  have : (v == "") = false := by simpa using hv
  rw [this]
  rfl

theorem Delete_empty (S : Schema α) (mark : α → time.Time → α) (now : time.Time)
    (rows : List α) : Delete S mark [] now rows = .error .ErrMissingWhereClause := rfl

theorem Delete_one (S : Schema α) (mark : α → time.Time → α) (c : α → Bool)
    (now : time.Time) (rows : List α) :
    Delete S mark [c] now rows
      = .ok (rows.map (fun r => if (live S r && c r) = true then mark r now else r)) := by
  unfold Delete
  simp

/-- After a soft delete by a condition no live row satisfies the condition, if the
mark makes a row dead. -/
theorem filter_after_delete (S : Schema α) (mark : α → time.Time → α) (c : α → Bool)
    (now : time.Time) (hmark : ∀ r, live S (mark r now) = false) :
    ∀ (rows : List α),
      (rows.map (fun r => if (live S r && c r) = true then mark r now else r)).filter
        (fun r => live S r && c r) = []
  | [] => rfl
  | r :: rs => by
    have ih := filter_after_delete S mark c now hmark rs
    by_cases hc : (live S r && c r) = true
    · simp only [List.map_cons, hc, if_true, List.filter_cons, hmark, Bool.false_and,
        Bool.false_eq_true, if_false, ih]
    · have hc1 : (live S r && c r) = false := by simpa using hc
      simp only [List.map_cons, hc, if_false, List.filter_cons, hc1, Bool.false_eq_true, ih]

end gorm

/-! ## Lemmas: revocation -/

namespace gorm

variable {α : Type}

/-- A rewrite that touches only rows outside a selection leaves the selection as it
was. -/
theorem filter_map_frame (f : α → α) (p : α → Bool) :
    ∀ (rows : List α), (∀ r ∈ rows, p (f r) = p r ∧ (p r = true → f r = r)) →
      (rows.map f).filter p = rows.filter p
  | [], _ => rfl
  | r :: rs, h => by
    have ih := filter_map_frame f p rs (fun x hx => h x (List.mem_cons_of_mem _ hx))
    obtain ⟨h1, h2⟩ := h r (List.mem_cons_self _ _)
    by_cases hp : p r = true
    · simp only [List.map_cons, List.filter_cons, h1, hp, if_true, ih, h2 hp]
    · have hp1 : p r = false := by simpa using hp
      simp only [List.map_cons, List.filter_cons, h1, hp1, Bool.false_eq_true, if_false, ih]

/-- After the row of a key was replaced, the rows of that key are the new row
alone. -/
theorem filter_map_replace (idf : α → String) (key : String) (x1 : α) (hx : idf x1 = key) :
    ∀ (rows : List α), (rows.map idf).Nodup → key ∈ rows.map idf →
      (rows.map (fun r => if idf r == key then x1 else r)).filter (fun r => idf r == key)
        = [x1]
  | [], _, h => by simp at h
  | r :: rs, hnd, hmem => by
    rw [List.map_cons, List.nodup_cons] at hnd
    by_cases hr : idf r = key
    · have hnot : key ∉ rs.map idf := hr ▸ hnd.1
      have hrest : rs.filter (fun r => idf r == key) = [] := by
        apply filter_eq_nil_of
        intro y hy
        by_contra hc
        have hc1 : idf y = key := by simpa using hc
        exact hnot (hc1 ▸ List.mem_map_of_mem idf hy)
      simp only [List.map_cons, hr, beq_self_eq_true, if_true, List.filter_cons, hx,
        map_replace_of_not_mem idf key x1 rs hnot, hrest]
    · have hr1 : (idf r == key) = false := by simpa using hr
      have hmem1 : key ∈ rs.map idf := by
        simp only [List.map_cons, List.mem_cons] at hmem
        rcases hmem with h | h
        · exact absurd h.symm hr
        · exact h
      simp only [List.map_cons, hr1, Bool.false_eq_true, if_false, List.filter_cons,
        filter_map_replace idf key x1 hx rs hnd.2 hmem1]

end gorm

namespace store

theorem AccessToken.scan_inactive_access (r : AccessToken) :
    AccessToken.schema.scan { AccessToken.schema.scan r with Active := false }
      = { AccessToken.schema.scan r with Active := false } := by
  simp only [AccessToken.schema, StringArray.stored_stored, JSON_scan_scan]

/-- A successful RevokeAccessToken(requestID), when a live row has that id, rewrites
the live rows of that id as one found row with Active = false, and nothing else. -/
theorem Store.RevokeAccessToken_map (m m1 : Store) (requestID : String) (a : AccessToken)
    (ha : a ∈ m.access_tokens) (haid : a.ID = requestID) (halive : a.DeletedAt = none)
    (h : m.RevokeAccessToken requestID = (m1, none)) :
    ∃ x0 ∈ m.access_tokens, x0.ID = requestID ∧ x0.DeletedAt = none ∧
      gorm.orderFirst AccessToken.schema (m.access_tokens.filter
        (fun r => gorm.live AccessToken.schema r &&
          [gorm.whereEq (fun r : AccessToken => r.ID) requestID].all (fun c => c r))) = some x0 ∧
      m1 = { m with access_tokens := m.access_tokens.map (fun r =>
        if (r.ID == x0.ID && gorm.live AccessToken.schema r) = true
        then { AccessToken.schema.scan x0 with Active := false } else r) } := by
  unfold Store.RevokeAccessToken at h
  split at h
  · simp at h
  rename_i res hfirst
  obtain ⟨x0, hord, hres, hmem, hlive, hcond⟩ := gorm.First_ok _ _ _ _ hfirst
  subst hres
  simp only at h
  split at h
  · simp at h
  rename_i rows2 hsave
  simp only [Prod.mk.injEq, and_true] at h
  obtain ⟨hne, hrows2⟩ := gorm.Save_ok AccessToken.schema
    { AccessToken.schema.scan x0 with Active := false } _ _ x0 hmem rfl hlive hsave
  have hx0id : x0.ID = requestID := by
    by_cases hid : requestID = ""
    · exfalso
      obtain ⟨y, hy, hyid⟩ := gorm.orderFirst_empty_id AccessToken.schema
        (m.access_tokens.filter
          (fun r => gorm.live AccessToken.schema r &&
            [gorm.whereEq (fun r : AccessToken => r.ID) requestID].all (fun c => c r)))
        ⟨a, by
          rw [List.mem_filter]
          exact ⟨ha, by simp [gorm.live, AccessToken.schema, gorm.whereEq, haid, halive]⟩,
          haid.trans hid⟩
      rw [hord] at hy
      simp only [Option.some.injEq] at hy
      subst hy
      exact hne hyid
    · simpa [gorm.whereEq, hid] using hcond
  refine ⟨x0, hmem, hx0id, ?_, hord, ?_⟩
  · simpa [gorm.live, AccessToken.schema] using hlive
  · rw [← h, hrows2]
    rfl

/-- The same for RevokeRefreshToken. -/
theorem Store.RevokeRefreshToken_map (m m1 : Store) (requestID : String) (a : RefreshToken)
    (ha : a ∈ m.refresh_tokens) (haid : a.ID = requestID) (halive : a.DeletedAt = none)
    (h : m.RevokeRefreshToken requestID = (m1, none)) :
    ∃ x0 ∈ m.refresh_tokens, x0.ID = requestID ∧ x0.DeletedAt = none ∧
      gorm.orderFirst RefreshToken.schema (m.refresh_tokens.filter
        (fun r => gorm.live RefreshToken.schema r &&
          [gorm.whereEq (fun r : RefreshToken => r.ID) requestID].all (fun c => c r))) = some x0 ∧
      m1 = { m with refresh_tokens := m.refresh_tokens.map (fun r =>
        if (r.ID == x0.ID && gorm.live RefreshToken.schema r) = true
        then { RefreshToken.schema.scan x0 with Active := false } else r) } := by
  unfold Store.RevokeRefreshToken at h
  split at h
  · simp at h
  rename_i res hfirst
  obtain ⟨x0, hord, hres, hmem, hlive, hcond⟩ := gorm.First_ok _ _ _ _ hfirst
  subst hres
  simp only at h
  split at h
  · simp at h
  rename_i rows2 hsave
  simp only [Prod.mk.injEq, and_true] at h
  obtain ⟨hne, hrows2⟩ := gorm.Save_ok RefreshToken.schema
    { RefreshToken.schema.scan x0 with Active := false } _ _ x0 hmem rfl hlive hsave
  have hx0id : x0.ID = requestID := by
    by_cases hid : requestID = ""
    · exfalso
      obtain ⟨y, hy, hyid⟩ := gorm.orderFirst_empty_id RefreshToken.schema
        (m.refresh_tokens.filter
          (fun r => gorm.live RefreshToken.schema r &&
            [gorm.whereEq (fun r : RefreshToken => r.ID) requestID].all (fun c => c r)))
        ⟨a, by
          rw [List.mem_filter]
          exact ⟨ha, by simp [gorm.live, RefreshToken.schema, gorm.whereEq, haid, halive]⟩,
          haid.trans hid⟩
      rw [hord] at hy
      simp only [Option.some.injEq] at hy
      subst hy
      exact hne hyid
    · simpa [gorm.whereEq, hid] using hcond
  refine ⟨x0, hmem, hx0id, ?_, hord, ?_⟩
  · simpa [gorm.live, RefreshToken.schema] using hlive
  · rw [← h, hrows2]
    rfl

end store

namespace gorm

variable {α : Type}

/-- The effect of rewriting the live row of a key k as a row x of the same key on
which a flag is off: x is in the table, every row of that key has the flag off, and
the rows of other keys are as before. -/
theorem rewrite_frame (S : Schema α) (flag : α → Bool) (rows : List α) (x0 x : α) (k : String)
    (hnd : (rows.map S.id).Nodup) (hx0 : x0 ∈ rows) (hlive : live S x0 = true)
    (hk : S.id x0 = k) (hid : S.id x = k) (hflag : flag x = false) :
    x ∈ rows.map (fun r => if (S.id r == S.id x0 && live S r) = true then x else r) ∧
    (∀ row ∈ rows.map (fun r => if (S.id r == S.id x0 && live S r) = true then x else r),
      S.id row = k → flag row = false) ∧
    (rows.map (fun r => if (S.id r == S.id x0 && live S r) = true then x else r)).filter
        (fun row => S.id row != k)
      = rows.filter (fun row => S.id row != k) := by
  subst hk
  refine ⟨?_, ?_, ?_⟩
  · rw [List.mem_map]
    exact ⟨x0, hx0, by simp [hlive]⟩
  · intro row hrow hrid
    obtain ⟨y, hy, hyrow⟩ := List.mem_map.mp hrow
    by_cases hc : (S.id y == S.id x0 && live S y) = true
    · rw [if_pos hc] at hyrow
      rw [← hyrow]
      exact hflag
    · rw [if_neg hc] at hyrow
      subst hyrow
      exfalso
      have := eq_of_id_eq S.id rows hnd y hy x0 hx0 hrid
      subst this
      simp [hlive] at hc
  · apply filter_map_frame
    intro y _
    by_cases hc : (S.id y == S.id x0 && live S y) = true
    · have hyid : S.id y = S.id x0 := by
        simp only [Bool.and_eq_true, beq_iff_eq] at hc
        exact hc.1
      rw [if_pos hc]
      simp [hid, hyid]
    · rw [if_neg hc]
      simp

end gorm

/-! ## Lemmas: an upsert on a key that is taken -/

namespace gorm

variable {α : Type}

/-- An upsert on the primary key that succeeds when the key is taken replaces the
row of that key and leaves the other rows. -/
theorem Upsert_id_replace (S : Schema α) (hset : ∀ y, S.setID y (S.id y) = y) (x : α)
    (rows rows1 : List α) (hmem : S.id x ∈ rows.map S.id)
    (h : Upsert S S.id x rows = .ok rows1) :
    rows1 = rows.map (fun r => if S.id r == S.id x then x else r) := by
  unfold Upsert at h
  cases hf : rows.find? (fun r => S.id r == S.id x) with
  | none =>
    exfalso
    rw [List.find?_eq_none] at hf
    obtain ⟨r, hr, hrid⟩ := List.mem_map.mp hmem
    exact hf r hr (by simp [hrid])
  | some old =>
    rw [hf] at h
    simp only at h
    have hold : S.id old = S.id x := by
      have := List.find?_some hf
      simpa using this
    unfold updateAll at h
    rw [hold, hset] at h
    cases hu : S.unique.find?
        (fun u => rows.any (fun r => S.id r != S.id x && u.2 r == u.2 x)) with
    | some v =>
      rw [hu] at h
      exact absurd h (by simp)
    | none =>
      rw [hu] at h
      simp only [Except.ok.injEq] at h
      exact h.symm

/-- After the row old was replaced by a row x of the same key and another value in
a unique column, no row matches a condition that fixes that column at the value of
old. -/
theorem filter_replaced_old (S : Schema α) (col : α → String) (p : α → Bool) (rows : List α)
    (x old : α) (hnd : (rows.map col).Nodup) (hold : old ∈ rows) (hid : S.id old = S.id x)
    (hne : col old ≠ col x) (hp : ∀ r, p r = true → col r = col old) :
    (rows.map (fun r => if S.id r == S.id x then x else r)).filter p = [] := by
  apply filter_eq_nil_of
  intro r hr
  obtain ⟨y, hy, hyr⟩ := List.mem_map.mp hr
  by_contra hc
  have hpr : p r = true := by simpa using hc
  by_cases hyid : S.id y = S.id x
  · rw [if_pos (by simp [hyid])] at hyr
    subst hyr
    exact hne (hp _ hpr).symm
  · rw [if_neg (by simp [hyid])] at hyr
    subst hyr
    have := eq_of_id_eq col rows hnd y hy old hold (hp _ hpr)
    subst this
    exact hyid hid

end gorm

/-! ## Lemmas: creating a token of a request id that is taken -/

namespace store

/-- Creating the access token of a request id that a row old already has, under a
signature that no row of another id carries, succeeds; the rows of that id are then
one row, live, active, with the new signature and the request data; and when the
signature of old was another one and not empty, GetAccessTokenSession for it reports
ErrNotFound. -/
theorem Store.CreateAccessTokenSession_overwrite (m : Store) (signature : String)
    (request : fosite.Request) (old : AccessToken) (hwf : m.WF)
    (hold : old ∈ m.access_tokens) (hid : old.ID = request.ID)
    (hfree : ∀ r ∈ m.access_tokens, r.Signature = signature → r.ID = request.ID) :
    ∃ m1, m.CreateAccessTokenSession signature request = (m1, none) ∧
      (∃ row, m1.access_tokens.filter (fun r => r.ID == request.ID) = [row] ∧
        row.DeletedAt = none ∧ row.Active = true ∧ row.Signature = signature ∧
        row.ID = request.ID ∧ row.RequestedAt = request.RequestedAt ∧
        row.ClientID = request.Client.ID ∧ row.SessionID = request.Session.ID ∧
        row.RequestedScopes = request.RequestedScope ∧
        row.GrantedScopes = request.GrantedScope ∧
        row.RequestedAudience = request.RequestedAudience ∧
        row.GrantedAudience = request.GrantedAudience ∧
        row.Form = .doc request.Form) ∧
      (old.Signature ≠ signature → old.Signature ≠ "" →
        ∃ e, m1.GetAccessTokenSession old.Signature = (none, some e) ∧
          errors.Is e .ErrNotFound = true) := by
  obtain ⟨m0, _, hm0, hck⟩ := Store.CreateAccessTokenSession_eq m signature request
  rw [hck]
  set data : AccessToken :=
    { ID := request.ID, Active := true, Signature := signature,
      RequestedAt := request.RequestedAt, ClientID := request.Client.ID,
      RequestedScopes := request.RequestedScope, GrantedScopes := request.GrantedScope,
      Form := .doc request.Form, SessionID := request.Session.ID,
      RequestedAudience := request.RequestedAudience,
      GrantedAudience := request.GrantedAudience } with hdef
  have hvalid : AccessToken.schema.Valid m.access_tokens := hwf.1
  obtain ⟨rows1, hup⟩ := gorm.Upsert_id_ok_of AccessToken.schema data m.access_tokens (by
    intro r hr u hu huval
    simp only [AccessToken.schema, List.mem_singleton] at hu
    subst hu
    exact hfree r hr huval)
  have hkey : AccessToken.schema.id data ∈ m.access_tokens.map AccessToken.schema.id :=
    List.mem_map.mpr ⟨old, hold, hid⟩
  have hrows1 := gorm.Upsert_id_replace AccessToken.schema (fun _ => rfl) data m.access_tokens
    rows1 hkey hup
  rw [hup]
  refine ⟨_, rfl, ⟨data, ?_, rfl, rfl, rfl, rfl, rfl, rfl, rfl, rfl, rfl, rfl, rfl, rfl⟩, ?_⟩
  · rw [hrows1]
    exact gorm.filter_map_replace AccessToken.schema.id request.ID data rfl m.access_tokens
      hvalid.1 hkey
  · intro hne hnonempty
    refine ⟨.Errorf2 "%w: %w" .ErrNotFound .ErrRecordNotFound, ?_, by simp [errors.Is]⟩
    have hsignd : (m.access_tokens.map (fun r : AccessToken => r.Signature)).Nodup :=
      hvalid.2 ("signature", fun r => r.Signature) (by simp [AccessToken.schema])
    have hnone := gorm.filter_replaced_old AccessToken.schema (fun r : AccessToken => r.Signature)
      (fun r => gorm.live AccessToken.schema r &&
        [gorm.whereEq (fun r : AccessToken => r.Signature) old.Signature].all (fun c => c r))
      m.access_tokens data old hsignd hold hid hne (by
        intro r hp
        simp only [gorm.whereEq, List.all_cons, List.all_nil, Bool.and_true, Bool.and_eq_true,
          Bool.or_eq_true, beq_iff_eq, hnonempty, false_or] at hp
        exact hp.2)
    unfold Store.GetAccessTokenSession gorm.First
    simp only [← hrows1] at hnone
    simp only [hnone]
    rfl

/-- Creating the refresh token of a request id that a row old already has, under a
signature that no row of another id carries, succeeds; the rows of that id are then
one row, live, active, with the new signature and the request data; and when the
signature of old was another one and not empty, GetRefreshTokenSession for it reports
ErrNotFound. -/
theorem Store.CreateRefreshTokenSession_overwrite (m : Store) (signature : String)
    (request : fosite.Request) (old : RefreshToken) (hwf : m.WF)
    (hold : old ∈ m.refresh_tokens) (hid : old.ID = request.ID)
    (hfree : ∀ r ∈ m.refresh_tokens, r.Signature = signature → r.ID = request.ID) :
    ∃ m1, m.CreateRefreshTokenSession signature request = (m1, none) ∧
      (∃ row, m1.refresh_tokens.filter (fun r => r.ID == request.ID) = [row] ∧
        row.DeletedAt = none ∧ row.Active = true ∧ row.Signature = signature ∧
        row.ID = request.ID ∧ row.RequestedAt = request.RequestedAt ∧
        row.ClientID = request.Client.ID ∧ row.SessionID = request.Session.ID ∧
        row.RequestedScopes = request.RequestedScope ∧
        row.GrantedScopes = request.GrantedScope ∧
        row.RequestedAudience = request.RequestedAudience ∧
        row.GrantedAudience = request.GrantedAudience ∧
        row.Form = .doc request.Form) ∧
      (old.Signature ≠ signature → old.Signature ≠ "" →
        ∃ e, m1.GetRefreshTokenSession old.Signature = (none, some e) ∧
          errors.Is e .ErrNotFound = true) := by
  obtain ⟨m0, _, hm0, hck⟩ := Store.CreateRefreshTokenSession_eq m signature request
  rw [hck]
  set data : RefreshToken :=
    { ID := request.ID, Active := true, Signature := signature,
      RequestedAt := request.RequestedAt, ClientID := request.Client.ID,
      RequestedScopes := request.RequestedScope, GrantedScopes := request.GrantedScope,
      Form := .doc request.Form, SessionID := request.Session.ID,
      RequestedAudience := request.RequestedAudience,
      GrantedAudience := request.GrantedAudience } with hdef
  have hvalid : RefreshToken.schema.Valid m.refresh_tokens := hwf.2.2.2.2.2.2.1
  obtain ⟨rows1, hup⟩ := gorm.Upsert_id_ok_of RefreshToken.schema data m.refresh_tokens (by
    intro r hr u hu huval
    simp only [RefreshToken.schema, List.mem_singleton] at hu
    subst hu
    exact hfree r hr huval)
  have hkey : RefreshToken.schema.id data ∈ m.refresh_tokens.map RefreshToken.schema.id :=
    List.mem_map.mpr ⟨old, hold, hid⟩
  have hrows1 := gorm.Upsert_id_replace RefreshToken.schema (fun _ => rfl) data m.refresh_tokens
    rows1 hkey hup
  rw [hup]
  refine ⟨_, rfl, ⟨data, ?_, rfl, rfl, rfl, rfl, rfl, rfl, rfl, rfl, rfl, rfl, rfl, rfl⟩, ?_⟩
  · rw [hrows1]
    exact gorm.filter_map_replace RefreshToken.schema.id request.ID data rfl m.refresh_tokens
      hvalid.1 hkey
  · intro hne hnonempty
    refine ⟨.Errorf2 "%w: %w" .ErrNotFound .ErrRecordNotFound, ?_, by simp [errors.Is]⟩
    have hsignd : (m.refresh_tokens.map (fun r : RefreshToken => r.Signature)).Nodup :=
      hvalid.2 ("signature", fun r => r.Signature) (by simp [RefreshToken.schema])
    have hnone := gorm.filter_replaced_old RefreshToken.schema (fun r : RefreshToken => r.Signature)
      (fun r => gorm.live RefreshToken.schema r &&
        [gorm.whereEq (fun r : RefreshToken => r.Signature) old.Signature].all (fun c => c r))
      m.refresh_tokens data old hsignd hold hid hne (by
        intro r hp
        simp only [gorm.whereEq, List.all_cons, List.all_nil, Bool.and_true, Bool.and_eq_true,
          Bool.or_eq_true, beq_iff_eq, hnonempty, false_or] at hp
        exact hp.2)
    unfold Store.GetRefreshTokenSession gorm.First
    simp only [← hrows1] at hnone
    simp only [hnone]
    rfl

end store

/-! ## C1 -/

namespace store

/-- C1 fails as stated.  (1) A requested audience that holds a semicolon comes back
split in two, although the create succeeded and the lookup reports no error.
(2) The code is not a unique column: after a second request was stored under a code
that an invalidated row already carries, the lookup still returns the first row,
with ErrInvalidatedAuthorizeCode and the scopes of the first request.  (3) The
empty code is no condition at all: the lookup returns the row with the least id. -/
theorem C1_counterexample :
    (∃ s1 rq, seeded.CreateAuthorizeCodeSession "code-2" semicolonRequest = (s1, none) ∧
      s1.GetAuthorizeCodeSession "code-2" = (some rq, none) ∧
      semicolonRequest.RequestedAudience = ["https://api.example/v1;v2"] ∧
      rq.RequestedAudience = ["https://api.example/v1", "v2"]) ∧
    (∃ rq, withCodeInvalidated.CreateAuthorizeCodeSession "code-1" otherRequest
        = (withCodeTwice, none) ∧
      withCodeTwice.GetAuthorizeCodeSession "code-1"
        = (some rq, some .ErrInvalidatedAuthorizeCode) ∧
      otherRequest.RequestedScope = ["offline"] ∧
      rq.RequestedScope = ["fosite", "photos"]) ∧
    (∃ s1 rq, withCode.CreateAuthorizeCodeSession "" otherRequest = (s1, none) ∧
      s1.GetAuthorizeCodeSession "" = (some rq, none) ∧
      otherRequest.RequestedScope = ["offline"] ∧
      rq.RequestedScope = ["fosite", "photos"]) := by
  refine ⟨⟨_, _, rfl, rfl, rfl, rfl⟩, ⟨_, rfl, rfl, rfl, rfl⟩, ⟨_, _, rfl, rfl, rfl, rfl⟩⟩

/-- C1, amended: in a store where no live authorization-code row carries the code
yet, for a non-empty code and a request whose four scope and audience lists are
non-empty and free of semicolons, a successful CreateAuthorizeCodeSession(code,
request) is followed by a GetAuthorizeCodeSession(code) that returns no error and
a request with the id, requested scopes, granted scopes, requested audience,
granted audience and form of the request that was stored. -/
theorem C1_create_then_get (s0 s1 : Store) (code : String) (request : fosite.Request)
    (hcode : code ≠ "")
    (hfresh : ∀ r ∈ s0.authorization_codes, r.DeletedAt = none → r.Code ≠ code)
    (hrs : Storable request.RequestedScope) (hgs : Storable request.GrantedScope)
    (hra : Storable request.RequestedAudience) (hga : Storable request.GrantedAudience)
    (hcreate : s0.CreateAuthorizeCodeSession code request = (s1, none)) :
    ∃ rq, s1.GetAuthorizeCodeSession code = (some rq, none) ∧
      rq.ID = request.ID ∧
      rq.RequestedScope = request.RequestedScope ∧
      rq.GrantedScope = request.GrantedScope ∧
      rq.RequestedAudience = request.RequestedAudience ∧
      rq.GrantedAudience = request.GrantedAudience ∧
      rq.Form = request.Form := by
  obtain ⟨m1, _, _, hs1⟩ := Store.CreateAuthorizeCodeSession_ok s0 s1 code request hcreate
  have hold : s0.authorization_codes.filter
      (fun r => gorm.live AuthorizationCode.schema r &&
        [gorm.whereEq (fun r : AuthorizationCode => r.Code) code].all (fun c => c r)) = [] := by
    apply gorm.filter_eq_nil_of
    intro r hr
    cases hd : r.DeletedAt with
    | some t => simp [gorm.live, AuthorizationCode.schema, hd]
    | none =>
      have := hfresh r hr hd
      simp [gorm.whereEq, hcode, this]
  have hfirst : gorm.First AuthorizationCode.schema
      [gorm.whereEq (fun r : AuthorizationCode => r.Code) code] s1.authorization_codes
      = .ok (AuthorizationCode.schema.scan
        { ID := request.ID, Active := true, Code := code, RequestedAt := request.RequestedAt,
          ClientID := request.Client.ID, RequestedScopes := request.RequestedScope,
          GrantedScopes := request.GrantedScope, Form := .doc request.Form,
          SessionID := request.Session.ID, RequestedAudience := request.RequestedAudience,
          GrantedAudience := request.GrantedAudience }) := by
    apply gorm.First_of_orderFirst
    rw [hs1]
    simp only [List.filter_append, hold, List.nil_append]
    simp [List.filter_cons, gorm.live, AuthorizationCode.schema, gorm.whereEq, gorm.orderFirst]
  unfold Store.GetAuthorizeCodeSession
  rw [hfirst]
  simp only [AuthorizationCode.schema, datatypes.JSON.scan, json.Unmarshal,
    StringArray.stored_eq_self _ hrs.1 hrs.2, StringArray.stored_eq_self _ hgs.1 hgs.2,
    StringArray.stored_eq_self _ hra.1 hra.2, StringArray.stored_eq_self _ hga.1 hga.2]
  exact ⟨_, rfl, rfl, rfl, rfl, rfl, rfl, rfl⟩

/-- C1, amended, at the seeded store with exampleRequest and the code code-1. -/
theorem C1_witness :
    ("code-1" ≠ "") ∧
    (∀ r ∈ seeded.authorization_codes, r.DeletedAt = none → r.Code ≠ "code-1") ∧
    Storable exampleRequest.RequestedScope ∧ Storable exampleRequest.GrantedScope ∧
    Storable exampleRequest.RequestedAudience ∧ Storable exampleRequest.GrantedAudience ∧
    seeded.CreateAuthorizeCodeSession "code-1" exampleRequest = (withCode, none) ∧
    ∃ rq, withCode.GetAuthorizeCodeSession "code-1" = (some rq, none) ∧
      rq.ID = exampleRequest.ID ∧
      rq.RequestedScope = exampleRequest.RequestedScope ∧
      rq.GrantedScope = exampleRequest.GrantedScope ∧
      rq.RequestedAudience = exampleRequest.RequestedAudience ∧
      rq.GrantedAudience = exampleRequest.GrantedAudience ∧
      rq.Form = exampleRequest.Form :=
  ⟨by decide, by decide, by decide, by decide, by decide, by decide, by decide,
    C1_create_then_get seeded withCode "code-1" exampleRequest (by decide) (by decide)
      (by decide) (by decide) (by decide) (by decide) (by decide)⟩

end store

/-! ## C2 -/

namespace store

/-- C2: for a well-formed store s0, when CreateAuthorizeCodeSession(code, request)
succeeds (giving s1) and InvalidateAuthorizeCodeSession(code) then succeeds (giving
s2), GetAuthorizeCodeSession(code) returned a request rq in s1, and in s2 it
returns the very same rq (id, client, scopes, audiences, form, session) together
with the error ErrInvalidatedAuthorizeCode, which is not ErrNotFound.  A store is
well-formed when its tables satisfy their key constraints and its Form columns hold
JSON documents; every write keeps it so (Store.WF_kept). -/
theorem C2_invalidated_code_keeps_request (s0 s1 s2 : Store) (code : String)
    (request : fosite.Request) (hwf : s0.WF)
    (hcreate : s0.CreateAuthorizeCodeSession code request = (s1, none))
    (hinv : s1.InvalidateAuthorizeCodeSession code = (s2, none)) :
    ∃ rq, (s1.GetAuthorizeCodeSession code).1 = some rq ∧
      s2.GetAuthorizeCodeSession code = (some rq, some .ErrInvalidatedAuthorizeCode) ∧
      errors.Is .ErrInvalidatedAuthorizeCode .ErrNotFound = false := by
  obtain ⟨m1, _, hconf, hs1⟩ := Store.CreateAuthorizeCodeSession_ok s0 s1 code request hcreate
  have hrows1 : s1.authorization_codes = s0.authorization_codes ++
      [{ ID := request.ID, Active := true, Code := code, RequestedAt := request.RequestedAt,
         ClientID := request.Client.ID, RequestedScopes := request.RequestedScope,
         GrantedScopes := request.GrantedScope, Form := .doc request.Form,
         SessionID := request.Session.ID, RequestedAudience := request.RequestedAudience,
         GrantedAudience := request.GrantedAudience }] := by
    rw [hs1]
  have hnd : (s1.authorization_codes.map AuthorizationCode.schema.id).Nodup := by
    rw [hrows1, List.map_append, List.nodup_append]
    refine ⟨hwf.2.1.1, by simp, ?_⟩
    intro a ha hb
    simp only [List.map_cons, List.map_nil, List.mem_singleton] at hb
    subst hb
    exact gorm.conflict_none_id _ _ _ hconf ha
  have hdec : ∀ r ∈ s1.authorization_codes, Decodable r.Form = true := by
    intro r hr
    rw [hrows1, List.mem_append] at hr
    rcases hr with hr | hr
    · exact hwf.2.2.2.2.2.2.2.2.2.1 r hr
    · simp only [List.mem_singleton] at hr
      subst hr
      rfl
  obtain ⟨x0, hx0, hget1, hget2, _, hcl, _, hus, _, _, hse⟩ :=
    Store.InvalidateAuthorizeCodeSession_ok s1 s2 code hnd hinv
  obtain ⟨v, hv⟩ := Unmarshal_of_decodable x0.Form (hdec x0 hx0)
  have hform : (AuthorizationCode.schema.scan x0).Form = x0.Form.scan := rfl
  unfold Store.GetAuthorizeCodeSession
  rw [hget1, hget2]
  simp only [hform, hv, Store.preloadSession, Store.preloadClient, hcl, hus, hse]
  exact ⟨_, by split <;> rfl, rfl, rfl⟩

/-- C2 at the seeded store, for the code code-1 of exampleRequest. -/
theorem C2_witness :
    seeded.WF ∧
    seeded.CreateAuthorizeCodeSession "code-1" exampleRequest = (withCode, none) ∧
    withCode.InvalidateAuthorizeCodeSession "code-1" = (withCodeInvalidated, none) ∧
    ∃ rq, (withCode.GetAuthorizeCodeSession "code-1").1 = some rq ∧
      withCodeInvalidated.GetAuthorizeCodeSession "code-1"
        = (some rq, some .ErrInvalidatedAuthorizeCode) ∧
      errors.Is .ErrInvalidatedAuthorizeCode .ErrNotFound = false :=
  ⟨by decide, by decide, by decide,
    C2_invalidated_code_keeps_request seeded withCode withCodeInvalidated "code-1"
      exampleRequest (by decide) (by decide) (by decide)⟩

end store

/-! ## C3 -/

namespace store

/-- C3 fails as stated: CreatePKCERequestSession with a signature that a row already
carries returns the error of the failed insert, and the store afterwards is not the
store before the call: the session of the failed request was written to sessions
and stays there, while pkces is unchanged. -/
theorem C3_counterexample :
    withPKCE.CreatePKCERequestSession "sig-1" otherRequest
      = (withPKCEFailed,
          some (.Errorf "error creating PCKE: %w" (.UniqueConstraintFailed "pkces" "signature"))) ∧
    withPKCEFailed ≠ withPKCE ∧
    otherRequest.Session ∉ withPKCE.sessions ∧
    otherRequest.Session ∈ withPKCEFailed.sessions ∧
    withPKCEFailed.pkces = withPKCE.pkces := by
  decide

/-- C3, amended: a Create...Session call of any of the four token kinds that returns
an error has failed in its token-row insert, and the store afterwards is exactly
what the session write of that call made of the store before: the six tables other
than users and sessions are unchanged (no token row was added or changed), and a
session row with the id of the request's session is in sessions.  The two writes
are separate statements, not one transaction. -/
theorem C3_failed_create_keeps_session_write (m m1 : Store) (key : String)
    (request : fosite.Request) (e : Error)
    (h : m.CreateAuthorizeCodeSession key request = (m1, some e) ∨
      m.CreateAccessTokenSession key request = (m1, some e) ∨
      m.CreateRefreshTokenSession key request = (m1, some e) ∨
      m.CreatePKCERequestSession key request = (m1, some e)) :
    m.createSession request.Session = .ok m1 ∧
    m1.access_tokens = m.access_tokens ∧
    m1.authorization_codes = m.authorization_codes ∧
    m1.clients = m.clients ∧
    m1.client_jwts = m.client_jwts ∧
    m1.pkces = m.pkces ∧
    m1.refresh_tokens = m.refresh_tokens ∧
    (∃ row ∈ m1.sessions, row.ID = request.Session.ID) ∧
    (∃ format table column, e = .Errorf format (.UniqueConstraintFailed table column)) := by
  obtain ⟨m2, hm2, h1, h2, h3, h4, h5, h6⟩ := Store.createSession_ok m request.Session
  have hsess : ∃ row ∈ m2.sessions, row.ID = request.Session.ID := by
    unfold Store.createSession at hm2
    simp only at hm2
    split at hm2
    · exact absurd hm2 (by simp)
    · rename_i rows hup
      simp only [Except.ok.injEq] at hm2
      subst hm2
      have hmem := gorm.Upsert_id_mem Session.schema (fun _ => rfl) _ _ _ hup
      refine ⟨_, hmem, ?_⟩
      split <;> rfl
  have hkey : m1 = m2 ∧
      ∃ format table column, e = .Errorf format (.UniqueConstraintFailed table column) := by
    rcases h with h | h | h | h
    · unfold Store.CreateAuthorizeCodeSession at h
      simp only [json.Marshal, hm2] at h
      split at h
      · rename_i err hc
        simp only [Prod.mk.injEq, Option.some.injEq] at h
        obtain ⟨t, c, hec⟩ := gorm.Create_error _ _ _ _ hc
        exact ⟨h.1.symm, _, t, c, by rw [← h.2, hec]⟩
      · simp at h
    · unfold Store.CreateAccessTokenSession at h
      simp only [json.Marshal, hm2] at h
      split at h
      · rename_i err hc
        simp only [Prod.mk.injEq, Option.some.injEq] at h
        obtain ⟨t, c, hec⟩ := gorm.Upsert_error _ _ _ _ _ hc
        exact ⟨h.1.symm, _, t, c, by rw [← h.2, hec]⟩
      · simp at h
    · unfold Store.CreateRefreshTokenSession at h
      simp only [json.Marshal, hm2] at h
      split at h
      · rename_i err hc
        simp only [Prod.mk.injEq, Option.some.injEq] at h
        obtain ⟨t, c, hec⟩ := gorm.Upsert_error _ _ _ _ _ hc
        exact ⟨h.1.symm, _, t, c, by rw [← h.2, hec]⟩
      · simp at h
    · unfold Store.CreatePKCERequestSession at h
      simp only [json.Marshal, hm2] at h
      split at h
      · rename_i err hc
        simp only [Prod.mk.injEq, Option.some.injEq] at h
        obtain ⟨t, c, hec⟩ := gorm.Create_error _ _ _ _ hc
        exact ⟨h.1.symm, _, t, c, by rw [← h.2, hec]⟩
      · simp at h
  obtain ⟨rfl, herr⟩ := hkey
  exact ⟨hm2, h1, h2, h3, h4, h5, h6, hsess, herr⟩

/-- C3, amended, at the failed CreatePKCERequestSession of the counterexample. -/
theorem C3_witness :
    withPKCE.CreatePKCERequestSession "sig-1" otherRequest
      = (withPKCEFailed,
          some (.Errorf "error creating PCKE: %w" (.UniqueConstraintFailed "pkces" "signature"))) ∧
    withPKCE.createSession otherRequest.Session = .ok withPKCEFailed ∧
    withPKCEFailed.pkces = withPKCE.pkces ∧
    (∃ row ∈ withPKCEFailed.sessions, row.ID = otherRequest.Session.ID) :=
  have h := C3_failed_create_keeps_session_write withPKCE withPKCEFailed "sig-1" otherRequest
    (.Errorf "error creating PCKE: %w" (.UniqueConstraintFailed "pkces" "signature"))
    (Or.inr (Or.inr (Or.inr (by decide))))
  ⟨by decide, h.1, h.2.2.2.2.2.1, h.2.2.2.2.2.2.2.1⟩

end store

/-! ## C4, C5 and C6 -/

namespace store

/-- C4, what the code does: for a non-empty JTI without any record and an expiry
after the current time, SetClientAssertionJWT returns ErrJTIKnown and writes
nothing.  The lookup of an unexpired record fails, and the source returns
ErrJTIKnown when the lookup fails. -/
theorem C4_new_jti_is_rejected (m : Store) (now : time.Time) (uuid jti : String)
    (exp : time.Time) (hjti : jti ≠ "") (hnew : ∀ r ∈ m.client_jwts, r.JTI ≠ jti)
    (_hexp : now < exp) :
    m.SetClientAssertionJWT now uuid jti exp = (m, some .ErrJTIKnown) := by
  have hnone : m.client_jwts.filter
      (fun r => gorm.live ClientJWT.schema r &&
        [gorm.whereEq (fun r : ClientJWT => r.JTI) jti,
          fun r => decide (r.ExpiresAt > now)].all (fun c => c r)) = [] := by
    apply gorm.filter_eq_nil_of
    intro r hr
    have := hnew r hr
    simp [gorm.whereEq, hjti, this]
  unfold Store.SetClientAssertionJWT gorm.First
  rw [hnone]
  rfl

/-- C4 at the seeded store, whose replay table is empty: the first use of jti-1,
with expiry 100 at time 10, is rejected. -/
theorem C4_witness :
    ("jti-1" ≠ "") ∧ (∀ r ∈ seeded.client_jwts, r.JTI ≠ "jti-1") ∧ (10 < 100) ∧
    seeded.SetClientAssertionJWT 10 "jwt-1" "jti-1" 100 = (seeded, some .ErrJTIKnown) :=
  ⟨by decide, by decide, by decide,
    C4_new_jti_is_rejected seeded 10 "jwt-1" "jti-1" 100 (by decide) (by decide) (by decide)⟩

/-- What SetClientAssertionJWT would do on a table that holds a live record of the
JTI with an expiry after the current time: return nil and append a second record
for the same JTI (uuid is the fresh id of the new record).  No call of the store
produces such a table, see ReplayReachable.eq_nil. -/
theorem Store.SetClientAssertionJWT_of_unexpired (m : Store) (now : time.Time) (uuid jti : String)
    (exp : time.Time) (r0 : ClientJWT) (hr0 : r0 ∈ m.client_jwts) (hjti : r0.JTI = jti)
    (hlive : r0.DeletedAt = none) (hexp : now < r0.ExpiresAt)
    (hfresh : ∀ r ∈ m.client_jwts, r.ID ≠ uuid) :
    m.SetClientAssertionJWT now uuid jti exp
      = ({ m with client_jwts :=
            m.client_jwts ++ [{ ID := uuid, JTI := jti, ExpiresAt := exp }] }, none) := by
  have hsome : ∃ x, gorm.First ClientJWT.schema
      [gorm.whereEq (fun r : ClientJWT => r.JTI) jti, fun r => decide (r.ExpiresAt > now)]
      m.client_jwts = .ok x := by
    have hmem : r0 ∈ m.client_jwts.filter
        (fun r => gorm.live ClientJWT.schema r &&
          [gorm.whereEq (fun r : ClientJWT => r.JTI) jti,
            fun r => decide (r.ExpiresAt > now)].all (fun c => c r)) := by
      rw [List.mem_filter]
      refine ⟨hr0, ?_⟩
      simp [gorm.live, ClientJWT.schema, gorm.whereEq, hjti, hlive, hexp]
    obtain ⟨x, hx⟩ := gorm.orderFirst_isSome ClientJWT.schema _ (List.ne_nil_of_mem hmem)
    exact ⟨_, gorm.First_of_orderFirst _ _ _ x hx⟩
  obtain ⟨x, hx⟩ := hsome
  have hconf : gorm.conflict ClientJWT.schema
      { ID := uuid, JTI := jti, ExpiresAt := exp } m.client_jwts = none := by
    unfold gorm.conflict
    have hany : m.client_jwts.any
        (fun r => ClientJWT.schema.id r ==
          ClientJWT.schema.id { ID := uuid, JTI := jti, ExpiresAt := exp }) = false := by
      rw [List.any_eq_false]
      intro r hr
      simpa [ClientJWT.schema] using hfresh r hr
    rw [hany]
    rfl
  unfold Store.SetClientAssertionJWT
  rw [hx]
  simp only [gorm.Create, hconf]

/-- The replay table never gets a first record: SetClientAssertionJWT inserts only
after it has found an unexpired record. -/
theorem ReplayReachable.eq_nil (t : List ClientJWT) (h : ReplayReachable t) : t = [] := by
  induction h with
  | init => rfl
  | set m now uuid jti exp _ ih =>
    unfold Store.SetClientAssertionJWT gorm.First
    rw [ih]
    simp only [List.filter_nil, gorm.orderFirst]
    exact ih

/-- On a table whose records have pairwise distinct JTIs, ClientAssertionJWTValid
decides by the one live record of a non-empty JTI. -/
theorem Store.ClientAssertionJWTValid_unique (m : Store) (now : time.Time) (jti : String)
    (hjti : jti ≠ "") (hnd : (m.client_jwts.map (fun r => r.JTI)).Nodup)
    (r0 : ClientJWT) (hr0 : r0 ∈ m.client_jwts) (hr0j : r0.JTI = jti)
    (hlive : r0.DeletedAt = none) :
    m.ClientAssertionJWTValid now jti
      = if r0.ExpiresAt.After now then some .ErrJTIKnown else none := by
  have hfilter := gorm.filter_eq_singleton (fun r : ClientJWT => r.JTI)
    (fun r => gorm.live ClientJWT.schema r &&
      [gorm.whereEq (fun r : ClientJWT => r.JTI) jti].all (fun c => c r)) r0
    m.client_jwts hnd hr0
    (by simp [gorm.live, ClientJWT.schema, gorm.whereEq, hr0j, hlive])
    (by
      intro r _ hp
      simp only [gorm.whereEq, List.all_cons, List.all_nil, Bool.and_true, Bool.and_eq_true,
        Bool.or_eq_true, beq_iff_eq, hjti, false_or] at hp
      show r.JTI = r0.JTI
      rw [hp.2, hr0j])
  unfold Store.ClientAssertionJWTValid gorm.First
  rw [hfilter]
  rfl

/-- C6: on every reachable state of the replay table, at every time and for every
jti, ClientAssertionJWTValid returns ErrJTIKnown if the table holds a record of jti
that expires after the current time, and nil if it holds no record of jti or only
expired ones.  (A reachable table is empty, see ReplayReachable.eq_nil, so that the
first half holds for want of records.)  Both halves also hold, for a non-empty
jti, on every table of live records with pairwise distinct JTIs. -/
theorem C6_valid_reports_unexpired_jti (m : Store) (now : time.Time) (jti : String)
    (h : ReplayReachable m.client_jwts ∨
      (jti ≠ "" ∧ (m.client_jwts.map (fun r => r.JTI)).Nodup ∧
        ∀ r ∈ m.client_jwts, r.DeletedAt = none)) :
    ((∃ r ∈ m.client_jwts, r.JTI = jti ∧ now < r.ExpiresAt) →
      m.ClientAssertionJWTValid now jti = some .ErrJTIKnown) ∧
    ((∀ r ∈ m.client_jwts, r.JTI = jti → r.ExpiresAt ≤ now) →
      m.ClientAssertionJWTValid now jti = none) := by
  rcases h with h | ⟨hjti, hnd, hlive⟩
  · have hnil := ReplayReachable.eq_nil _ h
    constructor
    · rintro ⟨r, hr, _⟩
      rw [hnil] at hr
      simp at hr
    · intro _
      unfold Store.ClientAssertionJWTValid gorm.First
      rw [hnil]
      rfl
  · constructor
    · rintro ⟨r, hr, hrj, hexp⟩
      rw [Store.ClientAssertionJWTValid_unique m now jti hjti hnd r hr hrj (hlive r hr)]
      simp [time.Time.After, hexp]
    · intro hall
      unfold Store.ClientAssertionJWTValid
      split
      · rfl
      · rename_i res hfirst
        obtain ⟨x0, _, hres, hmem, _, hcond⟩ := gorm.First_ok _ _ _ _ hfirst
        have hx0 : x0.JTI = jti := by
          simpa [gorm.whereEq, hjti] using hcond
        have hle := hall x0 hmem hx0
        have hres1 : res.ExpiresAt = x0.ExpiresAt := by rw [hres]; rfl
        simp [time.Time.After, hres1, Nat.not_lt.mpr hle]

/-- C6 at the reachable (empty) replay table of the seeded store, and at a table
that holds jti-1 with expiry 100: jti-1 is known at time 10 and free at time 100. -/
theorem C6_witness :
    (ReplayReachable seeded.client_jwts ∧
      seeded.ClientAssertionJWTValid 10 "jti-1" = none) ∧
    ((∃ r ∈ withJTI.client_jwts, r.JTI = "jti-1" ∧ 10 < r.ExpiresAt) ∧
      withJTI.ClientAssertionJWTValid 10 "jti-1" = some .ErrJTIKnown) ∧
    ((∀ r ∈ withJTI.client_jwts, r.JTI = "jti-1" → r.ExpiresAt ≤ 100) ∧
      withJTI.ClientAssertionJWTValid 100 "jti-1" = none) :=
  ⟨⟨ReplayReachable.init,
      (C6_valid_reports_unexpired_jti seeded 10 "jti-1" (Or.inl ReplayReachable.init)).2
        (by decide)⟩,
    ⟨by decide,
      (C6_valid_reports_unexpired_jti withJTI 10 "jti-1"
        (Or.inr ⟨by decide, by decide, by decide⟩)).1 (by decide)⟩,
    ⟨by decide,
      (C6_valid_reports_unexpired_jti withJTI 100 "jti-1"
        (Or.inr ⟨by decide, by decide, by decide⟩)).2 (by decide)⟩⟩

end store

/-! ## C7 -/

namespace store

/-- C7 fails as stated: a row with the signature sig-a exists, and a further
CreateAccessTokenSession with that signature, under the request id of that row,
returns no error and rewrites the row (its granted scopes change).  The access
token and refresh token creates are upserts on the request id. -/
theorem C7_counterexample :
    (∃ r ∈ withAccess.access_tokens, r.Signature = "sig-a") ∧
    withAccess.CreateAccessTokenSession "sig-a" regrantedRequest = (withAccessTwice, none) ∧
    withAccessTwice.access_tokens ≠ withAccess.access_tokens ∧
    withAccess.access_tokens.map (fun r => r.GrantedScopes) = [["fosite"]] ∧
    withAccessTwice.access_tokens.map (fun r => r.GrantedScopes) = [["fosite", "photos"]] := by
  decide

/-- C7, amended: creation by signature is exclusive for PKCE requests, and for
access and refresh tokens whenever the existing row belongs to another request id.
If a row of pkces carries the signature, CreatePKCERequestSession returns the
unique-constraint error of pkces and leaves pkces as it was; if a row of
access_tokens (refresh_tokens) with another id than the request's carries the
signature, CreateAccessTokenSession (CreateRefreshTokenSession) returns the
unique-constraint error of its table and leaves the table as it was; if no row with
another id carries the signature, the call succeeds (a row with the id of the
request is overwritten).  Each of the three creates keeps the key constraints of
its table, so at most one row per signature exists after it if that was so
before. -/
theorem C7_signature_is_exclusive (m : Store) (signature : String)
    (request : fosite.Request) :
    ((∃ r ∈ m.pkces, r.Signature = signature) →
      (∃ column, (m.CreatePKCERequestSession signature request).2
        = some (.Errorf "error creating PCKE: %w" (.UniqueConstraintFailed "pkces" column))) ∧
      (m.CreatePKCERequestSession signature request).1.pkces = m.pkces) ∧
    ((∃ r ∈ m.access_tokens, r.Signature = signature ∧ r.ID ≠ request.ID) →
      (∃ column, (m.CreateAccessTokenSession signature request).2
        = some (.Errorf "error creating access token: %w"
            (.UniqueConstraintFailed "access_tokens" column))) ∧
      (m.CreateAccessTokenSession signature request).1.access_tokens = m.access_tokens) ∧
    ((∃ r ∈ m.refresh_tokens, r.Signature = signature ∧ r.ID ≠ request.ID) →
      (∃ column, (m.CreateRefreshTokenSession signature request).2
        = some (.Errorf "error creating refresh token: %w"
            (.UniqueConstraintFailed "refresh_tokens" column))) ∧
      (m.CreateRefreshTokenSession signature request).1.refresh_tokens = m.refresh_tokens) ∧
    ((∀ r ∈ m.access_tokens, r.Signature = signature → r.ID = request.ID) →
      (m.CreateAccessTokenSession signature request).2 = none) ∧
    ((∀ r ∈ m.refresh_tokens, r.Signature = signature → r.ID = request.ID) →
      (m.CreateRefreshTokenSession signature request).2 = none) ∧
    (PKCE.schema.Valid m.pkces →
      PKCE.schema.Valid (m.CreatePKCERequestSession signature request).1.pkces) ∧
    (AccessToken.schema.Valid m.access_tokens →
      AccessToken.schema.Valid (m.CreateAccessTokenSession signature request).1.access_tokens) ∧
    (RefreshToken.schema.Valid m.refresh_tokens →
      RefreshToken.schema.Valid
        (m.CreateRefreshTokenSession signature request).1.refresh_tokens) := by
  obtain ⟨p1, _, hp1, hpk⟩ := Store.CreatePKCERequestSession_eq m signature request
  obtain ⟨a1, _, ha1, hak⟩ := Store.CreateAccessTokenSession_eq m signature request
  obtain ⟨r1, _, hr1, hrk⟩ := Store.CreateRefreshTokenSession_eq m signature request
  refine ⟨?_, ?_, ?_, ?_, ?_, ?_, ?_, ?_⟩
  · rintro ⟨r, hr, hsig⟩
    obtain ⟨col, hc⟩ := gorm.Create_error_of_unique_mem PKCE.schema
      { ID := request.ID, Active := true, Signature := signature,
        RequestedAt := request.RequestedAt, ClientID := request.Client.ID,
        RequestedScopes := request.RequestedScope, GrantedScopes := request.GrantedScope,
        Form := .doc request.Form, SessionID := request.Session.ID,
        RequestedAudience := request.RequestedAudience,
        GrantedAudience := request.GrantedAudience } m.pkces
      ("signature", fun r => r.Signature) (by simp [PKCE.schema]) r hr hsig
    rw [hpk, hc]
    exact ⟨⟨col, rfl⟩, hp1⟩
  · rintro ⟨r, hr, hsig, hid⟩
    obtain ⟨col, hc⟩ := gorm.Upsert_error_of_unique_mem AccessToken.schema
      { ID := request.ID, Active := true, Signature := signature,
        RequestedAt := request.RequestedAt, ClientID := request.Client.ID,
        RequestedScopes := request.RequestedScope, GrantedScopes := request.GrantedScope,
        Form := .doc request.Form, SessionID := request.Session.ID,
        RequestedAudience := request.RequestedAudience,
        GrantedAudience := request.GrantedAudience } m.access_tokens
      ("signature", fun r => r.Signature) (by simp [AccessToken.schema]) r hr hsig hid
    rw [hak, hc]
    exact ⟨⟨col, rfl⟩, ha1⟩
  · rintro ⟨r, hr, hsig, hid⟩
    obtain ⟨col, hc⟩ := gorm.Upsert_error_of_unique_mem RefreshToken.schema
      { ID := request.ID, Active := true, Signature := signature,
        RequestedAt := request.RequestedAt, ClientID := request.Client.ID,
        RequestedScopes := request.RequestedScope, GrantedScopes := request.GrantedScope,
        Form := .doc request.Form, SessionID := request.Session.ID,
        RequestedAudience := request.RequestedAudience,
        GrantedAudience := request.GrantedAudience } m.refresh_tokens
      ("signature", fun r => r.Signature) (by simp [RefreshToken.schema]) r hr hsig hid
    rw [hrk, hc]
    exact ⟨⟨col, rfl⟩, hr1⟩
  · intro hall
    obtain ⟨rows1, hok⟩ := gorm.Upsert_id_ok_of AccessToken.schema
      { ID := request.ID, Active := true, Signature := signature,
        RequestedAt := request.RequestedAt, ClientID := request.Client.ID,
        RequestedScopes := request.RequestedScope, GrantedScopes := request.GrantedScope,
        Form := .doc request.Form, SessionID := request.Session.ID,
        RequestedAudience := request.RequestedAudience,
        GrantedAudience := request.GrantedAudience } m.access_tokens
      (by
        intro r hr u hu hru
        simp only [AccessToken.schema, List.mem_singleton] at hu
        subst hu
        exact hall r hr hru)
    rw [hak, hok]
  · intro hall
    obtain ⟨rows1, hok⟩ := gorm.Upsert_id_ok_of RefreshToken.schema
      { ID := request.ID, Active := true, Signature := signature,
        RequestedAt := request.RequestedAt, ClientID := request.Client.ID,
        RequestedScopes := request.RequestedScope, GrantedScopes := request.GrantedScope,
        Form := .doc request.Form, SessionID := request.Session.ID,
        RequestedAudience := request.RequestedAudience,
        GrantedAudience := request.GrantedAudience } m.refresh_tokens
      (by
        intro r hr u hu hru
        simp only [RefreshToken.schema, List.mem_singleton] at hu
        subst hu
        exact hall r hr hru)
    rw [hrk, hok]
  · intro hv
    rw [hpk]
    split
    · rw [hp1]; exact hv
    · rename_i rows hc
      exact gorm.Create_valid _ _ _ _ hv hc
  · intro hv
    rw [hak]
    split
    · rw [ha1]; exact hv
    · rename_i rows hc
      exact (gorm.Upsert_id_valid _ (fun _ => rfl) _ _ _ hv hc).1
  · intro hv
    rw [hrk]
    split
    · rw [hr1]; exact hv
    · rename_i rows hc
      exact (gorm.Upsert_id_valid _ (fun _ => rfl) _ _ _ hv hc).1

/-- C7, amended, at the store withPKCE (signature sig-1 taken by req-1) and at the
store withAccess (signature sig-a taken by req-1), for otherRequest (req-2). -/
theorem C7_witness :
    ((∃ r ∈ withPKCE.pkces, r.Signature = "sig-1") ∧
      (withPKCE.CreatePKCERequestSession "sig-1" otherRequest).2
        = some (.Errorf "error creating PCKE: %w" (.UniqueConstraintFailed "pkces" "signature")) ∧
      (withPKCE.CreatePKCERequestSession "sig-1" otherRequest).1.pkces = withPKCE.pkces) ∧
    ((∃ r ∈ withAccess.access_tokens, r.Signature = "sig-a" ∧ r.ID ≠ otherRequest.ID) ∧
      (withAccess.CreateAccessTokenSession "sig-a" otherRequest).1.access_tokens
        = withAccess.access_tokens) ∧
    (PKCE.schema.Valid withPKCE.pkces ∧
      PKCE.schema.Valid (withPKCE.CreatePKCERequestSession "sig-2" otherRequest).1.pkces) ∧
    ((∀ r ∈ withAccess.access_tokens, r.Signature = "sig-a" → r.ID = regrantedRequest.ID) ∧
      (withAccess.CreateAccessTokenSession "sig-a" regrantedRequest).2 = none) :=
  ⟨⟨by decide, by decide,
      ((C7_signature_is_exclusive withPKCE "sig-1" otherRequest).1 (by decide)).2⟩,
    ⟨by decide,
      ((C7_signature_is_exclusive withAccess "sig-a" otherRequest).2.1 (by decide)).2⟩,
    ⟨by decide,
      (C7_signature_is_exclusive withPKCE "sig-2" otherRequest).2.2.2.2.2.1 (by decide)⟩,
    ⟨by decide,
      (C7_signature_is_exclusive withAccess "sig-a" regrantedRequest).2.2.2.1 (by decide)⟩⟩

end store

/-! ## C8 and C9 -/

namespace store

/-- C8 fails as stated for the empty username: at the seeded store
Authenticate("", "12345678") returns nil, although no user has the empty username.
The struct condition on a zero Username is no condition, so the lookup returns the
first user. -/
theorem C8_counterexample :
    seeded.Authenticate "" "12345678" = none ∧
    ¬ ∃ u ∈ seeded.users, u.Username = "" ∧ u.Password = "12345678" := by
  decide

/-- C8, amended: for every store state, every non-empty username and every secret,
Authenticate returns nil only if a user row with that username and that credential
exists, and without such a row it returns an error that is ErrNotFound; every error
Authenticate returns, for the empty username too, is ErrNotFound, for an unknown
username and for a wrong credential alike.  On the store that NewStore seeds from
an empty database: (ovl_doe, 12345678) succeeds, (ovl_doe, wrong) is ErrNotFound,
(nobody, any secret) is ErrNotFound. -/
theorem C8_authenticate :
    (∀ (m : Store) (name secret : String), name ≠ "" →
      m.Authenticate name secret = none →
      ∃ u ∈ m.users, u.Username = name ∧ u.Password = secret) ∧
    (∀ (m : Store) (name secret : String), name ≠ "" →
      (¬ ∃ u ∈ m.users, u.Username = name ∧ u.Password = secret) →
      ∃ e, m.Authenticate name secret = some e ∧ errors.Is e .ErrNotFound = true) ∧
    (∀ (m : Store) (name secret : String) (e : Error),
      m.Authenticate name secret = some e → errors.Is e .ErrNotFound = true) ∧
    (∀ uuid : String, ∃ s, NewStore {} uuid = .ok s ∧
      s.Authenticate "ovl_doe" "12345678" = none ∧
      (∃ e, s.Authenticate "ovl_doe" "wrong" = some e ∧ errors.Is e .ErrNotFound = true) ∧
      (∀ secret, ∃ e, s.Authenticate "nobody" secret = some e ∧
        errors.Is e .ErrNotFound = true)) := by
  have hnil : ∀ (m : Store) (name secret : String), name ≠ "" →
      m.Authenticate name secret = none →
      ∃ u ∈ m.users, u.Username = name ∧ u.Password = secret := by
    intro m name secret hname h
    unfold Store.Authenticate at h
    split at h
    · simp at h
    · rename_i res hfirst
      obtain ⟨x0, _, hres, hmem, _, hcond⟩ := gorm.First_ok _ _ _ _ hfirst
      have hx0 : x0.Username = name := by
        simpa [gorm.whereEq, hname] using hcond
      have hres1 : res = x0 := hres
      subst hres1
      split at h
      · simp at h
      · rename_i hpw
        refine ⟨res, hmem, hx0, ?_⟩
        simpa using hpw
  have herr : ∀ (m : Store) (name secret : String) (e : Error),
      m.Authenticate name secret = some e → errors.Is e .ErrNotFound = true := by
    intro m name secret e h
    unfold Store.Authenticate at h
    split at h
    · simp only [Option.some.injEq] at h
      subst h
      simp [errors.Is]
    · split at h
      · simp only [Option.some.injEq] at h
        subst h
        simp [errors.Is]
      · simp at h
  refine ⟨hnil, ?_, herr, ?_⟩
  · intro m name secret hname hno
    cases h : m.Authenticate name secret with
    | none => exact absurd (hnil m name secret hname h) hno
    | some e => exact ⟨e, rfl, herr m name secret e h⟩
  · intro uuid
    refine ⟨{ clients := seedClients, users := seedUsers uuid }, rfl, ?_, ?_, ?_⟩
    · simp [Store.Authenticate, gorm.First, seedUsers, gorm.live, User.schema, gorm.whereEq,
        gorm.orderFirst]
    · refine ⟨.WithDebug .ErrNotFound "Invalid credentials", ?_, by simp [errors.Is]⟩
      simp [Store.Authenticate, gorm.First, seedUsers, gorm.live, User.schema, gorm.whereEq,
        gorm.orderFirst]
    · intro secret
      refine ⟨.Errorf2 "%w: %w" .ErrNotFound .ErrRecordNotFound, ?_, by simp [errors.Is]⟩
      simp [Store.Authenticate, gorm.First, seedUsers, gorm.live, User.schema, gorm.whereEq,
        gorm.orderFirst]

/-- C8, amended, at the seeded store: the user ovl_doe with its password, and a
wrong password. -/
theorem C8_witness :
    (("ovl_doe" ≠ "") ∧ seeded.Authenticate "ovl_doe" "12345678" = none ∧
      ∃ u ∈ seeded.users, u.Username = "ovl_doe" ∧ u.Password = "12345678") ∧
    (("ovl_doe" ≠ "") ∧
      (¬ ∃ u ∈ seeded.users, u.Username = "ovl_doe" ∧ u.Password = "wrong") ∧
      ∃ e, seeded.Authenticate "ovl_doe" "wrong" = some e ∧ errors.Is e .ErrNotFound = true) :=
  ⟨⟨by decide, by decide, C8_authenticate.1 seeded "ovl_doe" "12345678" (by decide) (by decide)⟩,
    ⟨by decide, by decide,
      C8_authenticate.2.1 seeded "ovl_doe" "wrong" (by decide) (by decide)⟩⟩

/-- C9, what the code does with the empty list, none of whose elements contains a
semicolon: Value encodes it as the empty string, and Scan decodes the empty string
to the list of one empty string, not to the empty list.  The list fosite, photos,
offline does come back as it was. -/
theorem C9_empty_list_does_not_round_trip :
    StringArray.Value [] = "" ∧
    StringArray.Scan [] (some (StringArray.Value [])) = [""] ∧
    StringArray.Scan [] (some (StringArray.Value [])) ≠ [] ∧
    StringArray.Scan [] (some (StringArray.Value ["fosite", "photos", "offline"]))
      = ["fosite", "photos", "offline"] := by
  decide

end store

/-! ## C10 -/

namespace store

/-- C10 fails as stated for the empty signature.  The store holds the refresh token
of req-1 under sig-r; a refresh token of req-2 is created under the empty
signature and then revoked by its request id.  GetRefreshTokenSession("") returns
the active token of req-1 before and after, with no error: the struct condition on
a zero Signature is no condition, so the lookup returns the row with the least id. -/
theorem C10_counterexample :
    withRefresh.CreateRefreshTokenSession "" otherRequest = (withEmptySignature, none) ∧
    withEmptySignature.RevokeRefreshToken "req-2" = (withEmptySignatureRevoked, none) ∧
    (withEmptySignatureRevoked.GetRefreshTokenSession "").2 = none ∧
    (withEmptySignatureRevoked.GetRefreshTokenSession "").1.map (fun rq => rq.ID)
      = some "req-1" ∧
    withEmptySignatureRevoked.refresh_tokens.map (fun r => (r.ID, r.Signature, r.Active))
      = [("req-1", "sig-r", true), ("req-2", "", false)] := by
  decide

/-- C10, amended: for a well-formed store s0 and a non-empty signature, when
CreateRefreshTokenSession(signature, request) succeeds (giving s1) and
RevokeRefreshToken(request id), or RevokeRefreshTokenMaybeGracePeriod(request id,
signature), then succeeds (giving s2), GetRefreshTokenSession(signature) returned a
request rq and no error in s1, and in s2 it returns the same rq together with
ErrInactiveToken.  RevokeRefreshTokenMaybeGracePeriod is RevokeRefreshToken: there
is no grace period. -/
theorem C10_revoked_refresh_token_keeps_request (s0 s1 s2 : Store) (signature : String)
    (request : fosite.Request) (hwf : s0.WF) (hsig : signature ≠ "")
    (hcreate : s0.CreateRefreshTokenSession signature request = (s1, none))
    (hrevoke : s1.RevokeRefreshToken request.ID = (s2, none) ∨
      s1.RevokeRefreshTokenMaybeGracePeriod request.ID signature = (s2, none)) :
    (∃ rq, s1.GetRefreshTokenSession signature = (some rq, none) ∧
      s2.GetRefreshTokenSession signature = (some rq, some .ErrInactiveToken)) ∧
    s1.RevokeRefreshTokenMaybeGracePeriod request.ID signature
      = s1.RevokeRefreshToken request.ID := by
  refine ⟨?_, rfl⟩
  have hrev : s1.RevokeRefreshToken request.ID = (s2, none) := by
    rcases hrevoke with h | h
    · exact h
    · exact h
  clear hrevoke
  -- the table after the create
  obtain ⟨m1, _, hm1, hck⟩ := Store.CreateRefreshTokenSession_eq s0 signature request
  rw [hck] at hcreate
  set data : RefreshToken :=
    { ID := request.ID, Active := true, Signature := signature,
      RequestedAt := request.RequestedAt, ClientID := request.Client.ID,
      RequestedScopes := request.RequestedScope, GrantedScopes := request.GrantedScope,
      Form := .doc request.Form, SessionID := request.Session.ID,
      RequestedAudience := request.RequestedAudience,
      GrantedAudience := request.GrantedAudience } with hdef
  have hdlive : gorm.live RefreshToken.schema data = true := rfl
  have hdsig : data.Signature = signature := rfl
  have hdid : data.ID = request.ID := rfl
  split at hcreate
  · simp at hcreate
  rename_i rows1 hup
  simp only [Prod.mk.injEq, and_true] at hcreate
  obtain ⟨hvalid, hdata⟩ := gorm.Upsert_id_valid RefreshToken.schema (fun _ => rfl) _ _ _
    hwf.2.2.2.2.2.2.1 hup
  have hrows1 : s1.refresh_tokens = rows1 := by rw [← hcreate]
  rw [← hrows1] at hvalid hdata
  have hsignd : (s1.refresh_tokens.map (fun r : RefreshToken => r.Signature)).Nodup :=
    hvalid.2 ("signature", fun r => r.Signature) (by simp [RefreshToken.schema])
  -- the lookup by signature finds the created row
  have hpdata : (gorm.live RefreshToken.schema data &&
      [gorm.whereEq (fun r : RefreshToken => r.Signature) signature].all (fun c => c data))
      = true := by
    simp [hdlive, gorm.whereEq, hdsig]
  have hbysig := gorm.filter_eq_singleton (fun r : RefreshToken => r.Signature)
    (fun r => gorm.live RefreshToken.schema r &&
      [gorm.whereEq (fun r : RefreshToken => r.Signature) signature].all (fun c => c r))
    data s1.refresh_tokens hsignd hdata hpdata
    (by
      intro r _ hp
      simp only [gorm.whereEq, List.all_cons, List.all_nil, Bool.and_true, Bool.and_eq_true,
        Bool.or_eq_true, beq_iff_eq, hsig, false_or] at hp
      exact hp.2.trans hdsig.symm)
  have hord1 : gorm.orderFirst RefreshToken.schema (s1.refresh_tokens.filter
      (fun r => gorm.live RefreshToken.schema r &&
        [gorm.whereEq (fun r : RefreshToken => r.Signature) signature].all (fun c => c r)))
      = some data := by
    rw [hbysig]
    rfl
  -- the revocation rewrites that row
  unfold Store.RevokeRefreshToken at hrev
  split at hrev
  · simp at hrev
  rename_i res hfirst
  obtain ⟨x0, hord, hres, hmem, hlive, hcond⟩ := gorm.First_ok _ _ _ _ hfirst
  subst hres
  simp only at hrev
  split at hrev
  · simp at hrev
  rename_i rows2 hsave
  simp only [Prod.mk.injEq, and_true] at hrev
  obtain ⟨hne, hrows2⟩ := gorm.Save_ok RefreshToken.schema
    { RefreshToken.schema.scan x0 with Active := false } _ _ x0 hmem rfl hlive hsave
  have hx0id : x0.ID = data.ID := by
    rw [hdid]
    by_cases hid : request.ID = ""
    · exfalso
      obtain ⟨m, hm, hmid⟩ := gorm.orderFirst_empty_id RefreshToken.schema
        (s1.refresh_tokens.filter
          (fun r => gorm.live RefreshToken.schema r &&
            [gorm.whereEq (fun r : RefreshToken => r.ID) request.ID].all (fun c => c r)))
        ⟨data, by
          rw [List.mem_filter]
          exact ⟨hdata, by simp [hdlive, gorm.whereEq, hdid]⟩, hdid.trans hid⟩
      rw [hord] at hm
      simp only [Option.some.injEq] at hm
      subst hm
      exact hne hmid
    · simpa [gorm.whereEq, hid] using hcond
  have hx0 : x0 = data := gorm.eq_of_id_eq RefreshToken.schema.id s1.refresh_tokens hvalid.1
    x0 hmem data hdata hx0id
  rw [hx0] at hrows2
  have hupd := gorm.orderFirst_update RefreshToken.schema
    (fun r => gorm.live RefreshToken.schema r &&
      [gorm.whereEq (fun r : RefreshToken => r.Signature) signature].all (fun c => c r))
    s1.refresh_tokens data { RefreshToken.schema.scan data with Active := false }
    hvalid.1 hord1 rfl hdlive hpdata
  rw [← hrows2] at hupd
  have hget1 := gorm.First_of_orderFirst _ _ _ _ hord1
  have hget2 := gorm.First_of_orderFirst _ _ _ _ hupd
  rw [RefreshToken.scan_inactive_token] at hget2
  unfold Store.GetRefreshTokenSession
  rw [← hrev]
  simp only [hget1, hget2]
  exact ⟨_, rfl, rfl⟩

/-- C10, amended, at the seeded store: the refresh token of req-1 under sig-r,
created and then revoked. -/
theorem C10_witness :
    seeded.WF ∧ ("sig-r" ≠ "") ∧
    seeded.CreateRefreshTokenSession "sig-r" exampleRequest = (withRefresh, none) ∧
    withRefresh.RevokeRefreshToken exampleRequest.ID = (withRefreshRevoked, none) ∧
    ∃ rq, withRefresh.GetRefreshTokenSession "sig-r" = (some rq, none) ∧
      withRefreshRevoked.GetRefreshTokenSession "sig-r" = (some rq, some .ErrInactiveToken) :=
  ⟨by decide, by decide, by decide, by decide,
    (C10_revoked_refresh_token_keeps_request seeded withRefresh withRefreshRevoked "sig-r"
      exampleRequest (by decide) (by decide) (by decide) (Or.inl (by decide))).1⟩

end store

/-! ## C11 -/

namespace store

/-- C11 fails in the code: for a well-formed store s0 and a non-empty signature,
when CreateAccessTokenSession(signature, request) succeeds (giving s1) and
RevokeAccessToken(request id) then succeeds (giving s2), the row of that id and
signature is in the table with Active = false, and yet GetAccessTokenSession(signature)
returns a request with the id of the revoked token and a nil error: it never looks
at Active, where GetRefreshTokenSession returns ErrInactiveToken. -/
theorem C11_revoked_access_token_is_still_returned (s0 s1 s2 : Store) (signature : String)
    (request : fosite.Request) (hwf : s0.WF) (hsig : signature ≠ "")
    (hcreate : s0.CreateAccessTokenSession signature request = (s1, none))
    (hrevoke : s1.RevokeAccessToken request.ID = (s2, none)) :
    (∃ row ∈ s2.access_tokens,
      row.ID = request.ID ∧ row.Signature = signature ∧ row.Active = false) ∧
    ∃ rq, s2.GetAccessTokenSession signature = (some rq, none) ∧ rq.ID = request.ID := by
  -- the table after the create
  obtain ⟨m1, _, hm1, hck⟩ := Store.CreateAccessTokenSession_eq s0 signature request
  rw [hck] at hcreate
  set data : AccessToken :=
    { ID := request.ID, Active := true, Signature := signature,
      RequestedAt := request.RequestedAt, ClientID := request.Client.ID,
      RequestedScopes := request.RequestedScope, GrantedScopes := request.GrantedScope,
      Form := .doc request.Form, SessionID := request.Session.ID,
      RequestedAudience := request.RequestedAudience,
      GrantedAudience := request.GrantedAudience } with hdef
  have hdlive : gorm.live AccessToken.schema data = true := rfl
  have hdsig : data.Signature = signature := rfl
  have hdid : data.ID = request.ID := rfl
  split at hcreate
  · simp at hcreate
  rename_i rows1 hup
  simp only [Prod.mk.injEq, and_true] at hcreate
  obtain ⟨hvalid, hdata⟩ := gorm.Upsert_id_valid AccessToken.schema (fun _ => rfl) _ _ _
    hwf.1 hup
  have hrows1 : s1.access_tokens = rows1 := by rw [← hcreate]
  rw [← hrows1] at hvalid hdata
  have hsignd : (s1.access_tokens.map (fun r : AccessToken => r.Signature)).Nodup :=
    hvalid.2 ("signature", fun r => r.Signature) (by simp [AccessToken.schema])
  -- the lookup by signature finds the created row
  have hpdata : (gorm.live AccessToken.schema data &&
      [gorm.whereEq (fun r : AccessToken => r.Signature) signature].all (fun c => c data))
      = true := by
    simp [hdlive, gorm.whereEq, hdsig]
  have hbysig := gorm.filter_eq_singleton (fun r : AccessToken => r.Signature)
    (fun r => gorm.live AccessToken.schema r &&
      [gorm.whereEq (fun r : AccessToken => r.Signature) signature].all (fun c => c r))
    data s1.access_tokens hsignd hdata hpdata
    (by
      intro r _ hp
      simp only [gorm.whereEq, List.all_cons, List.all_nil, Bool.and_true, Bool.and_eq_true,
        Bool.or_eq_true, beq_iff_eq, hsig, false_or] at hp
      exact hp.2.trans hdsig.symm)
  have hord1 : gorm.orderFirst AccessToken.schema (s1.access_tokens.filter
      (fun r => gorm.live AccessToken.schema r &&
        [gorm.whereEq (fun r : AccessToken => r.Signature) signature].all (fun c => c r)))
      = some data := by
    rw [hbysig]
    rfl
  -- the revocation rewrites that row
  obtain ⟨x0, hmem, hx0id, _, _, hs2⟩ :=
    Store.RevokeAccessToken_map s1 s2 request.ID data hdata hdid rfl hrevoke
  have hx0 : x0 = data := gorm.eq_of_id_eq AccessToken.schema.id s1.access_tokens hvalid.1
    x0 hmem data hdata (hx0id.trans hdid.symm)
  rw [hx0] at hs2
  have hframe := gorm.rewrite_frame AccessToken.schema (fun row => row.Active)
    s1.access_tokens data { AccessToken.schema.scan data with Active := false } request.ID
    hvalid.1 hdata hdlive hdid rfl rfl
  have hupd := gorm.orderFirst_update AccessToken.schema
    (fun r => gorm.live AccessToken.schema r &&
      [gorm.whereEq (fun r : AccessToken => r.Signature) signature].all (fun c => c r))
    s1.access_tokens data { AccessToken.schema.scan data with Active := false }
    hvalid.1 hord1 rfl hdlive hpdata
  have hget2 := gorm.First_of_orderFirst _ _ _ _ hupd
  rw [AccessToken.scan_inactive_access] at hget2
  refine ⟨⟨{ AccessToken.schema.scan data with Active := false }, ?_, rfl, rfl, rfl⟩, ?_⟩
  · rw [hs2]
    exact hframe.1
  · have hget : gorm.First AccessToken.schema
        [gorm.whereEq (fun r : AccessToken => r.Signature) signature] s2.access_tokens
        = .ok { AccessToken.schema.scan data with Active := false } := by
      rw [hs2]
      exact hget2
    unfold Store.GetAccessTokenSession
    simp only [hget]
    exact ⟨_, rfl, rfl⟩

/-- C11 at the seeded store: the access token of req-1 under sig-a, created and
then revoked, is still returned with a nil error. -/
theorem C11_witness :
    seeded.WF ∧ ("sig-a" ≠ "") ∧
    seeded.CreateAccessTokenSession "sig-a" exampleRequest = (withAccess, none) ∧
    withAccess.RevokeAccessToken exampleRequest.ID = (withAccessRevoked, none) ∧
    withAccessRevoked.access_tokens.map (fun r => (r.ID, r.Signature, r.Active))
      = [("req-1", "sig-a", false)] ∧
    ∃ rq, withAccessRevoked.GetAccessTokenSession "sig-a" = (some rq, none) ∧
      rq.ID = exampleRequest.ID :=
  ⟨by decide, by decide, by decide, by decide, by decide,
    (C11_revoked_access_token_is_still_returned seeded withAccess withAccessRevoked "sig-a"
      exampleRequest (by decide) (by decide) (by decide) (by decide)).2⟩

end store

/-! ## C12 -/

namespace store

/-- C12: in a well-formed store where the request id r has a live access-token row
and a live refresh-token row, after RevokeAccessToken(r) and RevokeRefreshToken(r)
have succeeded, in either order, the access-token row and the refresh-token row
with id r are there with Active = false, the access-token and refresh-token rows
with another id are unchanged, and so is every other table. -/
theorem C12_revoke_both_by_request_id (s0 s2 : Store) (r : String) (hwf : s0.WF)
    (ha : ∃ a ∈ s0.access_tokens, a.ID = r ∧ a.DeletedAt = none)
    (ht : ∃ t ∈ s0.refresh_tokens, t.ID = r ∧ t.DeletedAt = none)
    (h : (∃ s1, s0.RevokeAccessToken r = (s1, none) ∧ s1.RevokeRefreshToken r = (s2, none)) ∨
      (∃ s1, s0.RevokeRefreshToken r = (s1, none) ∧ s1.RevokeAccessToken r = (s2, none))) :
    (∃ row ∈ s2.access_tokens, row.ID = r) ∧
    (∀ row ∈ s2.access_tokens, row.ID = r → row.Active = false) ∧
    (∃ row ∈ s2.refresh_tokens, row.ID = r) ∧
    (∀ row ∈ s2.refresh_tokens, row.ID = r → row.Active = false) ∧
    s2.access_tokens.filter (fun row => row.ID != r)
      = s0.access_tokens.filter (fun row => row.ID != r) ∧
    s2.refresh_tokens.filter (fun row => row.ID != r)
      = s0.refresh_tokens.filter (fun row => row.ID != r) ∧
    s2.authorization_codes = s0.authorization_codes ∧
    s2.clients = s0.clients ∧
    s2.client_jwts = s0.client_jwts ∧
    s2.users = s0.users ∧
    s2.pkces = s0.pkces ∧
    s2.sessions = s0.sessions := by
  obtain ⟨a, hamem, haid, halive⟩ := ha
  obtain ⟨t, htmem, htid, htlive⟩ := ht
  -- both orders lead to the same two rewrites
  have hboth : ∃ xa ∈ s0.access_tokens, ∃ xt ∈ s0.refresh_tokens,
      xa.ID = r ∧ xa.DeletedAt = none ∧ xt.ID = r ∧ xt.DeletedAt = none ∧
      s2 = { s0 with
        access_tokens := s0.access_tokens.map (fun row =>
          if (AccessToken.schema.id row == AccessToken.schema.id xa
              && gorm.live AccessToken.schema row) = true
          then { AccessToken.schema.scan xa with Active := false } else row),
        refresh_tokens := s0.refresh_tokens.map (fun row =>
          if (RefreshToken.schema.id row == RefreshToken.schema.id xt
              && gorm.live RefreshToken.schema row) = true
          then { RefreshToken.schema.scan xt with Active := false } else row) } := by
    rcases h with ⟨s1, h1, h2⟩ | ⟨s1, h1, h2⟩
    · obtain ⟨xa, hxa, hxaid, hxalive, _, hs1⟩ :=
        Store.RevokeAccessToken_map s0 s1 r a hamem haid halive h1
      have htmem1 : t ∈ s1.refresh_tokens := by rw [hs1]; exact htmem
      obtain ⟨xt, hxt, hxtid, hxtlive, _, hs2⟩ :=
        Store.RevokeRefreshToken_map s1 s2 r t htmem1 htid htlive h2
      rw [hs1] at hxt
      refine ⟨xa, hxa, xt, hxt, hxaid, hxalive, hxtid, hxtlive, ?_⟩
      rw [hs2, hs1]
      rfl
    · obtain ⟨xt, hxt, hxtid, hxtlive, _, hs1⟩ :=
        Store.RevokeRefreshToken_map s0 s1 r t htmem htid htlive h1
      have hamem1 : a ∈ s1.access_tokens := by rw [hs1]; exact hamem
      obtain ⟨xa, hxa, hxaid, hxalive, _, hs2⟩ :=
        Store.RevokeAccessToken_map s1 s2 r a hamem1 haid halive h2
      rw [hs1] at hxa
      refine ⟨xa, hxa, xt, hxt, hxaid, hxalive, hxtid, hxtlive, ?_⟩
      rw [hs2, hs1]
      rfl
  obtain ⟨xa, hxa, xt, hxt, hxaid, hxalive, hxtid, hxtlive, hs2⟩ := hboth
  have hfa := gorm.rewrite_frame AccessToken.schema (fun row => row.Active) s0.access_tokens xa
    { AccessToken.schema.scan xa with Active := false } r hwf.1.1 hxa
    (by simp [gorm.live, AccessToken.schema, hxalive]) hxaid hxaid rfl
  have hft := gorm.rewrite_frame RefreshToken.schema (fun row => row.Active) s0.refresh_tokens
    xt { RefreshToken.schema.scan xt with Active := false } r hwf.2.2.2.2.2.2.1.1 hxt
    (by simp [gorm.live, RefreshToken.schema, hxtlive]) hxtid hxtid rfl
  rw [hs2]
  exact ⟨⟨_, hfa.1, hxaid⟩, hfa.2.1, ⟨_, hft.1, hxtid⟩, hft.2.1, hfa.2.2, hft.2.2,
    rfl, rfl, rfl, rfl, rfl, rfl⟩

/-- C12 at the store withTokens: req-1 has an access token and a refresh token,
req-2 an access token; both tokens of req-1 are revoked. -/
theorem C12_witness :
    withTokens.WF ∧
    (∃ a ∈ withTokens.access_tokens, a.ID = "req-1" ∧ a.DeletedAt = none) ∧
    (∃ t ∈ withTokens.refresh_tokens, t.ID = "req-1" ∧ t.DeletedAt = none) ∧
    withTokens.RevokeAccessToken "req-1" = (withTokensAccessRevoked, none) ∧
    withTokensAccessRevoked.RevokeRefreshToken "req-1" = (withTokensRevoked, none) ∧
    (∀ row ∈ withTokensRevoked.access_tokens, row.ID = "req-1" → row.Active = false) ∧
    (∀ row ∈ withTokensRevoked.refresh_tokens, row.ID = "req-1" → row.Active = false) ∧
    withTokensRevoked.access_tokens.filter (fun row => row.ID != "req-1")
      = withTokens.access_tokens.filter (fun row => row.ID != "req-1") :=
  have h := C12_revoke_both_by_request_id withTokens withTokensRevoked "req-1" (by decide)
    (by decide) (by decide) (Or.inl ⟨withTokensAccessRevoked, by decide, by decide⟩)
  ⟨by decide, by decide, by decide, by decide, by decide, h.2.1, h.2.2.2.1, h.2.2.2.2.1⟩

end store

/-! ## C13 and C14 -/

namespace store

/-- What DeletePKCERequestSession does: with the empty signature nothing, and the
error of GORM for a delete without condition; with another signature a soft delete
of every live row that carries it, and no error whether or not there is one. -/
theorem Store.DeletePKCERequestSession_eq (m : Store) (now : time.Time) (signature : String) :
    (signature = "" → m.DeletePKCERequestSession now signature
      = (m, some (.Errorf "failed to delete PCKE request: %w" .ErrMissingWhereClause))) ∧
    (signature ≠ "" → m.DeletePKCERequestSession now signature
      = ({ m with pkces := m.pkces.map (fun r =>
            if (gorm.live PKCE.schema r && r.Signature == signature) = true
            then { r with DeletedAt := some now } else r) }, none)) := by
  constructor
  · intro h
    subst h
    rfl
  · intro h
    unfold Store.DeletePKCERequestSession
    rw [gorm.whereConds_ne _ _ h, gorm.Delete_one]

theorem Store.DeleteAccessTokenSession_eq (m : Store) (now : time.Time) (signature : String) :
    (signature = "" → m.DeleteAccessTokenSession now signature
      = (m, some (.Errorf "failed to delete access token: %w" .ErrMissingWhereClause))) ∧
    (signature ≠ "" → m.DeleteAccessTokenSession now signature
      = ({ m with access_tokens := m.access_tokens.map (fun r =>
            if (gorm.live AccessToken.schema r && r.Signature == signature) = true
            then { r with DeletedAt := some now } else r) }, none)) := by
  constructor
  · intro h
    subst h
    rfl
  · intro h
    unfold Store.DeleteAccessTokenSession
    rw [gorm.whereConds_ne _ _ h, gorm.Delete_one]

theorem Store.DeleteRefreshTokenSession_eq (m : Store) (now : time.Time) (signature : String) :
    (signature = "" → m.DeleteRefreshTokenSession now signature
      = (m, some (.Errorf "failed to delete refresh token: %w" .ErrMissingWhereClause))) ∧
    (signature ≠ "" → m.DeleteRefreshTokenSession now signature
      = ({ m with refresh_tokens := m.refresh_tokens.map (fun r =>
            if (gorm.live RefreshToken.schema r && r.Signature == signature) = true
            then { r with DeletedAt := some now } else r) }, none)) := by
  constructor
  · intro h
    subst h
    rfl
  · intro h
    unfold Store.DeleteRefreshTokenSession
    rw [gorm.whereConds_ne _ _ h, gorm.Delete_one]

/-- C13: when CreatePKCERequestSession(signature, request) succeeds (giving s1) and
DeletePKCERequestSession(signature) then succeeds (giving s2), a following
GetPKCERequestSession(signature) returns a nil request and an error that is
ErrNotFound.  The delete is a soft delete: the row of the request is still in the
table, marked as deleted at the time of the call. -/
theorem C13_deleted_pkce_is_not_found (s0 s1 s2 : Store) (signature : String)
    (request : fosite.Request) (now : time.Time)
    (hcreate : s0.CreatePKCERequestSession signature request = (s1, none))
    (hdelete : s1.DeletePKCERequestSession now signature = (s2, none)) :
    (∃ e, s2.GetPKCERequestSession signature = (none, some e) ∧
      errors.Is e .ErrNotFound = true) ∧
    (∃ row ∈ s2.pkces, row.ID = request.ID ∧ row.Signature = signature ∧
      row.DeletedAt = some now) := by
  have hsig : signature ≠ "" := by
    intro h
    rw [(Store.DeletePKCERequestSession_eq s1 now signature).1 h] at hdelete
    simp at hdelete
  rw [(Store.DeletePKCERequestSession_eq s1 now signature).2 hsig] at hdelete
  simp only [Prod.mk.injEq, and_true] at hdelete
  constructor
  · refine ⟨.Errorf2 "%w: %w" .ErrNotFound .ErrRecordNotFound, ?_, by simp [errors.Is]⟩
    have hcond : (fun r : PKCE => gorm.live PKCE.schema r &&
        [gorm.whereEq (fun r : PKCE => r.Signature) signature].all (fun c => c r))
        = (fun r : PKCE => gorm.live PKCE.schema r && r.Signature == signature) := by
      funext r
      have : (signature == "") = false := by simpa using hsig
      simp [gorm.whereEq, this]
    unfold Store.GetPKCERequestSession gorm.First
    rw [← hdelete, hcond]
    simp only
    rw [gorm.filter_after_delete PKCE.schema (fun r t => { r with DeletedAt := some t })
      (fun r => r.Signature == signature) now (fun _ => rfl)]
    rfl
  · obtain ⟨m1, _, _, hk⟩ := Store.CreatePKCERequestSession_eq s0 signature request
    rw [hk] at hcreate
    split at hcreate
    · simp at hcreate
    · rename_i rows hcr
      simp only [Prod.mk.injEq, and_true] at hcreate
      have hrows := (gorm.Create_ok _ _ _ _ hcr).1
      refine ⟨{ ID := request.ID, Active := true, Signature := signature,
                RequestedAt := request.RequestedAt, ClientID := request.Client.ID,
                RequestedScopes := request.RequestedScope,
                GrantedScopes := request.GrantedScope,
                Form := .doc request.Form, SessionID := request.Session.ID,
                RequestedAudience := request.RequestedAudience,
                GrantedAudience := request.GrantedAudience,
                DeletedAt := some now }, ?_, rfl, rfl, rfl⟩
      rw [← hdelete, ← hcreate]
      simp only [hrows, List.map_append, List.mem_append, List.map_cons, List.map_nil,
        List.mem_singleton]
      right
      simp [gorm.live, PKCE.schema]

/-- C13 at the seeded store: the PKCE request of req-1 under sig-1, created and
then deleted at time 3000. -/
theorem C13_witness :
    seeded.CreatePKCERequestSession "sig-1" exampleRequest = (withPKCE, none) ∧
    withPKCE.DeletePKCERequestSession 3000 "sig-1" = (withPKCEDeleted, none) ∧
    (∃ e, withPKCEDeleted.GetPKCERequestSession "sig-1" = (none, some e) ∧
      errors.Is e .ErrNotFound = true) :=
  ⟨by decide, by decide,
    (C13_deleted_pkce_is_not_found seeded withPKCE withPKCEDeleted "sig-1" exampleRequest 3000
      (by decide) (by decide)).1⟩

/-- C14 fails as stated.  (1) No row of the seeded store has the signature missing,
and each of the three deletes returns nil for it, not NotFound.  (2) A PKCE row
with the empty signature exists, and DeletePKCERequestSession of the empty
signature returns an error and deletes nothing: GORM refuses a delete without a
condition. -/
theorem C14_counterexample :
    ((¬ ∃ r ∈ seeded.pkces, r.Signature = "missing") ∧
      (¬ ∃ r ∈ seeded.access_tokens, r.Signature = "missing") ∧
      (¬ ∃ r ∈ seeded.refresh_tokens, r.Signature = "missing") ∧
      seeded.DeletePKCERequestSession 3000 "missing" = (seeded, none) ∧
      seeded.DeleteAccessTokenSession 3000 "missing" = (seeded, none) ∧
      seeded.DeleteRefreshTokenSession 3000 "missing" = (seeded, none)) ∧
    ((∃ r ∈ withEmptyPKCE.pkces, r.Signature = "") ∧
      withEmptyPKCE.DeletePKCERequestSession 3000 ""
        = (withEmptyPKCE,
            some (.Errorf "failed to delete PCKE request: %w" .ErrMissingWhereClause))) := by
  decide

/-- C14, amended: for every store state, each of DeleteAccessTokenSession,
DeleteRefreshTokenSession and DeletePKCERequestSession returns ok for every
non-empty signature, whether or not a row with the signature exists (it never
returns NotFound): it marks every live row of its table that carries the signature
as deleted and changes nothing else.  For the empty signature it returns the error
ErrMissingWhereClause of GORM, wrapped, and changes nothing. -/
theorem C14_delete_returns (m : Store) (now : time.Time) (signature : String) :
    (signature ≠ "" →
      m.DeleteAccessTokenSession now signature
        = ({ m with access_tokens := m.access_tokens.map (fun r =>
              if (gorm.live AccessToken.schema r && r.Signature == signature) = true
              then { r with DeletedAt := some now } else r) }, none) ∧
      m.DeleteRefreshTokenSession now signature
        = ({ m with refresh_tokens := m.refresh_tokens.map (fun r =>
              if (gorm.live RefreshToken.schema r && r.Signature == signature) = true
              then { r with DeletedAt := some now } else r) }, none) ∧
      m.DeletePKCERequestSession now signature
        = ({ m with pkces := m.pkces.map (fun r =>
              if (gorm.live PKCE.schema r && r.Signature == signature) = true
              then { r with DeletedAt := some now } else r) }, none)) ∧
    (signature = "" →
      m.DeleteAccessTokenSession now signature
        = (m, some (.Errorf "failed to delete access token: %w" .ErrMissingWhereClause)) ∧
      m.DeleteRefreshTokenSession now signature
        = (m, some (.Errorf "failed to delete refresh token: %w" .ErrMissingWhereClause)) ∧
      m.DeletePKCERequestSession now signature
        = (m, some (.Errorf "failed to delete PCKE request: %w" .ErrMissingWhereClause))) ∧
    (∀ e, errors.Is (.Errorf e .ErrMissingWhereClause) .ErrNotFound = false) := by
  refine ⟨fun h => ⟨?_, ?_, ?_⟩, fun h => ⟨?_, ?_, ?_⟩, fun e => by simp [errors.Is]⟩
  · exact (Store.DeleteAccessTokenSession_eq m now signature).2 h
  · exact (Store.DeleteRefreshTokenSession_eq m now signature).2 h
  · exact (Store.DeletePKCERequestSession_eq m now signature).2 h
  · exact (Store.DeleteAccessTokenSession_eq m now signature).1 h
  · exact (Store.DeleteRefreshTokenSession_eq m now signature).1 h
  · exact (Store.DeletePKCERequestSession_eq m now signature).1 h

/-- C14, amended, at the store withPKCE: the delete of sig-1, which a row carries,
and the delete of the signature missing, which no row carries, both return nil. -/
theorem C14_witness :
    (("sig-1" ≠ "") ∧ (withPKCE.DeletePKCERequestSession 3000 "sig-1").2 = none) ∧
    (("missing" ≠ "") ∧ (withPKCE.DeletePKCERequestSession 3000 "missing").2 = none) ∧
    (withPKCE.DeletePKCERequestSession 3000 "").2
      = some (.Errorf "failed to delete PCKE request: %w" .ErrMissingWhereClause) :=
  ⟨⟨by decide, by rw [((C14_delete_returns withPKCE 3000 "sig-1").1 (by decide)).2.2]⟩,
    ⟨by decide, by rw [((C14_delete_returns withPKCE 3000 "missing").1 (by decide)).2.2]⟩,
    by rw [((C14_delete_returns withPKCE 3000 "").2.1 rfl).2.2]⟩

end store

/-! ## C15 and C17 -/

namespace store

/-- A SetExpiresAt for another token type leaves the expiry of a token type as it
was, or, when a time cannot be encoded, resets it to the zero Time. -/
theorem Session.GetExpiresAt_other (s s1 : Session) (key other : String) (exp : time.Time)
    (hne : other ≠ key) (h : s.SetExpiresAt key exp = some s1) :
    s1.GetExpiresAt other = s.GetExpiresAt other ∨ s1.GetExpiresAt other = 0 := by
  rw [Session.GetExpiresAt_eq, Session.GetExpiresAt_eq, Session.decode_after_set s s1 key exp h]
  by_cases hall : (setKey s.decodeExpiresAt key exp).all (fun e => e.2.Encodable) = true
  · rw [if_pos hall, lookup_setKey_ne _ _ _ _ hne]
    exact Or.inl rfl
  · rw [if_neg hall]
    exact Or.inr rfl

/-- C15 fails as stated in two ways.  (1) A time that encoding/json cannot encode:
the session holds the access token expiry 5000; SetExpiresAt(refresh_token, t) with
t the first instant of the year 10000 makes json.Marshal fail, the source drops
the error and stores the nil slice: GetExpiresAt(refresh_token) is then the zero
Time, not t, and GetExpiresAt(access_token) is the zero Time, not the 5000 it
returned before.  (2) A session whose ExpiresAt holds the document null:
GetExpiresAt returns the zero Time, and SetExpiresAt panics on the nil map that
json.Unmarshal leaves, so that there is no state after the call. -/
theorem C15_counterexample :
    ((sessionWithExpiry.SetExpiresAt "refresh_token" time.year10000).map
        (fun s1 => (s1.GetExpiresAt "refresh_token", s1.GetExpiresAt "access_token"))
      = some (0, 0) ∧
      time.year10000 ≠ 0 ∧
      sessionWithExpiry.GetExpiresAt "access_token" = 5000) ∧
    (sessionWithNull.GetExpiresAt "access_token" = 0 ∧
      sessionWithNull.SetExpiresAt "access_token" 5000 = none) := by
  decide

/-- C15, amended: for every session s whose ExpiresAt does not hold the document
null and whose stored expiries are times that encoding/json can encode, token
types k and k' with k' different from k, and every time t that encoding/json can
encode (before the year 10000): s.SetExpiresAt(k, t) returns, and after it
s.GetExpiresAt(k) returns t and s.GetExpiresAt(k') returns what it returned before
the call.  GetExpiresAt returns the zero Time on a session whose expiry map is nil,
and for a token type that was never set: after any sequence of SetExpiresAt calls
for other token types on such a session, each of which returns. -/
theorem C15_set_then_get_expiry (s : Session) (k k' : String) (t : time.Time)
    (hk : k' ≠ k) (ht : t.Encodable = true) (hs : s.ExpiryEncodable)
    (hnull : s.ExpiresAt ≠ .null) :
    (∃ s1, s.SetExpiresAt k t = some s1 ∧
      s1.GetExpiresAt k = t ∧ s1.GetExpiresAt k' = s.GetExpiresAt k') ∧
    (∀ (s0 : Session) (key : String), s0.ExpiresAt = .nil → s0.GetExpiresAt key = 0) ∧
    (∀ (s0 : Session) (key : String) (sets : List (String × time.Time)),
      s0.ExpiresAt = .nil → (∀ e ∈ sets, e.1 ≠ key) →
      ∃ s1, sets.foldlM (fun acc e => acc.SetExpiresAt e.1 e.2) s0 = some s1 ∧
        s1.GetExpiresAt key = 0) := by
  have hall := setKey_all_encodable s.decodeExpiresAt k t hs ht
  have hnil : ∀ (s0 : Session) (key : String), s0.ExpiresAt = .nil →
      s0.GetExpiresAt key = 0 := by
    intro s0 key h0
    unfold Session.GetExpiresAt
    rw [h0]
  refine ⟨?_, hnil, ?_⟩
  · have hset := Session.SetExpiresAt_eq s k t hnull
    refine ⟨_, hset, ?_, ?_⟩
    · rw [Session.GetExpiresAt_eq, Session.decode_after_set s _ k t hset, if_pos hall,
        lookup_setKey_self]
      rfl
    · rw [Session.GetExpiresAt_eq, Session.GetExpiresAt_eq,
        Session.decode_after_set s _ k t hset, if_pos hall, lookup_setKey_ne _ _ _ _ hk]
  · intro s0 key sets h0 hsets
    have hgen : ∀ (sets : List (String × time.Time)) (acc : Session),
        acc.ExpiresAt ≠ .null → acc.GetExpiresAt key = 0 → (∀ e ∈ sets, e.1 ≠ key) →
        ∃ s1, sets.foldlM (fun acc e => acc.SetExpiresAt e.1 e.2) acc = some s1 ∧
          s1.GetExpiresAt key = 0 := by
      intro sets
      induction sets with
      | nil => intro acc _ hacc _; exact ⟨acc, rfl, hacc⟩
      | cons e rest ih =>
        intro acc hacc0 hacc hne
        have hset := Session.SetExpiresAt_eq acc e.1 e.2 hacc0
        rw [List.foldlM_cons, hset]
        apply ih
        · exact Session.SetExpiresAt_ne_null acc _ e.1 e.2 hset
        · rcases Session.GetExpiresAt_other acc _ e.1 key e.2
            (fun h => hne e (List.mem_cons_self _ _) h.symm) hset with h | h
          · rw [h]; exact hacc
          · exact h
        · intro e' he'
          exact hne e' (List.mem_cons_of_mem _ he')
    exact hgen sets s0 (by rw [h0]; simp) (hnil s0 key h0) hsets

/-- C15, amended, at the session that holds the access token expiry 5000: the
refresh token expiry 7000 is set and read, the access token expiry stays. -/
theorem C15_witness :
    ("access_token" ≠ "refresh_token") ∧ (time.Time.Encodable 7000 = true) ∧
    sessionWithExpiry.ExpiryEncodable ∧ sessionWithExpiry.ExpiresAt ≠ .null ∧
    ∃ s1, sessionWithExpiry.SetExpiresAt "refresh_token" 7000 = some s1 ∧
      s1.GetExpiresAt "refresh_token" = 7000 ∧
      s1.GetExpiresAt "access_token" = sessionWithExpiry.GetExpiresAt "access_token" :=
  ⟨by decide, by decide, by decide, by decide,
    (C15_set_then_get_expiry sessionWithExpiry "refresh_token" "access_token" 7000
      (by decide) (by decide) (by decide) (by decide)).1⟩

/-- C17: StringArray.Scan never produces an empty list: for every string st (and
whatever the receiver held), Scan(st) has at least one element, and its elements
joined with a semicolon give st again.  So Scan(Value(l)) = l for every non-empty
list l whose elements contain no semicolon, whereas the list without elements (the
nil slice by the first branch of Value, the empty slice by strings.Join) is encoded
as the empty string and decodes to the list of one empty string. -/
theorem C17_scan_never_empty :
    (∀ (receiver : StringArray) (st : String),
      1 ≤ (StringArray.Scan receiver (some st)).length ∧
      strings.Join (StringArray.Scan receiver (some st)) ';' = st) ∧
    (∀ (receiver l : StringArray), l ≠ [] → (∀ s ∈ l, ';' ∉ s.data) →
      StringArray.Scan receiver (some (StringArray.Value l)) = l) ∧
    StringArray.Value [] = "" ∧
    strings.Join [] ';' = "" ∧
    (∀ receiver : StringArray,
      StringArray.Scan receiver (some (StringArray.Value [])) = [""]) := by
  refine ⟨?_, ?_, by decide, by decide, ?_⟩
  · intro receiver st
    refine ⟨?_, StringArray.join_split st ';'⟩
    have hne := StringArray.split_ne_nil st ';'
    show 1 ≤ (strings.Split st ';').length
    cases hs : strings.Split st ';' with
    | nil => exact absurd hs hne
    | cons a rest => simp
  · intro receiver l hne hsep
    exact StringArray.stored_eq_self l hne hsep
  · intro receiver
    have h : StringArray.Scan [] (some (StringArray.Value [])) = [""] := by decide
    exact h

/-- C17 at the scope list of the seeded clients. -/
theorem C17_witness :
    ((["fosite", "photos", "offline"] : StringArray) ≠ []) ∧
    (∀ s ∈ (["fosite", "photos", "offline"] : StringArray), ';' ∉ s.data) ∧
    StringArray.Scan [] (some (StringArray.Value ["fosite", "photos", "offline"]))
      = ["fosite", "photos", "offline"] :=
  ⟨by decide, by decide,
    C17_scan_never_empty.2.1 [] ["fosite", "photos", "offline"] (by decide) (by decide)⟩

end store

/-! ## C16 -/

namespace store

/-- C16 fails as stated when the previous signature is empty.  The store holds the
access token of req-1 under the empty signature; CreateAccessTokenSession("sig-b",
req-1) succeeds and overwrites that row, and GetAccessTokenSession("") for the
previous signature then returns the request req-1 with no error, not ErrNotFound:
the struct condition on a zero Signature is no condition. -/
theorem C16_counterexample :
    withEmptyAccess.access_tokens.map (fun r => (r.ID, r.Signature, r.Active))
      = [("req-1", "", true)] ∧
    withEmptyAccess.CreateAccessTokenSession "sig-b" exampleRequest
      = (withEmptyAccessOverwritten, none) ∧
    withEmptyAccessOverwritten.access_tokens.map (fun r => (r.ID, r.Signature, r.Active))
      = [("req-1", "sig-b", true)] ∧
    (withEmptyAccessOverwritten.GetAccessTokenSession "").2 = none ∧
    (withEmptyAccessOverwritten.GetAccessTokenSession "").1.map (fun rq => rq.ID)
      = some "req-1" := by
  decide

/-- C16, amended: in a well-formed store, CreateAccessTokenSession (and likewise
CreateRefreshTokenSession) called with a request id that a row old of the table
already has, and a signature that no row of another id carries (soft-deleted rows
included), succeeds; afterwards the rows with that id are exactly one row, which is
live, active and carries the new signature and the request data; and when the
signature of old differs from the new one and is not empty, GetAccessTokenSession
(GetRefreshTokenSession) for it returns a nil request and an error that is
ErrNotFound. -/
theorem C16_create_overwrites_row_of_same_id (m : Store) (signature : String)
    (request : fosite.Request) (hwf : m.WF) :
    (∀ old ∈ m.access_tokens, old.ID = request.ID →
      (∀ r ∈ m.access_tokens, r.Signature = signature → r.ID = request.ID) →
      ∃ m1, m.CreateAccessTokenSession signature request = (m1, none) ∧
        (∃ row, m1.access_tokens.filter (fun r => r.ID == request.ID) = [row] ∧
          row.DeletedAt = none ∧ row.Active = true ∧ row.Signature = signature ∧
          row.ID = request.ID ∧ row.RequestedAt = request.RequestedAt ∧
          row.ClientID = request.Client.ID ∧ row.SessionID = request.Session.ID ∧
          row.RequestedScopes = request.RequestedScope ∧
          row.GrantedScopes = request.GrantedScope ∧
          row.RequestedAudience = request.RequestedAudience ∧
          row.GrantedAudience = request.GrantedAudience ∧
          row.Form = .doc request.Form) ∧
        (old.Signature ≠ signature → old.Signature ≠ "" →
          ∃ e, m1.GetAccessTokenSession old.Signature = (none, some e) ∧
            errors.Is e .ErrNotFound = true)) ∧
    (∀ old ∈ m.refresh_tokens, old.ID = request.ID →
      (∀ r ∈ m.refresh_tokens, r.Signature = signature → r.ID = request.ID) →
      ∃ m1, m.CreateRefreshTokenSession signature request = (m1, none) ∧
        (∃ row, m1.refresh_tokens.filter (fun r => r.ID == request.ID) = [row] ∧
          row.DeletedAt = none ∧ row.Active = true ∧ row.Signature = signature ∧
          row.ID = request.ID ∧ row.RequestedAt = request.RequestedAt ∧
          row.ClientID = request.Client.ID ∧ row.SessionID = request.Session.ID ∧
          row.RequestedScopes = request.RequestedScope ∧
          row.GrantedScopes = request.GrantedScope ∧
          row.RequestedAudience = request.RequestedAudience ∧
          row.GrantedAudience = request.GrantedAudience ∧
          row.Form = .doc request.Form) ∧
        (old.Signature ≠ signature → old.Signature ≠ "" →
          ∃ e, m1.GetRefreshTokenSession old.Signature = (none, some e) ∧
            errors.Is e .ErrNotFound = true)) :=
  ⟨fun old hold hid hfree =>
      Store.CreateAccessTokenSession_overwrite m signature request old hwf hold hid hfree,
    fun old hold hid hfree =>
      Store.CreateRefreshTokenSession_overwrite m signature request old hwf hold hid hfree⟩

/-- C16, amended, at the store withAccess: the access token of req-1 under sig-a is
created again under sig-b; the create succeeds, the table holds one row of req-1
with sig-b, and GetAccessTokenSession("sig-a") reports ErrNotFound. -/
theorem C16_witness :
    withAccess.WF ∧
    withAccess.access_tokens.map (fun r => (r.ID, r.Signature)) = [("req-1", "sig-a")] ∧
    withAccess.CreateAccessTokenSession "sig-b" exampleRequest
      = (withAccessOverwritten, none) ∧
    withAccessOverwritten.access_tokens.map (fun r => (r.ID, r.Signature, r.Active))
      = [("req-1", "sig-b", true)] ∧
    (∃ e, withAccessOverwritten.GetAccessTokenSession "sig-a" = (none, some e) ∧
      errors.Is e .ErrNotFound = true) ∧
    ∃ old ∈ withAccess.access_tokens, ∃ m1,
      withAccess.CreateAccessTokenSession "sig-b" exampleRequest = (m1, none) ∧
      (old.Signature ≠ "sig-b" → old.Signature ≠ "" →
        ∃ e, m1.GetAccessTokenSession old.Signature = (none, some e) ∧
          errors.Is e .ErrNotFound = true) :=
  ⟨by decide, by decide, by decide, by decide,
    ⟨.Errorf2 "%w: %w" .ErrNotFound .ErrRecordNotFound, by decide, by decide⟩,
    withAccess.access_tokens.head (by decide),
    List.head_mem (by decide),
    (C16_create_overwrites_row_of_same_id withAccess "sig-b" exampleRequest (by decide)).1
      (withAccess.access_tokens.head (by decide)) (List.head_mem (by decide)) (by decide)
      (by decide) |>.imp (fun _ h => ⟨h.1, h.2.2⟩)⟩

end store
